import Mathlib

/-!
Shallow embedding of the window-arrangement core of instantWM
(src/instantwm.c) and proofs about its specification.

Modelling conventions:
* machine integers (`int`) become `Int`; `unsigned int` quantities that the
  code keeps small (tag masks, list indices, counters) become `Nat`;
  C `float` values (`mfact`, aspect bounds) become `Rat`, with
  float-to-integer conversion modelled as truncation toward zero;
* the intrusive `next`/`snext` pointer lists of `struct Client` become
  per-monitor lists of client identifiers (`cid`), with one flat store of
  client records; `c->mon` becomes an index into the monitor list;
* X11 calls (XConfigureWindow, XSetInputFocus, drawing, pointer grabs)
  have no effect on the embedded state except where the source stores
  data back into its own structures; the border width handed to the X
  server by `resizeclient` (`wc.border_width`) is tracked in the field
  `xbw` so that the on-screen footprint of a window can be stated;
* the `HIDDEN(c)` macro queries the WM_STATE property (IconicState) of
  the window; it is modelled as the client field `hidden`, which none of
  the embedded operations mutate;
* `animateclient` runs an easing loop (guarded by the `animated` global)
  whose intermediate frames only issue transient resizes; its lasting
  effect on the state is the final `resize` call, which is what the
  embedding performs;
* `resizehints` and the number of tags come from the configuration header
  (not part of src/); they are carried as fields of the state record so
  statements can quantify over them.
-/

namespace InstantWM

/-- Truncation toward zero of a rational, modelling C float-to-int
conversion on the values the code produces. -/
def truncQ (q : Rat) : Int :=
  if 0 ≤ q then q.floor else q.ceil

/-- Position of the lowest set bit (fuel-bounded structural recursion;
`n` itself bounds the scan depth for any nonzero `n`), modelling the loop
`for (i = 0; !(ui & 1 << i); i++);` in `view`. -/
def lowestBitAux : Nat → Nat → Nat
  | 0, _ => 0
  | fuel + 1, n => if n % 2 = 1 then 0 else lowestBitAux fuel (n / 2) + 1

/-- Position of the lowest set bit of a nonzero number. -/
def lowestBit (n : Nat) : Nat :=
  lowestBitAux n n

/-- In-place update of the element at position `i` of a list, used for the
fixed-size per-tag arrays and the monitor ring. -/
def modList {α : Type} (l : List α) (i : Nat) (f : α → α) : List α :=
  match l, i with
  | [], _ => []
  | a :: t, 0 => f a :: t
  | a :: t, n + 1 => a :: modList t n f

/-- The layout table entries the claims exercise; `floatingL` is the
NULL-arrange entry. `bstack`/`bstackhoriz` are the remaining arrange
functions defined in the source. -/
inductive LayoutKind : Type
  | tiledL
  | monocleL
  | bstackL
  | bstackhorizL
  | floatingL
deriving DecidableEq, Repr

/-- `struct Layout`: a symbol string and an arrange function, the latter
identified by `LayoutKind`. -/
structure Layout : Type where
  symbol : String
  kind : LayoutKind
deriving DecidableEq, Repr

/-- Whether the layout's `arrange` pointer is non-NULL. -/
def Layout.hasArrange (l : Layout) : Bool :=
  l.kind != LayoutKind.floatingL

/-- `struct Client` (the fields the embedded operations use). `cid` stands
for the node's identity (its address in C); `mon` is the index of the
owning monitor; `xbw` is the border width most recently configured on the
X window (`wc.border_width` in `resizeclient`); `hidden` mirrors the
`HIDDEN` macro (WM_STATE == IconicState). -/
structure Client : Type where
  cid : Nat
  x : Int := 0
  y : Int := 0
  w : Int := 0
  h : Int := 0
  oldx : Int := 0
  oldy : Int := 0
  oldw : Int := 0
  oldh : Int := 0
  basew : Int := 0
  baseh : Int := 0
  incw : Int := 0
  inch : Int := 0
  maxw : Int := 0
  maxh : Int := 0
  minw : Int := 0
  minh : Int := 0
  mina : Rat := 0
  maxa : Rat := 0
  bw : Int := 0
  xbw : Int := 0
  tags : Nat := 0
  isfixed : Bool := false
  isfloating : Bool := false
  isurgent : Bool := false
  neverfocus : Bool := false
  isfullscreen : Bool := false
  isfakefullscreen : Bool := false
  islocked : Bool := false
  issticky : Bool := false
  hidden : Bool := false
  mon : Nat := 0

instance : Inhabited Client := ⟨{ cid := 0 }⟩

/-- `struct Pertag`: per-tag saved configuration, arrays indexed by
tag index (index 0 is the all-tags view). -/
structure Pertag : Type where
  curtag : Nat := 1
  prevtag : Nat := 1
  nmasters : List Nat := []
  mfacts : List Rat := []
  sellts : List Nat := []
  ltidxs : List (Layout × Layout) := []
  showbars : List Bool := []

/-- `struct Monitor` (the fields the embedded operations use).
`clients` is the arrangement list (`c->next` chain), `stack` the
stack-order list (`c->snext` chain), both as lists of client ids;
`sel` is the focused-client pointer. -/
structure Monitor : Type where
  ltsymbol : String := ""
  mfact : Rat := 0
  nmaster : Nat := 1
  num : Int := 0
  by_ : Int := 0
  mx : Int := 0
  my : Int := 0
  mw : Int := 0
  mh : Int := 0
  wx : Int := 0
  wy : Int := 0
  ww : Int := 0
  wh : Int := 0
  seltags : Nat := 0
  sellt : Nat := 0
  tagset0 : Nat := 1
  tagset1 : Nat := 1
  showbar : Bool := true
  topbar : Bool := true
  clients : List Nat := []
  sel : Option Nat := none
  gesture : Int := 0
  stack : List Nat := []
  lt0 : Layout := { symbol := "", kind := LayoutKind.floatingL }
  lt1 : Layout := { symbol := "", kind := LayoutKind.floatingL }
  pertag : Pertag := {}

instance : Inhabited Monitor := ⟨{}⟩

/-- The whole embedded state: the client store, the monitor ring (as a
list, `selmon` an index into it), the screen and bar globals, and the
configuration-header constants the embedded code reads (`resizehints`,
the tag count). `isdesktop` is the global flag `focus` maintains. -/
structure WM : Type where
  store : List Client := []
  mons : List Monitor := []
  selmon : Nat := 0
  sw : Int := 0
  sh : Int := 0
  bh : Int := 0
  resizehints : Bool := false
  isdesktop : Bool := false
  ntags : Nat := 9

/-- Dereference a client id (a C pointer dereference); absent ids give a
default record that no embedded predicate accepts as visible. -/
def findC (s : WM) (cid : Nat) : Client :=
  (s.store.find? (fun c => c.cid = cid)).getD { cid := cid }

/-- Whether a client id is live in the store. -/
def hasC (s : WM) (cid : Nat) : Bool :=
  (s.store.find? (fun c => c.cid = cid)).isSome

/-- Dereference a monitor index. -/
def monAt (s : WM) (mi : Nat) : Monitor :=
  s.mons.getD mi {}

/-- Update the client record with id `cid` in the store. -/
def updC (s : WM) (cid : Nat) (f : Client → Client) : WM :=
  { s with store := s.store.map (fun c => if c.cid = cid then f c else c) }

/-- Update the monitor at index `mi`. -/
def updMon (s : WM) (mi : Nat) (f : Monitor → Monitor) : WM :=
  { s with mons := modList s.mons mi f }

/-- `m->tagset[i]`. -/
def Monitor.tagsetAt (m : Monitor) (i : Nat) : Nat :=
  if i = 0 then m.tagset0 else m.tagset1

/-- Write `m->tagset[i]`. -/
def Monitor.setTagsetAt (m : Monitor) (i : Nat) (v : Nat) : Monitor :=
  if i = 0 then { m with tagset0 := v } else { m with tagset1 := v }

/-- `m->lt[i]`. -/
def Monitor.ltAt (m : Monitor) (i : Nat) : Layout :=
  if i = 0 then m.lt0 else m.lt1

/-- Write `m->lt[i]`. -/
def Monitor.setLtAt (m : Monitor) (i : Nat) (v : Layout) : Monitor :=
  if i = 0 then { m with lt0 := v } else { m with lt1 := v }

/-- `m->lt[m->sellt]`, the currently selected layout. -/
def Monitor.curLt (m : Monitor) : Layout :=
  m.ltAt m.sellt

/-- `m->tagset[m->seltags]`, the active tag set. -/
def Monitor.activeTagset (m : Monitor) : Nat :=
  m.tagsetAt m.seltags

/-- The `ISVISIBLE(C)` macro:
`(C->tags & C->mon->tagset[C->mon->seltags]) || C->issticky`. -/
def visible (s : WM) (c : Client) : Bool :=
  (c.tags &&& (monAt s c.mon).activeTagset) != 0 || c.issticky

/-- The predicate of `nexttiled`: not floating, visible, not hidden. -/
def isTiled (s : WM) (cid : Nat) : Bool :=
  let c := findC s cid
  !c.isfloating && visible s c && !c.hidden

/-- `TAGMASK` = `(1 << LENGTH(tags)) - 1`. -/
def TAGMASK (s : WM) : Nat :=
  2 ^ s.ntags - 1

/-- `~0` as a 32-bit unsigned int, the all-tags sentinel tested by `view`. -/
def UINTMAX : Nat :=
  2 ^ 32 - 1

/-- Result of `applysizehints`: the resolved rectangle (the values left in
the out-parameters) and the returned changed flag. -/
structure SHRes : Type where
  x : Int
  y : Int
  w : Int
  h : Int
  changed : Bool

/-- `applysizehints(c, &x, &y, &w, &h, interact)` (instantwm.c:665).
Pure: it reads the client, its monitor and the globals and resolves the
proposed rectangle.  Aspect arithmetic (C float) is carried out in exact
rationals; `%` on possibly negative operands is C truncated remainder
(`Int.tmod`). -/
def applysizehints (s : WM) (c : Client) (x y w h : Int)
    (interact : Bool) : SHRes :=
  let m := monAt s c.mon
  let w := max 1 w
  let h := max 1 h
  let x := if interact then (if x > s.sw then s.sw - (c.w + 2 * c.bw) else x)
           else (if x ≥ m.wx + m.ww then m.wx + m.ww - (c.w + 2 * c.bw) else x)
  let y := if interact then (if y > s.sh then s.sh - (c.h + 2 * c.bw) else y)
           else (if y ≥ m.wy + m.wh then m.wy + m.wh - (c.h + 2 * c.bw) else y)
  let x := if interact then (if x + w + 2 * c.bw < 0 then 0 else x)
           else (if x + w + 2 * c.bw ≤ m.wx then m.wx else x)
  let y := if interact then (if y + h + 2 * c.bw < 0 then 0 else y)
           else (if y + h + 2 * c.bw ≤ m.wy then m.wy else y)
  let h := if h < s.bh then s.bh else h
  let w := if w < s.bh then s.bh else w
  let (w, h) :=
    if s.resizehints || c.isfloating || !m.curLt.hasArrange then
      let baseismin : Bool := c.basew = c.minw && c.baseh = c.minh
      let w := if !baseismin then w - c.basew else w
      let h := if !baseismin then h - c.baseh else h
      let (w, h) :=
        if 0 < c.mina && 0 < c.maxa then
          if c.maxa < (w : Rat) / (h : Rat) then
            (truncQ ((h : Rat) * c.maxa + 1/2), h)
          else if c.mina < (h : Rat) / (w : Rat) then
            (w, truncQ ((w : Rat) * c.mina + 1/2))
          else (w, h)
        else (w, h)
      let w := if baseismin then w - c.basew else w
      let h := if baseismin then h - c.baseh else h
      let w := if c.incw ≠ 0 then w - Int.tmod w c.incw else w
      let h := if c.inch ≠ 0 then h - Int.tmod h c.inch else h
      let w := max (w + c.basew) c.minw
      let h := max (h + c.baseh) c.minh
      let w := if c.maxw ≠ 0 then min w c.maxw else w
      let h := if c.maxh ≠ 0 then min h c.maxh else h
      (w, h)
    else (w, h)
  { x := x, y := y, w := w, h := h,
    changed := x ≠ c.x || y ≠ c.y || w ≠ c.w || h ≠ c.h }

/-- `nexttiled(c)` applied to the head of an id list: the first id whose
client is neither floating nor invisible nor hidden. -/
def firstTiled (s : WM) : List Nat → Option Nat
  | [] => none
  | cid :: rest => if isTiled s cid then some cid else firstTiled s rest

/-- The ids strictly after the first occurrence of `cid` in the list
(the `c->next` suffix). -/
def afterId (cid : Nat) : List Nat → List Nat
  | [] => []
  | c :: rest => if c = cid then rest else afterId cid rest

/-- `resizeclient(c, x, y, w, h)` (instantwm.c:2830): commit the geometry
into the client, then — for the sole tiled window of an arranged monitor,
or under the monocle layout, when the client is neither fullscreen nor
floating — grow the window by twice the border width and configure it
with a zero border (field `xbw`). -/
def resizeclient (s : WM) (cid : Nat) (x y w h : Int) : WM :=
  let s := updC s cid (fun c =>
    { c with oldx := c.x, x := x, oldy := c.y, y := y,
             oldw := c.w, w := w, oldh := c.h, h := h })
  let c := findC s cid
  let m := monAt s c.mon
  if ((firstTiled s m.clients = some cid
        ∧ firstTiled s (afterId cid m.clients) = none)
       ∧ m.curLt.hasArrange
      ∨ m.curLt.kind = LayoutKind.monocleL)
     ∧ ¬c.isfullscreen ∧ ¬c.isfloating then
    updC s cid (fun c =>
      { c with w := c.w + 2 * c.bw, h := c.h + 2 * c.bw, xbw := 0 })
  else
    updC s cid (fun c => { c with xbw := c.bw })

/-- `resize(c, x, y, w, h, interact)` (instantwm.c:2815). -/
def resize (s : WM) (cid : Nat) (x y w h : Int) (interact : Bool) : WM :=
  let r := applysizehints s (findC s cid) x y w h interact
  if r.changed then resizeclient s cid r.x r.y r.w r.h else s

/-- `animateclient(c, x, y, w, h, frames, resetpos)` (instantwm.c:508).
The easing loop issues transient intermediate resizes; the state the call
leaves behind is that of its final `resize`: toward `(x, y)` with
`interact = 1` when `resetpos` is unset, back to the entry position with
`interact = 0` otherwise.  Zero `w`/`h` keep the current size. -/
def animateclient (s : WM) (cid : Nat) (x y w h : Int)
    (resetpos : Bool) : WM :=
  let c := findC s cid
  let width := if w ≠ 0 then w else c.w
  let height := if h ≠ 0 then h else c.h
  if resetpos then resize s cid c.x c.y width height false
  else resize s cid x y width height true

/-- `attach(c)` (instantwm.c:753): insert at the head of the owning
monitor's arrangement list. -/
def attach (s : WM) (cid : Nat) : WM :=
  updMon s (findC s cid).mon (fun m => { m with clients := cid :: m.clients })

/-- `attachstack(c)` (instantwm.c:760): insert at the head of the owning
monitor's stack-order list. -/
def attachstack (s : WM) (cid : Nat) : WM :=
  updMon s (findC s cid).mon (fun m => { m with stack := cid :: m.stack })

/-- `detach(c)` (instantwm.c:1181): unlink from the owning monitor's
arrangement list. -/
def detach (s : WM) (cid : Nat) : WM :=
  updMon s (findC s cid).mon (fun m => { m with clients := m.clients.erase cid })

/-- The focus-fallback scan in `detachstack`:
`for (t = c->mon->stack; t && !ISVISIBLE(t); t = t->snext);`. -/
def firstVisibleIn (s : WM) : List Nat → Option Nat
  | [] => none
  | cid :: rest =>
      if visible s (findC s cid) then some cid else firstVisibleIn s rest

/-- `detachstack(c)` (instantwm.c:1190): unlink from the owning monitor's
stack list; if the client was the monitor's focused client, point the
focused-client pointer at the first visible client remaining in stack
order. -/
def detachstack (s : WM) (cid : Nat) : WM :=
  let mi := (findC s cid).mon
  let s := updMon s mi (fun m => { m with stack := m.stack.erase cid })
  if (monAt s mi).sel = some cid then
    updMon s mi (fun m => { m with sel := firstVisibleIn s m.stack })
  else s

/-- The number of visible clients in an id list (the counting loop of
`monocle`). -/
def countVisible (s : WM) (ids : List Nat) : Nat :=
  (ids.filter (fun cid => visible s (findC s cid))).length

/-- The number of tiled (visible, non-floating, non-hidden) clients in an
id list (the `nexttiled` counting loop of the layouts). -/
def countTiled (s : WM) (ids : List Nat) : Nat :=
  (ids.filter (fun cid => isTiled s cid)).length

/-- The resize loop of `monocle` (instantwm.c:2014): every tiled client is
animated to the full work area less its border. -/
def monocleLoop (s : WM) (mi : Nat) : List Nat → WM
  | [] => s
  | cid :: rest =>
      if isTiled s cid then
        let c := findC s cid
        let m := monAt s mi
        monocleLoop
          (animateclient s cid m.wx m.wy (m.ww - 2 * c.bw) (m.wh - 2 * c.bw)
            false) mi rest
      else monocleLoop s mi rest

/-- `monocle(m)` (instantwm.c:2000): count the visible clients, override
the layout symbol with that count when positive, then resize every tiled
client to the work area. -/
def monocle (s : WM) (mi : Nat) : WM :=
  let m := monAt s mi
  let n := countVisible s m.clients
  let s := if n > 0 then
      updMon s mi (fun m => { m with ltsymbol := "[" ++ toString n ++ "]" })
    else s
  monocleLoop s mi m.clients

/-- The placement loop of `tile` (instantwm.c:3633); `i` counts tiled
clients placed so far, `my`/`ty` the filled master/stack column heights. -/
def tileLoop (s : WM) (mi : Nat) (n : Nat) (mw : Int) :
    List Nat → Nat → Int → Int → WM
  | [], _, _, _ => s
  | cid :: rest, i, my, ty =>
      if isTiled s cid then
        let c := findC s cid
        let m := monAt s mi
        if i < m.nmaster then
          let h : Int := (m.wh - my) / ((min n m.nmaster - i : Nat) : Int)
          let s := animateclient s cid m.wx (m.wy + my) (mw - 2 * c.bw)
                     (h - 2 * c.bw) false
          let c := findC s cid
          let my := if my + (c.h + 2 * c.bw) < m.wh
                    then my + (c.h + 2 * c.bw) else my
          tileLoop s mi n mw rest (i + 1) my ty
        else
          let h : Int := (m.wh - ty) / ((n - i : Nat) : Int)
          let s := animateclient s cid (m.wx + mw) (m.wy + ty)
                     (m.ww - mw - 2 * c.bw) (h - 2 * c.bw) false
          let c := findC s cid
          let ty := if ty + (c.h + 2 * c.bw) < m.wh
                    then ty + (c.h + 2 * c.bw) else ty
          tileLoop s mi n mw rest (i + 1) my ty
      else tileLoop s mi n mw rest i my ty

/-- `tile(m)` (instantwm.c:3614): master column of width `ww * mfact` on
the left, remaining clients stacked in a right column. -/
def tile (s : WM) (mi : Nat) : WM :=
  let m := monAt s mi
  let n := countTiled s m.clients
  if n = 0 then s
  else
    let mw : Int :=
      if n > m.nmaster then
        (if m.nmaster ≠ 0 then truncQ ((m.ww : Rat) * m.mfact) else 0)
      else m.ww
    tileLoop s mi n mw m.clients 0 0 0

/-- The placement loop of `bstack` (instantwm.c:4649). -/
def bstackLoop (s : WM) (mi : Nat) (n : Nat) (mh tw ty : Int) :
    List Nat → Nat → Int → Int → WM
  | [], _, _, _ => s
  | cid :: rest, i, mx, tx =>
      if isTiled s cid then
        let c := findC s cid
        let m := monAt s mi
        if i < m.nmaster then
          let w : Int := (m.ww - mx) / ((min n m.nmaster - i : Nat) : Int)
          let s := animateclient s cid (m.wx + mx) m.wy (w - 2 * c.bw)
                     (mh - 2 * c.bw) false
          let c := findC s cid
          bstackLoop s mi n mh tw ty rest (i + 1) (mx + (c.w + 2 * c.bw)) tx
        else
          let h : Int := m.wh - mh
          let s := animateclient s cid tx ty (tw - 2 * c.bw)
                     (h - 2 * c.bw) false
          let c := findC s cid
          let tx := if tw ≠ m.ww then tx + (c.w + 2 * c.bw) else tx
          bstackLoop s mi n mh tw ty rest (i + 1) mx tx
      else bstackLoop s mi n mh tw ty rest i mx tx

/-- `bstack(m)` (instantwm.c:4632): master row on top, a bottom stack of
columns below. -/
def bstack (s : WM) (mi : Nat) : WM :=
  let m := monAt s mi
  let n := countTiled s m.clients
  if n = 0 then s
  else
    let (mh, tw, ty) : Int × Int × Int :=
      if n > m.nmaster then
        ((if m.nmaster ≠ 0 then truncQ (m.mfact * (m.wh : Rat)) else 0),
         m.ww / ((n - m.nmaster : Nat) : Int),
         m.wy + (if m.nmaster ≠ 0 then truncQ (m.mfact * (m.wh : Rat)) else 0))
      else (m.wh, m.ww, m.wy)
    bstackLoop s mi n mh tw ty m.clients 0 0 m.wx

/-- The placement loop of `bstackhoriz` (instantwm.c:4680). -/
def bstackhorizLoop (s : WM) (mi : Nat) (n : Nat) (mh th : Int) :
    List Nat → Nat → Int → Int → WM
  | [], _, _, _ => s
  | cid :: rest, i, mx, ty =>
      if isTiled s cid then
        let c := findC s cid
        let m := monAt s mi
        if i < m.nmaster then
          let w : Int := (m.ww - mx) / ((min n m.nmaster - i : Nat) : Int)
          let s := animateclient s cid (m.wx + mx) m.wy (w - 2 * c.bw)
                     (mh - 2 * c.bw) false
          let c := findC s cid
          bstackhorizLoop s mi n mh th rest (i + 1) (mx + (c.w + 2 * c.bw)) ty
        else
          let s := animateclient s cid (monAt s mi).wx ty
                     ((monAt s mi).ww - 2 * c.bw) (th - 2 * c.bw) false
          let c := findC s cid
          let ty := if th ≠ m.wh then ty + (c.h + 2 * c.bw) else ty
          bstackhorizLoop s mi n mh th rest (i + 1) mx ty
      else bstackhorizLoop s mi n mh th rest i mx ty

/-- `bstackhoriz(m)` (instantwm.c:4664): master row on top, the remaining
clients stacked horizontally below it. -/
def bstackhoriz (s : WM) (mi : Nat) : WM :=
  let m := monAt s mi
  let n := countTiled s m.clients
  if n = 0 then s
  else
    let (mh, th, ty) : Int × Int × Int :=
      if n > m.nmaster then
        (let mh := if m.nmaster ≠ 0 then truncQ (m.mfact * (m.wh : Rat)) else 0
         (mh, (m.wh - mh) / ((n - m.nmaster : Nat) : Int), m.wy + mh))
      else (m.wh, m.wh, m.wy)
    bstackhorizLoop s mi n mh th m.clients 0 0 ty

/-- Dispatch through the `arrange` member of the layout table. -/
def runLayout (k : LayoutKind) (s : WM) (mi : Nat) : WM :=
  match k with
  | LayoutKind.tiledL => tile s mi
  | LayoutKind.monocleL => monocle s mi
  | LayoutKind.bstackL => bstack s mi
  | LayoutKind.bstackhorizL => bstackhoriz s mi
  | LayoutKind.floatingL => s

/-- `arrangemon(m)` (instantwm.c:745): copy the layout symbol, then call
the layout's arrange function if there is one. -/
def arrangemon (s : WM) (mi : Nat) : WM :=
  let m := monAt s mi
  let s := updMon s mi (fun m2 => { m2 with ltsymbol := m.curLt.symbol })
  if m.curLt.hasArrange then runLayout m.curLt.kind s mi else s

/-- `showhide(c)` (instantwm.c:3481) over the stack chain: visible clients
are moved on screen (an X11 move) and, when floating or under a NULL
layout, re-resized at their own geometry; hidden ones are moved off
screen (X11 only). -/
def showhide (s : WM) : List Nat → WM
  | [] => s
  | cid :: rest =>
      let c := findC s cid
      if visible s c then
        let s :=
          if !(monAt s c.mon).curLt.hasArrange
             || (c.isfloating && (!c.isfullscreen || c.isfakefullscreen)) then
            resize s cid c.x c.y c.w c.h false
          else s
        showhide s rest
      else showhide s rest

/-- `restack(m)` (instantwm.c:3112): issues only drawing and X11
stacking-order commands; no embedded field changes. -/
def restack (s : WM) (mi : Nat) : WM :=
  let _ := mi
  s

/-- `arrange(m)` (instantwm.c:730) for a non-NULL monitor:
`showhide(m->stack)`, `arrangemon(m)`, `restack(m)`. -/
def arrange (s : WM) (mi : Nat) : WM :=
  let s := showhide s (monAt s mi).stack
  let s := arrangemon s mi
  restack s mi

/-- The focus-candidate scan in `focus`:
`for (c = selmon->stack; c && (!ISVISIBLE(c) || HIDDEN(c)); c = c->snext);`. -/
def stackFindVis (s : WM) : List Nat → Option Nat
  | [] => none
  | cid :: rest =>
      if !(visible s (findC s cid)) || (findC s cid).hidden then
        stackFindVis s rest
      else some cid

/-- The candidate-replacement step at the head of `focus`
(instantwm.c:1545): an invalid, invisible or hidden candidate is replaced
by the first visible non-hidden client of the selected monitor's stack. -/
def focusCand (s : WM) (copt : Option Nat) : Option Nat :=
  match copt with
  | some cid =>
      if !(visible s (findC s cid)) || (findC s cid).hidden then
        stackFindVis s (monAt s s.selmon).stack
      else some cid
  | none => stackFindVis s (monAt s s.selmon).stack

/-- `if (c->mon != selmon) selmon = c->mon;` (instantwm.c:1550). -/
def focusSwitchMon (s : WM) (cid : Nat) : WM :=
  if (findC s cid).mon ≠ s.selmon
  then { s with selmon := (findC s cid).mon } else s

/-- `if (c->isurgent) seturgent(c, 0);` (instantwm.c:1552); `seturgent`
clears the flag and updates an X11 hint. -/
def focusClearUrgent (s : WM) (cid : Nat) : WM :=
  if (findC s cid).isurgent
  then updC s cid (fun c => { c with isurgent := false }) else s

/-- `selmon->sel = c;` (instantwm.c:1567). -/
def focusSetSel (s : WM) (cand : Option Nat) : WM :=
  updMon s s.selmon (fun m => { m with sel := cand })

/-- `if (selmon->gesture != 11 && selmon->gesture) selmon->gesture = 0;`
(instantwm.c:1568). -/
def focusGesture (s : WM) : WM :=
  updMon s s.selmon (fun m =>
    { m with gesture := if m.gesture ≠ 11 ∧ m.gesture ≠ 0 then 0
                        else m.gesture })

/-- `focus(c)` (instantwm.c:1542).  An invalid, invisible or hidden
candidate is replaced by the first visible non-hidden client of the
selected monitor's stack.  A found candidate pulls the selected monitor
over to its owner, has its urgency cleared, and is moved to the head of
the stack list; the selected monitor's focused-client pointer is set to
the outcome either way.  `unfocus`, border colours, input focus,
`drawbars` and `grabkeys` are X11-only. -/
def focus (s : WM) (copt : Option Nat) : WM :=
  let cand : Option Nat := focusCand s copt
  let s :=
    match cand with
    | some cid =>
        let s := focusSwitchMon s cid
        let s := focusClearUrgent s cid
        let s := detachstack s cid
        attachstack s cid
    | none => s
  let s := focusSetSel s cand
  let s := focusGesture s
  { s with isdesktop := cand.isNone }

/-- `updatebarpos(m)` (instantwm.c:4066). -/
def updatebarpos (s : WM) (mi : Nat) : WM :=
  updMon s mi (fun m =>
    let m := { m with wy := m.my, wh := m.mh }
    if m.showbar then
      let m := { m with wh := m.wh - s.bh }
      { m with by_ := if m.topbar then m.wy else m.wy + m.wh,
               wy := if m.topbar then m.wy + s.bh else m.wy }
    else { m with by_ := -s.bh })

/-- `togglebar(arg)` (instantwm.c:3820): flip the bar, write the flipped
value through to the per-tag store, recompute the bar position and
re-arrange.  `resizebarwin` and the systray reposition are X11-only. -/
def togglebar (s : WM) : WM :=
  let sm := s.selmon
  let s := updMon s sm (fun m =>
    { m with showbar := !m.showbar,
             pertag := { m.pertag with
               showbars := modList m.pertag.showbars m.pertag.curtag
                 (fun _ => !m.showbar) } })
  let s := updatebarpos s sm
  arrange s sm

/-- Component `i` of a saved layout pair (`pertag->ltidxs[tag][i]`). -/
def pairAt (p : Layout × Layout) (i : Nat) : Layout :=
  if i = 0 then p.1 else p.2

/-- `selmon->seltags ^= 1;` (instantwm.c:4438). -/
def seltagsFlip (m : Monitor) : Monitor :=
  { m with seltags := m.seltags ^^^ 1 }

/-- `selmon->tagset[selmon->seltags] = arg->ui & TAGMASK;`
(instantwm.c:4440). -/
def tagsetWrite (v : Nat) (m : Monitor) : Monitor :=
  m.setTagsetAt m.seltags v

/-- The nonzero-mask tag-index derivation of `view`
(instantwm.c:4441-4448): remember the previous index and derive the new
one from the mask (0 for the all-ones sentinel, lowest set bit + 1
otherwise). -/
def pertagAdvance (ui : Nat) (m : Monitor) : Monitor :=
  { m with pertag := { m.pertag with
      prevtag := m.pertag.curtag,
      curtag := if ui = UINTMAX then 0 else lowestBit ui + 1 } }

/-- The zero-mask branch of `view` (instantwm.c:4449-4452): swap the
current and previous tag indices. -/
def pertagSwap (m : Monitor) : Monitor :=
  { m with pertag := { m.pertag with
      prevtag := m.pertag.curtag,
      curtag := m.pertag.prevtag } }

/-- The per-tag reload block of `view` (instantwm.c:4454-4458): pull the
live master count, split factor, layout selector and layout pair back out
of the per-tag store at the (new) current tag index. -/
def pertagReload (m : Monitor) : Monitor :=
  let ct := m.pertag.curtag
  let m := { m with nmaster := m.pertag.nmasters.getD ct m.nmaster }
  let m := { m with mfact := m.pertag.mfacts.getD ct m.mfact }
  let m := { m with sellt := m.pertag.sellts.getD ct m.sellt }
  let pair := m.pertag.ltidxs.getD ct (m.lt0, m.lt1)
  let m := m.setLtAt m.sellt (pairAt pair m.sellt)
  m.setLtAt (m.sellt ^^^ 1) (pairAt pair (m.sellt ^^^ 1))

/-- The bar re-check of `view` (instantwm.c:4460-4461): if the live bar
visibility disagrees with the per-tag store at the current index, toggle
the bar. -/
def barSync (s : WM) : WM :=
  if (monAt s s.selmon).showbar ≠
      (monAt s s.selmon).pertag.showbars.getD
        (monAt s s.selmon).pertag.curtag (monAt s s.selmon).showbar then
    togglebar s
  else s

/-- `view(arg)` (instantwm.c:4430): toggle the tag-set selector; with a
nonzero masked argument store the new mask and derive the current tag
index (0 for the all-ones sentinel, otherwise lowest set bit + 1), with a
zero argument swap current and previous tag index (the back-toggle); then
reload the per-tag configuration, re-check the bar, refocus and
re-arrange. -/
def view (s : WM) (ui : Nat) : WM :=
  let sm := s.selmon
  let tm := TAGMASK s
  let s := updMon s sm seltagsFlip
  let s :=
    if ui &&& tm ≠ 0 then
      let s := updMon s sm (tagsetWrite (ui &&& tm))
      updMon s sm (pertagAdvance ui)
    else
      updMon s sm pertagSwap
  let s := updMon s sm pertagReload
  let s := barSync s
  let s := focus s none
  arrange s s.selmon

/-- One pass of the client-migration loop in `updategeom`
(instantwm.c:4138): pop the head of the dying monitor's arrangement list,
detach it from that monitor's stack, hand it to the first monitor and
attach it to both of that monitor's lists. -/
def migrateLoop (s : WM) (li : Nat) : Nat → WM
  | 0 => s
  | fuel + 1 =>
      match (monAt s li).clients with
      | [] => s
      | cid :: _ =>
          let s := updMon s li (fun m => { m with clients := m.clients.tail })
          let s := detachstack s cid
          let s := updC s cid (fun c => { c with mon := 0 })
          let s := attach s cid
          let s := attachstack s cid
          migrateLoop s li fuel

/-- One iteration of the fewer-monitors branch of `updategeom`
(instantwm.c:4136): migrate every client of the last monitor to the first
monitor, move the selection off the dying monitor, then remove it from
the ring (`cleanupmon`).  The client records themselves are untouched
apart from their owner field. -/
def shrinkStep (s : WM) : WM :=
  let li := s.mons.length - 1
  let s := migrateLoop s li (monAt s li).clients.length
  let s := if s.selmon = li then { s with selmon := 0 } else s
  { s with mons := s.mons.dropLast }

/-- Iterate `shrinkStep`. -/
def shrinkIter (s : WM) : Nat → WM
  | 0 => s
  | k + 1 => shrinkIter (shrinkStep s) k

/-- The fewer-monitors branch of `updategeom` (instantwm.c:4135-4150):
with `nn` detected screens and `n = |mons|` current monitors, `n - nn`
monitors are torn down from the back of the ring.  (The trailing
`selmon = wintomon(root)` re-derivation depends on the live pointer
position and is outside the embedded state.) -/
def updategeomShrink (s : WM) (nn : Nat) : WM :=
  shrinkIter s (s.mons.length - nn)

/-- The on-screen footprint width of a client: its width plus twice the
border width last configured on the X window. -/
def frameW (c : Client) : Int :=
  c.w + 2 * c.xbw

/-- The on-screen footprint height of a client. -/
def frameH (c : Client) : Int :=
  c.h + 2 * c.xbw

/-- Erase the fields that geometry application and focusing are allowed to
change (position, size, saved geometry, configured border, urgency); two
clients equal under `cNorm` agree on identity, ownership, tags, hints and
all behavioural flags. -/
def cNorm (c : Client) : Client :=
  { c with x := 0, y := 0, w := 0, h := 0,
           oldx := 0, oldy := 0, oldw := 0, oldh := 0,
           xbw := 0, isurgent := false }

/-- Erase the layout-symbol field; two monitors equal under `mNorm` agree
on everything a layout run is not allowed to change. -/
def mNorm (m : Monitor) : Monitor :=
  { m with ltsymbol := "" }

/-- Erase the fields the focus controller is allowed to change (the
stack-order list, the focused-client pointer, the gesture flag) along
with the layout symbol; two monitors equal under `mView` agree on
geometry, tag state and per-tag configuration. -/
def mView (m : Monitor) : Monitor :=
  { m with ltsymbol := "", stack := [], sel := none, gesture := 0 }

/-- The configuration the tag/view state machine governs on one monitor:
the active tag set, the tag-set selector, the derived current tag index,
the live per-tag fields (master count, split factor, selected layout
pair, bar visibility) and the saved per-tag arrays. -/
def confM (m : Monitor) :
    (Nat × Nat × Nat) ×
    (Nat × Rat × Nat × Layout × Layout × Bool) ×
    (List Nat × List Rat × List Nat × List (Layout × Layout) × List Bool) :=
  ((m.activeTagset, m.seltags, m.pertag.curtag),
   (m.nmaster, m.mfact, m.sellt, m.lt0, m.lt1, m.showbar),
   (m.pertag.nmasters, m.pertag.mfacts, m.pertag.sellts,
    m.pertag.ltidxs, m.pertag.showbars))

/-- The tag/view configuration of the monitor at index `mi`. -/
def conf (s : WM) (mi : Nat) :
    (Nat × Nat × Nat) ×
    (Nat × Rat × Nat × Layout × Layout × Bool) ×
    (List Nat × List Rat × List Nat × List (Layout × Layout) × List Bool) :=
  confM (monAt s mi)

/-- Stack-list coherence: every id on a monitor's stack list belongs to a
client record owned by that monitor (in C this is automatic: `snext`
chains live inside `c->mon`). -/
def StackCoh (s : WM) : Prop :=
  ∀ mi : Nat, ∀ cid ∈ (monAt s mi).stack, (findC s cid).mon = mi

/-- The live per-tag fields of the monitor agree with its saved per-tag
block at the current tag index — the standing invariant every per-tag
mutator (`incnmaster`, `setmfact`, `setlayout`, `togglebar`, `view`)
re-establishes by writing through. -/
def LiveMatchesPertag (s : WM) (mi : Nat) : Prop :=
  let m := monAt s mi
  m.nmaster = m.pertag.nmasters.getD m.pertag.curtag m.nmaster ∧
  m.mfact = m.pertag.mfacts.getD m.pertag.curtag m.mfact ∧
  m.sellt = m.pertag.sellts.getD m.pertag.curtag m.sellt ∧
  m.lt0 = pairAt (m.pertag.ltidxs.getD m.pertag.curtag (m.lt0, m.lt1)) 0 ∧
  m.lt1 = pairAt (m.pertag.ltidxs.getD m.pertag.curtag (m.lt0, m.lt1)) 1 ∧
  m.showbar = m.pertag.showbars.getD m.pertag.curtag m.showbar

/-- Example layout-table entries for concrete test states. -/
def tiledLayout : Layout :=
  { symbol := "T", kind := LayoutKind.tiledL }

/-- The NULL-arrange (floating) layout entry. -/
def floatLayout : Layout :=
  { symbol := "F", kind := LayoutKind.floatingL }

/-- The monocle layout entry. -/
def monocleLayout : Layout :=
  { symbol := "M", kind := LayoutKind.monocleL }

/-- A per-tag block for nine tags with uniform defaults, coherent with
`exMon` below. -/
def exPertag : Pertag :=
  { curtag := 1, prevtag := 1,
    nmasters := List.replicate 10 1,
    mfacts := List.replicate 10 (11 / 20 : Rat),
    sellts := List.replicate 10 0,
    ltidxs := List.replicate 10 (tiledLayout, floatLayout),
    showbars := List.replicate 10 true }

/-- A concrete monitor used by the witness states. -/
def exMon : Monitor :=
  { ltsymbol := "T", mfact := 11 / 20, nmaster := 1,
    mx := 0, my := 0, mw := 1920, mh := 1080,
    wx := 0, wy := 20, ww := 1920, wh := 1060,
    seltags := 0, sellt := 0, tagset0 := 1, tagset1 := 1,
    showbar := true, topbar := true,
    clients := [], sel := none, stack := [],
    lt0 := tiledLayout, lt1 := floatLayout, pertag := exPertag }

/-- A concrete client on tag 1 of monitor 0. -/
def exClient1 : Client :=
  { cid := 1, x := 5, y := 30, w := 300, h := 200, bw := 0, xbw := 0,
    tags := 1, mon := 0 }

/-- A second client on tag 1 of monitor 0, hidden (iconified). -/
def exClient2 : Client :=
  { cid := 2, x := 40, y := 60, w := 400, h := 300, bw := 0, xbw := 0,
    tags := 1, mon := 0, hidden := true }

/-- `exMon` owning clients 1 and 2, client 1 focused. -/
def exMonTwo : Monitor :=
  { exMon with clients := [1, 2], stack := [1, 2], sel := some 1 }

/-- Witness state for the focus claims: one monitor owning two clients. -/
def exFocusWM : WM :=
  { store := [exClient1, exClient2],
    mons := [exMonTwo],
    selmon := 0, sw := 1920, sh := 1080, bh := 20,
    resizehints := false, isdesktop := false, ntags := 9 }

/-- The client of the cross-monitor focus witness, owned by monitor 1. -/
def exClientM1 : Client :=
  { exClient1 with mon := 1 }

/-- A second monitor to the right of `exMon`, owning client 1. -/
def exMonRight : Monitor :=
  { exMon with mx := 1920, wx := 1920, clients := [1], stack := [1] }

/-- Witness state for the cross-monitor focus claim: two monitors, the
client owned by monitor 1 while monitor 0 is selected. -/
def exTwoMonWM : WM :=
  { store := [exClientM1],
    mons := [exMon, exMonRight],
    selmon := 0, sw := 3840, sh := 1080, bh := 20,
    resizehints := false, isdesktop := false, ntags := 9 }

/-- Counterexample state for the detachstack claim: the focused client 1
is removed while the next client in stack order (2) is visible but
hidden. -/
def exDetachWM : WM :=
  { store := [exClient1, exClient2],
    mons := [exMonTwo],
    selmon := 0, sw := 1920, sh := 1080, bh := 20,
    resizehints := false, isdesktop := false, ntags := 9 }

/-- The geometry-solver client of the size-hints example: width increment
10, minimum width 20, no base and no maximum, floating (so that hint
resolution applies). -/
def exHintClient : Client :=
  { cid := 5, isfloating := true, incw := 10, minw := 20, minh := 1,
    basew := 0, baseh := 0, maxw := 0, maxh := 0, bw := 0,
    tags := 1, mon := 0 }

/-- A floating client whose maximum width (5) is below the bar height. -/
def exMaxClient : Client :=
  { cid := 6, isfloating := true, maxw := 5, minw := 1, minh := 1,
    bw := 0, tags := 1, mon := 0 }

/-- The state for the geometry-solver examples (bar height 20). -/
def exHintWM : WM :=
  { store := [exHintClient, exMaxClient],
    mons := [exMon],
    selmon := 0, sw := 1920, sh := 1080, bh := 20,
    resizehints := false, isdesktop := false, ntags := 9 }

/-- A per-tag block currently on tag index 3 (previously 2). -/
def exPertag3 : Pertag :=
  { exPertag with curtag := 3, prevtag := 2 }

/-- A monitor viewing tag 1 whose derived tag index is 3. -/
def exMonC1 : Monitor :=
  { exMon with pertag := exPertag3 }

/-- The state for the `view` examples: one empty monitor, tag index 3. -/
def exViewWM : WM :=
  { store := [], mons := [exMonC1], selmon := 0, sw := 1920, sh := 1080,
    bh := 20, resizehints := false, isdesktop := false, ntags := 9 }

/-- A floating client, visible on tag 1, for the monocle examples. -/
def exFloatClient : Client :=
  { cid := 3, x := 5, y := 30, w := 300, h := 200, bw := 1, xbw := 1,
    tags := 1, mon := 0, isfloating := true }

/-- A tiled (non-floating, non-hidden) client, visible on tag 1. -/
def exTiledClient : Client :=
  { cid := 4, x := 0, y := 0, w := 10, h := 10, bw := 1, xbw := 1,
    tags := 1, mon := 0 }

/-- A monitor running the monocle layout, owning clients 3 and 4. -/
def exMonoMon : Monitor :=
  { exMon with
    ltsymbol := "M", lt0 := monocleLayout,
    clients := [3, 4], stack := [3, 4], sel := some 4 }

/-- State for the monocle claims: one floating and one tiled client, both
visible, under the monocle layout. -/
def exMonoWM : WM :=
  { store := [exFloatClient, exTiledClient], mons := [exMonoMon],
    selmon := 0, sw := 1920, sh := 1080, bh := 20,
    resizehints := false, isdesktop := false, ntags := 9 }

/-- Master (cid 10) client of the tiled-layout example. -/
def exTileClientA : Client :=
  { cid := 10, x := 0, y := 0, w := 10, h := 10, bw := 2, xbw := 2,
    tags := 1, mon := 0 }

/-- Stack (cid 11) client of the tiled-layout example. -/
def exTileClientB : Client :=
  { cid := 11, x := 3, y := 4, w := 20, h := 30, bw := 2, xbw := 2,
    tags := 1, mon := 0 }

/-- A monitor under the tiled layout owning clients 10 and 11. -/
def exTileMon : Monitor :=
  { exMon with clients := [10, 11], stack := [10, 11], sel := some 10 }

/-- State for the tiled-master width claim: two tiled clients, one master
(nmaster = 1), split factor 11/20 on a work area 1920 wide. -/
def exTileWM : WM :=
  { store := [exTileClientA, exTileClientB], mons := [exTileMon],
    selmon := 0, sw := 1920, sh := 1080, bh := 20,
    resizehints := false, isdesktop := false, ntags := 9 }

/-- First client owned by the dying monitor of the shrink example. -/
def exMigClient1 : Client :=
  { cid := 1, tags := 1, mon := 1 }

/-- Second client owned by the dying monitor of the shrink example. -/
def exMigClient2 : Client :=
  { cid := 2, tags := 1, mon := 1 }

/-- The dying (rightmost) monitor of the shrink example, owning
clients 1 and 2 in that order. -/
def exDyingMon : Monitor :=
  { exMon with
    mx := 1920, wx := 1920,
    clients := [1, 2], stack := [1, 2], sel := some 1 }

/-- Two-monitor state for the output-shrink claims; the second monitor is
about to be torn down. -/
def exShrinkWM : WM :=
  { store := [exMigClient1, exMigClient2], mons := [exMon, exDyingMon],
    selmon := 1, sw := 3840, sh := 1080, bh := 20,
    resizehints := false, isdesktop := false, ntags := 9 }

theorem modList_length {α : Type} (l : List α) (i : Nat) (f : α → α) :
    (modList l i f).length = l.length := by
  induction l generalizing i with
  | nil => rfl
  | cons a t ih =>
      cases i with
      | zero => rfl
      | succ n => simpa [modList] using ih n

theorem modList_of_ge {α : Type} (l : List α) (i : Nat) (f : α → α)
    (h : l.length ≤ i) : modList l i f = l := by
  induction l generalizing i with
  | nil => rfl
  | cons a t ih =>
      cases i with
      | zero => simp at h
      | succ n =>
          simp only [List.length_cons, Nat.succ_le_succ_iff] at h
          simp [modList, ih n h]

theorem modList_getD_ne {α : Type} (l : List α) (i j : Nat) (f : α → α)
    (d : α) (h : j ≠ i) : (modList l i f).getD j d = l.getD j d := by
  induction l generalizing i j with
  | nil => rfl
  | cons a t ih =>
      cases i with
      | zero =>
          cases j with
          | zero => exact absurd rfl h
          | succ m => simp [modList]
      | succ n =>
          cases j with
          | zero => simp [modList]
          | succ m =>
              simp only [modList, List.getD_cons_succ]
              exact ih n m (by omega)

theorem modList_getD_self {α : Type} (l : List α) (i : Nat) (f : α → α)
    (d : α) (h : i < l.length) : (modList l i f).getD i d = f (l.getD i d) := by
  induction l generalizing i with
  | nil => simp at h
  | cons a t ih =>
      cases i with
      | zero => simp [modList]
      | succ n =>
          simp only [modList, List.getD_cons_succ]
          exact ih n (by simpa using h)

theorem modList_write_same {α : Type} (l : List α) (i : Nat) (d v : α)
    (h : l.getD i d = v) : modList l i (fun _ => v) = l := by
  induction l generalizing i with
  | nil => rfl
  | cons a t ih =>
      cases i with
      | zero => simp_all [modList]
      | succ n =>
          simp only [List.getD_cons_succ] at h
          simp [modList, ih n h]

theorem updMon_store (s : WM) (mi : Nat) (f : Monitor → Monitor) :
    (updMon s mi f).store = s.store := rfl

theorem updMon_selmon (s : WM) (mi : Nat) (f : Monitor → Monitor) :
    (updMon s mi f).selmon = s.selmon := rfl

theorem updC_mons (s : WM) (cid : Nat) (f : Client → Client) :
    (updC s cid f).mons = s.mons := rfl

theorem updC_selmon (s : WM) (cid : Nat) (f : Client → Client) :
    (updC s cid f).selmon = s.selmon := rfl

theorem monAt_updMon_self (s : WM) (mi : Nat) (f : Monitor → Monitor)
    (h : mi < s.mons.length) :
    monAt (updMon s mi f) mi = f (monAt s mi) := by
  simp only [monAt, updMon]
  exact modList_getD_self _ _ _ _ h

theorem monAt_updMon_ne (s : WM) (mi mj : Nat) (f : Monitor → Monitor)
    (h : mj ≠ mi) : monAt (updMon s mi f) mj = monAt s mj := by
  simp only [monAt, updMon]
  exact modList_getD_ne _ _ _ _ _ h

theorem monAt_updMon_ge (s : WM) (mi : Nat) (f : Monitor → Monitor)
    (h : s.mons.length ≤ mi) :
    monAt (updMon s mi f) mi = monAt s mi := by
  simp [monAt, updMon, modList_of_ge _ _ _ h]

theorem mons_updMon_length (s : WM) (mi : Nat) (f : Monitor → Monitor) :
    (updMon s mi f).mons.length = s.mons.length := by
  simp [updMon, modList_length]

theorem find?_map_comm {A : Type} (g : A → A) (p : A → Bool) (l : List A)
    (hp : ∀ a, p (g a) = p a) :
    (l.map g).find? p = (l.find? p).map g := by
  induction l with
  | nil => rfl
  | cons a t ih =>
      by_cases h : p a = true
      · rw [List.map_cons, List.find?_cons_of_pos _ (by rw [hp a]; exact h),
          List.find?_cons_of_pos _ h]
        rfl
      · rw [List.map_cons,
          List.find?_cons_of_neg _ (by rw [hp a]; simpa using h),
          List.find?_cons_of_neg _ (by simpa using h), ih]

theorem updC_pred_comm (s : WM) (cid : Nat) (f : Client → Client)
    (hf : ∀ c, (f c).cid = c.cid) (cid2 : Nat) :
    (updC s cid f).store.find? (fun c => c.cid = cid2) =
      (s.store.find? (fun c => c.cid = cid2)).map
        (fun c => if c.cid = cid then f c else c) := by
  simp only [updC]
  apply find?_map_comm
  intro a
  by_cases h : a.cid = cid <;> simp [h, hf a]

theorem findC_updC_self (s : WM) (cid : Nat) (f : Client → Client)
    (hf : ∀ c, (f c).cid = c.cid) (h : hasC s cid = true) :
    findC (updC s cid f) cid = f (findC s cid) := by
  simp only [hasC, Option.isSome_iff_exists] at h
  obtain ⟨c, hc⟩ := h
  have hcid : c.cid = cid := by simpa using List.find?_some hc
  simp [findC, updC_pred_comm s cid f hf cid, hc, hcid]

theorem findC_updC_ne (s : WM) (cid cid2 : Nat) (f : Client → Client)
    (hf : ∀ c, (f c).cid = c.cid) (h : cid2 ≠ cid) :
    findC (updC s cid f) cid2 = findC s cid2 := by
  simp only [findC, updC_pred_comm s cid f hf cid2]
  cases hc : s.store.find? (fun c => c.cid = cid2) with
  | none => rfl
  | some c =>
      have hcid : c.cid = cid2 := by simpa using List.find?_some hc
      have : ¬c.cid = cid := by rw [hcid]; exact h
      simp [this]

theorem hasC_updC (s : WM) (cid cid2 : Nat) (f : Client → Client)
    (hf : ∀ c, (f c).cid = c.cid) :
    hasC (updC s cid f) cid2 = hasC s cid2 := by
  simp [hasC, updC_pred_comm s cid f hf cid2]

theorem findC_mem (s : WM) (cid : Nat) (h : hasC s cid = true) :
    findC s cid ∈ s.store := by
  simp only [hasC, Option.isSome_iff_exists] at h
  obtain ⟨c, hc⟩ := h
  simp only [findC, hc, Option.getD_some]
  exact List.mem_of_find?_eq_some hc

theorem findC_cid (s : WM) (cid : Nat) : (findC s cid).cid = cid := by
  simp only [findC]
  cases hc : s.store.find? (fun c => c.cid = cid) with
  | none => rfl
  | some c =>
      have := List.find?_some hc
      simpa using this

theorem map_getD_comm {A : Type} (g : A → A) (l : List A) (i : Nat) (d : A) :
    (l.map g).getD i (g d) = g (l.getD i d) := by
  induction l generalizing i with
  | nil => simp
  | cons a t ih =>
      cases i with
      | zero => simp
      | succ n => simp only [List.map_cons, List.getD_cons_succ]; exact ih n

theorem map_modList_comm {A : Type} (g : A → A) (l : List A) (i : Nat)
    (f : A → A) (hf : ∀ a, g (f a) = g a) :
    (modList l i f).map g = l.map g := by
  induction l generalizing i with
  | nil => rfl
  | cons a t ih =>
      cases i with
      | zero => simp [modList, hf a]
      | succ n => simp [modList, ih n]

/-- The states before and after a geometry-application step differ at most
in client geometry (position, size, saved geometry, configured border,
urgency) and monitor layout symbols. -/
structure GeomOnly (s1 s2 : WM) : Prop where
  store_norm : s2.store.map cNorm = s1.store.map cNorm
  mons_norm : s2.mons.map mNorm = s1.mons.map mNorm
  selmon : s2.selmon = s1.selmon
  sw : s2.sw = s1.sw
  sh : s2.sh = s1.sh
  bh : s2.bh = s1.bh
  resizehints : s2.resizehints = s1.resizehints
  isdesktop : s2.isdesktop = s1.isdesktop
  ntags : s2.ntags = s1.ntags

theorem geomOnly_refl (s : WM) : GeomOnly s s :=
  ⟨Eq.refl _, Eq.refl _, Eq.refl _, Eq.refl _, Eq.refl _, Eq.refl _,
   Eq.refl _, Eq.refl _, Eq.refl _⟩

theorem geomOnly_trans {s1 s2 s3 : WM} (h1 : GeomOnly s1 s2)
    (h2 : GeomOnly s2 s3) : GeomOnly s1 s3 :=
  ⟨h2.store_norm.trans h1.store_norm, h2.mons_norm.trans h1.mons_norm,
   h2.selmon.trans h1.selmon, h2.sw.trans h1.sw, h2.sh.trans h1.sh,
   h2.bh.trans h1.bh, h2.resizehints.trans h1.resizehints,
   h2.isdesktop.trans h1.isdesktop, h2.ntags.trans h1.ntags⟩

theorem cNorm_default (cid : Nat) : cNorm { cid := cid } = { cid := cid } :=
  Eq.refl _

theorem find?_cid_cNorm (l : List Client) (cid : Nat) :
    (l.map cNorm).find? (fun c => c.cid = cid) =
      (l.find? (fun c => c.cid = cid)).map cNorm :=
  find?_map_comm cNorm _ l (fun _ => Eq.refl _)

theorem findC_cNorm_eq {s1 s2 : WM}
    (h : s2.store.map cNorm = s1.store.map cNorm) (cid : Nat) :
    cNorm (findC s2 cid) = cNorm (findC s1 cid) := by
  have key : (s2.store.find? (fun c => c.cid = cid)).map cNorm =
      (s1.store.find? (fun c => c.cid = cid)).map cNorm := by
    rw [← find?_cid_cNorm, ← find?_cid_cNorm, h]
  simp only [findC]
  cases h2 : s2.store.find? (fun c => c.cid = cid) with
  | none =>
      cases h1 : s1.store.find? (fun c => c.cid = cid) with
      | none => rfl
      | some c1 => rw [h1, h2] at key; simp at key
  | some c2 =>
      cases h1 : s1.store.find? (fun c => c.cid = cid) with
      | none => rw [h1, h2] at key; simp at key
      | some c1 =>
          rw [h1, h2] at key
          simp only [Option.map_some'] at key
          simp only [Option.getD_some]
          exact Option.some.inj key

theorem hasC_norm_eq {s1 s2 : WM}
    (h : s2.store.map cNorm = s1.store.map cNorm) (cid : Nat) :
    hasC s2 cid = hasC s1 cid := by
  have key : (s2.store.find? (fun c => c.cid = cid)).map cNorm =
      (s1.store.find? (fun c => c.cid = cid)).map cNorm := by
    rw [← find?_cid_cNorm, ← find?_cid_cNorm, h]
  simp only [hasC]
  cases h2 : s2.store.find? (fun c => c.cid = cid) with
  | none =>
      cases h1 : s1.store.find? (fun c => c.cid = cid) with
      | none => rfl
      | some c1 => rw [h1, h2] at key; simp at key
  | some c2 =>
      cases h1 : s1.store.find? (fun c => c.cid = cid) with
      | none => rw [h1, h2] at key; simp at key
      | some c1 => rfl

theorem monAt_norm_eq {s1 s2 : WM} (g : Monitor → Monitor)
    (hg : g ({} : Monitor) = ({} : Monitor))
    (h : s2.mons.map g = s1.mons.map g) (mi : Nat) :
    g (monAt s2 mi) = g (monAt s1 mi) := by
  simp only [monAt]
  rw [← hg, ← map_getD_comm g s2.mons mi, ← map_getD_comm g s1.mons mi, h]

theorem monAt_mNorm_eq {s1 s2 : WM} (h : GeomOnly s1 s2) (mi : Nat) :
    mNorm (monAt s2 mi) = mNorm (monAt s1 mi) :=
  monAt_norm_eq mNorm (Eq.refl _) h.mons_norm mi

theorem geom_updC (s : WM) (cid : Nat) (f : Client → Client)
    (hf : ∀ c, cNorm (f c) = cNorm c) : GeomOnly s (updC s cid f) := by
  refine ⟨?_, Eq.refl _, Eq.refl _, Eq.refl _, Eq.refl _, Eq.refl _,
    Eq.refl _, Eq.refl _, Eq.refl _⟩
  simp only [updC, List.map_map]
  apply List.map_congr_left
  intro c _
  by_cases h : c.cid = cid <;> simp [h, hf c]

theorem geom_updMon (s : WM) (mi : Nat) (f : Monitor → Monitor)
    (hf : ∀ m, mNorm (f m) = mNorm m) : GeomOnly s (updMon s mi f) := by
  refine ⟨Eq.refl _, ?_, Eq.refl _, Eq.refl _, Eq.refl _, Eq.refl _,
    Eq.refl _, Eq.refl _, Eq.refl _⟩
  simp only [updMon]
  exact map_modList_comm mNorm s.mons mi f hf

theorem geom_resizeclient (s : WM) (cid : Nat) (x y w h : Int) :
    GeomOnly s (resizeclient s cid x y w h) := by
  unfold resizeclient
  dsimp only
  split
  all_goals
    refine geomOnly_trans (geom_updC _ _ _ ?_) (geom_updC _ _ _ ?_) <;>
      exact fun c => rfl

theorem geom_resize (s : WM) (cid : Nat) (x y w h : Int) (interact : Bool) :
    GeomOnly s (resize s cid x y w h interact) := by
  unfold resize
  dsimp only
  split
  · exact geom_resizeclient s cid _ _ _ _
  · exact geomOnly_refl s

theorem geom_animateclient (s : WM) (cid : Nat) (x y w h : Int)
    (resetpos : Bool) : GeomOnly s (animateclient s cid x y w h resetpos) := by
  unfold animateclient
  dsimp only
  split
  · exact geom_resize _ _ _ _ _ _ _
  · exact geom_resize _ _ _ _ _ _ _

theorem geom_monocleLoop (mi : Nat) (ids : List Nat) :
    ∀ s : WM, GeomOnly s (monocleLoop s mi ids) := by
  induction ids with
  | nil => intro s; exact geomOnly_refl s
  | cons cid rest ih =>
      intro s
      unfold monocleLoop
      dsimp only
      split
      · exact geomOnly_trans (geom_animateclient _ _ _ _ _ _ _) (ih _)
      · exact ih s

theorem geom_monocle (s : WM) (mi : Nat) : GeomOnly s (monocle s mi) := by
  unfold monocle
  dsimp only
  refine geomOnly_trans ?_ (geom_monocleLoop mi _ _)
  split
  · refine geom_updMon s mi _ ?_
    exact fun m => rfl
  · exact geomOnly_refl s

theorem geom_tileLoop (mi : Nat) (n : Nat) (mw : Int) (ids : List Nat) :
    ∀ (s : WM) (i : Nat) (my ty : Int),
      GeomOnly s (tileLoop s mi n mw ids i my ty) := by
  induction ids with
  | nil => intro s i my ty; exact geomOnly_refl s
  | cons cid rest ih =>
      intro s i my ty
      unfold tileLoop
      dsimp only
      split
      · split
        · exact geomOnly_trans (geom_animateclient _ _ _ _ _ _ _) (ih _ _ _ _)
        · exact geomOnly_trans (geom_animateclient _ _ _ _ _ _ _) (ih _ _ _ _)
      · exact ih s i my ty

theorem geom_tile (s : WM) (mi : Nat) : GeomOnly s (tile s mi) := by
  unfold tile
  dsimp only
  split
  · exact geomOnly_refl s
  · exact geom_tileLoop mi _ _ _ s 0 0 0

theorem geom_bstackLoop (mi : Nat) (n : Nat) (mh tw ty : Int)
    (ids : List Nat) :
    ∀ (s : WM) (i : Nat) (mx tx : Int),
      GeomOnly s (bstackLoop s mi n mh tw ty ids i mx tx) := by
  induction ids with
  | nil => intro s i mx tx; exact geomOnly_refl s
  | cons cid rest ih =>
      intro s i mx tx
      unfold bstackLoop
      dsimp only
      split
      · split
        · exact geomOnly_trans (geom_animateclient _ _ _ _ _ _ _) (ih _ _ _ _)
        · exact geomOnly_trans (geom_animateclient _ _ _ _ _ _ _) (ih _ _ _ _)
      · exact ih s i mx tx

theorem geom_bstack (s : WM) (mi : Nat) : GeomOnly s (bstack s mi) := by
  unfold bstack
  dsimp only
  split
  · exact geomOnly_refl s
  · split
    · exact geom_bstackLoop mi _ _ _ _ _ s 0 0 _
    · exact geom_bstackLoop mi _ _ _ _ _ s 0 0 _

theorem geom_bstackhorizLoop (mi : Nat) (n : Nat) (mh th : Int)
    (ids : List Nat) :
    ∀ (s : WM) (i : Nat) (mx ty : Int),
      GeomOnly s (bstackhorizLoop s mi n mh th ids i mx ty) := by
  induction ids with
  | nil => intro s i mx ty; exact geomOnly_refl s
  | cons cid rest ih =>
      intro s i mx ty
      unfold bstackhorizLoop
      dsimp only
      split
      · split
        · exact geomOnly_trans (geom_animateclient _ _ _ _ _ _ _) (ih _ _ _ _)
        · exact geomOnly_trans (geom_animateclient _ _ _ _ _ _ _) (ih _ _ _ _)
      · exact ih s i mx ty

theorem geom_bstackhoriz (s : WM) (mi : Nat) :
    GeomOnly s (bstackhoriz s mi) := by
  unfold bstackhoriz
  dsimp only
  split
  · exact geomOnly_refl s
  · split
    · exact geom_bstackhorizLoop mi _ _ _ _ s 0 0 _
    · exact geom_bstackhorizLoop mi _ _ _ _ s 0 0 _

theorem geom_runLayout (k : LayoutKind) (s : WM) (mi : Nat) :
    GeomOnly s (runLayout k s mi) := by
  cases k with
  | tiledL => exact geom_tile s mi
  | monocleL => exact geom_monocle s mi
  | bstackL => exact geom_bstack s mi
  | bstackhorizL => exact geom_bstackhoriz s mi
  | floatingL => exact geomOnly_refl s

theorem geom_arrangemon (s : WM) (mi : Nat) : GeomOnly s (arrangemon s mi) := by
  unfold arrangemon
  dsimp only
  split
  · refine geomOnly_trans (geom_updMon s mi _ ?_) (geom_runLayout _ _ _)
    exact fun m => rfl
  · refine geom_updMon s mi _ ?_
    exact fun m => rfl

theorem geom_showhide (ids : List Nat) :
    ∀ s : WM, GeomOnly s (showhide s ids) := by
  induction ids with
  | nil => intro s; exact geomOnly_refl s
  | cons cid rest ih =>
      intro s
      unfold showhide
      dsimp only
      split
      · refine geomOnly_trans ?_ (ih _)
        split
        · exact geom_resize _ _ _ _ _ _ _
        · exact geomOnly_refl s
      · exact ih s

theorem geom_restack (s : WM) (mi : Nat) : GeomOnly s (restack s mi) :=
  geomOnly_refl s

theorem geom_arrange (s : WM) (mi : Nat) : GeomOnly s (arrange s mi) := by
  unfold arrange
  exact geomOnly_trans (geom_showhide _ s)
    (geomOnly_trans (geom_arrangemon _ mi) (geom_restack _ mi))

theorem conf_eq_of_geom {s1 s2 : WM} (h : GeomOnly s1 s2) (mi : Nat) :
    conf s2 mi = conf s1 mi := by
  have h2 := congrArg confM (monAt_mNorm_eq h mi)
  exact h2

theorem stack_eq_of_geom {s1 s2 : WM} (h : GeomOnly s1 s2) (mi : Nat) :
    (monAt s2 mi).stack = (monAt s1 mi).stack := by
  have h2 := congrArg Monitor.stack (monAt_mNorm_eq h mi)
  exact h2

theorem clients_eq_of_geom {s1 s2 : WM} (h : GeomOnly s1 s2) (mi : Nat) :
    (monAt s2 mi).clients = (monAt s1 mi).clients := by
  have h2 := congrArg Monitor.clients (monAt_mNorm_eq h mi)
  exact h2

theorem sel_eq_of_geom {s1 s2 : WM} (h : GeomOnly s1 s2) (mi : Nat) :
    (monAt s2 mi).sel = (monAt s1 mi).sel := by
  have h2 := congrArg Monitor.sel (monAt_mNorm_eq h mi)
  exact h2

theorem active_eq_of_geom {s1 s2 : WM} (h : GeomOnly s1 s2) (mi : Nat) :
    (monAt s2 mi).activeTagset = (monAt s1 mi).activeTagset := by
  have h2 := congrArg Monitor.activeTagset (monAt_mNorm_eq h mi)
  exact h2

theorem curtag_eq_of_geom {s1 s2 : WM} (h : GeomOnly s1 s2) (mi : Nat) :
    (monAt s2 mi).pertag.curtag = (monAt s1 mi).pertag.curtag := by
  have h2 := congrArg (fun m : Monitor => m.pertag.curtag) (monAt_mNorm_eq h mi)
  exact h2

theorem mon_eq_of_geom {s1 s2 : WM} (h : GeomOnly s1 s2) (cid : Nat) :
    (findC s2 cid).mon = (findC s1 cid).mon := by
  have h2 := congrArg Client.mon (findC_cNorm_eq h.store_norm cid)
  exact h2

theorem visible_eq_of_geom {s1 s2 : WM} (h : GeomOnly s1 s2) (cid : Nat) :
    visible s2 (findC s2 cid) = visible s1 (findC s1 cid) := by
  have hc := findC_cNorm_eq h.store_norm cid
  have htags : (findC s2 cid).tags = (findC s1 cid).tags := by
    have h2 := congrArg Client.tags hc
    exact h2
  have hsticky : (findC s2 cid).issticky = (findC s1 cid).issticky := by
    have h2 := congrArg Client.issticky hc
    exact h2
  have hmon := mon_eq_of_geom h cid
  simp only [visible, htags, hsticky, hmon,
    active_eq_of_geom h ((findC s1 cid).mon)]

theorem stackCoh_of_geom {s1 s2 : WM} (h : GeomOnly s1 s2)
    (hc : StackCoh s1) : StackCoh s2 := by
  intro mi cid hmem
  rw [stack_eq_of_geom h mi] at hmem
  rw [mon_eq_of_geom h cid]
  exact hc mi cid hmem

theorem stackFindVis_spec (s : WM) (l : List Nat) (cid : Nat)
    (h : stackFindVis s l = some cid) :
    cid ∈ l ∧ visible s (findC s cid) = true ∧
      (findC s cid).hidden = false := by
  induction l with
  | nil => simp [stackFindVis] at h
  | cons a rest ih =>
      unfold stackFindVis at h
      by_cases hv : (!(visible s (findC s a)) || (findC s a).hidden) = true
      · rw [if_pos hv] at h
        obtain ⟨h1, h2, h3⟩ := ih h
        exact ⟨List.mem_cons_of_mem a h1, h2, h3⟩
      · rw [if_neg hv] at h
        injection h with h2
        subst h2
        simp only [Bool.or_eq_true, Bool.not_eq_true', not_or] at hv
        refine ⟨List.mem_cons_self _ _, ?_, ?_⟩
        · cases hvv : visible s (findC s a) with
          | true => rfl
          | false => exact absurd hvv hv.1
        · cases hvv : (findC s a).hidden with
          | false => rfl
          | true => exact absurd hvv hv.2

theorem firstVisibleIn_spec (s : WM) (l : List Nat) (cid : Nat)
    (h : firstVisibleIn s l = some cid) :
    cid ∈ l ∧ visible s (findC s cid) = true := by
  induction l with
  | nil => simp [firstVisibleIn] at h
  | cons a rest ih =>
      unfold firstVisibleIn at h
      by_cases hv : visible s (findC s a) = true
      · rw [if_pos hv] at h
        injection h with h2
        subst h2
        exact ⟨List.mem_cons_self _ _, hv⟩
      · rw [if_neg hv] at h
        obtain ⟨h1, h2⟩ := ih h
        exact ⟨List.mem_cons_of_mem a h1, h2⟩

theorem visible_default (s : WM) (cid : Nat) :
    visible s ({ cid := cid } : Client) = false := by
  simp [visible]

theorem hasC_of_visible (s : WM) (cid : Nat)
    (h : visible s (findC s cid) = true) : hasC s cid = true := by
  cases hc : s.store.find? (fun c => c.cid = cid) with
  | some c => simp [hasC, hc]
  | none =>
      exfalso
      have hd : findC s cid = { cid := cid } := by simp [findC, hc]
      rw [hd, visible_default] at h
      exact Bool.false_ne_true h

theorem conf_updMon_of (s : WM) (mi mj : Nat) (f : Monitor → Monitor)
    (hf : ∀ m, confM (f m) = confM m) :
    conf (updMon s mi f) mj = conf s mj := by
  by_cases hj : mj = mi
  · subst hj
    by_cases hlt : mj < s.mons.length
    · unfold conf
      rw [monAt_updMon_self _ _ _ hlt, hf]
    · unfold conf
      rw [monAt_updMon_ge _ _ _ (Nat.le_of_not_lt hlt)]
  · unfold conf
    rw [monAt_updMon_ne _ _ _ _ hj]

theorem conf_updC (s : WM) (cid : Nat) (f : Client → Client) (mj : Nat) :
    conf (updC s cid f) mj = conf s mj := rfl

theorem conf_detachstack (s : WM) (cid : Nat) (mj : Nat) :
    conf (detachstack s cid) mj = conf s mj := by
  unfold detachstack
  dsimp only
  split
  · refine (conf_updMon_of _ _ _ _ ?_).trans (conf_updMon_of _ _ _ _ ?_) <;>
      exact fun m => rfl
  · refine conf_updMon_of _ _ _ _ ?_
    exact fun m => rfl

theorem conf_attachstack (s : WM) (cid : Nat) (mj : Nat) :
    conf (attachstack s cid) mj = conf s mj := by
  unfold attachstack
  refine conf_updMon_of _ _ _ _ ?_
  exact fun m => rfl

theorem conf_withIsdesktop (s : WM) (b : Bool) (mj : Nat) :
    conf { s with isdesktop := b } mj = conf s mj := rfl

theorem conf_withSelmon (s : WM) (v : Nat) (mj : Nat) :
    conf { s with selmon := v } mj = conf s mj := rfl

theorem conf_focusSwitchMon (s : WM) (cid : Nat) (mj : Nat) :
    conf (focusSwitchMon s cid) mj = conf s mj := by
  unfold focusSwitchMon
  split
  · exact conf_withSelmon _ _ _
  · rfl

theorem conf_focusClearUrgent (s : WM) (cid : Nat) (mj : Nat) :
    conf (focusClearUrgent s cid) mj = conf s mj := by
  unfold focusClearUrgent
  split
  · exact conf_updC _ _ _ _
  · rfl

theorem conf_focusSetSel (s : WM) (cand : Option Nat) (mj : Nat) :
    conf (focusSetSel s cand) mj = conf s mj := by
  unfold focusSetSel
  refine conf_updMon_of _ _ _ _ ?_
  exact fun m => rfl

theorem conf_focusGesture (s : WM) (mj : Nat) :
    conf (focusGesture s) mj = conf s mj := by
  unfold focusGesture
  refine conf_updMon_of _ _ _ _ ?_
  exact fun m => rfl

theorem conf_focus (s : WM) (copt : Option Nat) (mj : Nat) :
    conf (focus s copt) mj = conf s mj := by
  unfold focus
  dsimp only
  cases hc : focusCand s copt with
  | none =>
      dsimp only
      exact (conf_withIsdesktop _ _ _).trans
        ((conf_focusGesture _ _).trans (conf_focusSetSel _ _ _))
  | some cid =>
      dsimp only
      exact (conf_withIsdesktop _ _ _).trans
        ((conf_focusGesture _ _).trans
          ((conf_focusSetSel _ _ _).trans
            ((conf_attachstack _ _ _).trans
              ((conf_detachstack _ _ _).trans
                ((conf_focusClearUrgent _ _ _).trans
                  (conf_focusSwitchMon _ _ _))))))

/-- The states before and after a focus pass differ at most in client
geometry and urgency, monitor stack lists, focused-client pointers,
gesture flags, layout symbols, and the global selected-monitor and
desktop flags. -/
structure ViewEq (s1 s2 : WM) : Prop where
  store_norm : s2.store.map cNorm = s1.store.map cNorm
  mons_view : s2.mons.map mView = s1.mons.map mView
  sw : s2.sw = s1.sw
  sh : s2.sh = s1.sh
  bh : s2.bh = s1.bh
  resizehints : s2.resizehints = s1.resizehints
  ntags : s2.ntags = s1.ntags

theorem viewEq_refl (s : WM) : ViewEq s s :=
  ⟨Eq.refl _, Eq.refl _, Eq.refl _, Eq.refl _, Eq.refl _, Eq.refl _,
   Eq.refl _⟩

theorem viewEq_trans {s1 s2 s3 : WM} (h1 : ViewEq s1 s2)
    (h2 : ViewEq s2 s3) : ViewEq s1 s3 :=
  ⟨h2.store_norm.trans h1.store_norm, h2.mons_view.trans h1.mons_view,
   h2.sw.trans h1.sw, h2.sh.trans h1.sh, h2.bh.trans h1.bh,
   h2.resizehints.trans h1.resizehints, h2.ntags.trans h1.ntags⟩

theorem viewEq_of_geom {s1 s2 : WM} (h : GeomOnly s1 s2) : ViewEq s1 s2 := by
  refine ⟨h.store_norm, ?_, h.sw, h.sh, h.bh, h.resizehints, h.ntags⟩
  have hm : ∀ m : Monitor, mView (mNorm m) = mView m := fun m => Eq.refl _
  calc s2.mons.map mView = (s2.mons.map mNorm).map mView := by
        simp only [List.map_map]
        exact List.map_congr_left (fun m _ => (hm m).symm)
    _ = (s1.mons.map mNorm).map mView := by rw [h.mons_norm]
    _ = s1.mons.map mView := by
        simp only [List.map_map]
        exact List.map_congr_left (fun m _ => hm m)

theorem viewEq_updC (s : WM) (cid : Nat) (f : Client → Client)
    (hf : ∀ c, cNorm (f c) = cNorm c) : ViewEq s (updC s cid f) := by
  refine ⟨?_, Eq.refl _, Eq.refl _, Eq.refl _, Eq.refl _, Eq.refl _,
    Eq.refl _⟩
  simp only [updC, List.map_map]
  apply List.map_congr_left
  intro c _
  by_cases h : c.cid = cid <;> simp [h, hf c]

theorem viewEq_updMon (s : WM) (mi : Nat) (f : Monitor → Monitor)
    (hf : ∀ m, mView (f m) = mView m) : ViewEq s (updMon s mi f) := by
  refine ⟨Eq.refl _, ?_, Eq.refl _, Eq.refl _, Eq.refl _, Eq.refl _,
    Eq.refl _⟩
  simp only [updMon]
  exact map_modList_comm mView s.mons mi f hf

theorem viewEq_withSelmon (s : WM) (v : Nat) :
    ViewEq s { s with selmon := v } :=
  ⟨Eq.refl _, Eq.refl _, Eq.refl _, Eq.refl _, Eq.refl _, Eq.refl _,
   Eq.refl _⟩

theorem viewEq_withIsdesktop (s : WM) (b : Bool) :
    ViewEq s { s with isdesktop := b } :=
  ⟨Eq.refl _, Eq.refl _, Eq.refl _, Eq.refl _, Eq.refl _, Eq.refl _,
   Eq.refl _⟩

theorem viewEq_detachstack (s : WM) (cid : Nat) :
    ViewEq s (detachstack s cid) := by
  unfold detachstack
  dsimp only
  split
  · exact viewEq_trans (viewEq_updMon _ _ _ (by intro m; rfl))
      (viewEq_updMon _ _ _ (by intro m; rfl))
  · exact viewEq_updMon _ _ _ (by intro m; rfl)

theorem viewEq_attachstack (s : WM) (cid : Nat) :
    ViewEq s (attachstack s cid) := by
  unfold attachstack
  exact viewEq_updMon _ _ _ (by intro m; rfl)

theorem viewEq_focusSwitchMon (s : WM) (cid : Nat) :
    ViewEq s (focusSwitchMon s cid) := by
  unfold focusSwitchMon
  split
  · exact viewEq_withSelmon _ _
  · exact viewEq_refl _

theorem viewEq_focusClearUrgent (s : WM) (cid : Nat) :
    ViewEq s (focusClearUrgent s cid) := by
  unfold focusClearUrgent
  split
  · exact viewEq_updC _ _ _ (by intro c; rfl)
  · exact viewEq_refl _

theorem viewEq_focusSetSel (s : WM) (cand : Option Nat) :
    ViewEq s (focusSetSel s cand) := by
  unfold focusSetSel
  exact viewEq_updMon _ _ _ (by intro m; rfl)

theorem viewEq_focusGesture (s : WM) : ViewEq s (focusGesture s) := by
  unfold focusGesture
  exact viewEq_updMon _ _ _ (by intro m; rfl)

theorem viewEq_focus (s : WM) (copt : Option Nat) :
    ViewEq s (focus s copt) := by
  unfold focus
  dsimp only
  cases hc : focusCand s copt with
  | none =>
      dsimp only
      exact viewEq_trans (viewEq_trans (viewEq_focusSetSel _ _)
        (viewEq_focusGesture _)) (viewEq_withIsdesktop _ _)
  | some cid =>
      dsimp only
      exact viewEq_trans
        (viewEq_trans
          (viewEq_trans
            (viewEq_trans
              (viewEq_trans
                (viewEq_trans (viewEq_focusSwitchMon _ _)
                  (viewEq_focusClearUrgent _ _))
                (viewEq_detachstack _ _))
              (viewEq_attachstack _ _))
            (viewEq_focusSetSel _ _))
          (viewEq_focusGesture _))
        (viewEq_withIsdesktop _ _)

theorem active_eq_of_view {s1 s2 : WM} (h : ViewEq s1 s2) (mi : Nat) :
    (monAt s2 mi).activeTagset = (monAt s1 mi).activeTagset := by
  have h2 := congrArg Monitor.activeTagset
    (monAt_norm_eq mView (Eq.refl _) h.mons_view mi)
  exact h2

theorem visible_eq_of_view {s1 s2 : WM} (h : ViewEq s1 s2) (cid : Nat) :
    visible s2 (findC s2 cid) = visible s1 (findC s1 cid) := by
  have hc := findC_cNorm_eq h.store_norm cid
  have htags : (findC s2 cid).tags = (findC s1 cid).tags := by
    have h2 := congrArg Client.tags hc
    exact h2
  have hsticky : (findC s2 cid).issticky = (findC s1 cid).issticky := by
    have h2 := congrArg Client.issticky hc
    exact h2
  have hmon : (findC s2 cid).mon = (findC s1 cid).mon := by
    have h2 := congrArg Client.mon hc
    exact h2
  simp only [visible, htags, hsticky, hmon,
    active_eq_of_view h ((findC s1 cid).mon)]

theorem hidden_eq_of_view {s1 s2 : WM} (h : ViewEq s1 s2) (cid : Nat) :
    (findC s2 cid).hidden = (findC s1 cid).hidden := by
  have h2 := congrArg Client.hidden (findC_cNorm_eq h.store_norm cid)
  exact h2

theorem monProj_updMon {A : Type} (p : Monitor → A) (s : WM) (mi mj : Nat)
    (f : Monitor → Monitor) (hf : ∀ m, p (f m) = p m) :
    p (monAt (updMon s mi f) mj) = p (monAt s mj) := by
  by_cases hj : mj = mi
  · subst hj
    by_cases hlt : mj < s.mons.length
    · rw [monAt_updMon_self _ _ _ hlt, hf]
    · rw [monAt_updMon_ge _ _ _ (Nat.le_of_not_lt hlt)]
  · rw [monAt_updMon_ne _ _ _ _ hj]

theorem findC_congr_store {s1 s2 : WM} (h : s1.store = s2.store)
    (cid : Nat) : findC s1 cid = findC s2 cid := by
  simp [findC, h]

theorem focusSwitchMon_selmon (s : WM) (cid : Nat) :
    (focusSwitchMon s cid).selmon = (findC s cid).mon := by
  unfold focusSwitchMon
  split
  · rfl
  · next h => exact (not_ne_iff.mp h).symm

theorem focusSwitchMon_store (s : WM) (cid : Nat) :
    (focusSwitchMon s cid).store = s.store := by
  unfold focusSwitchMon
  split <;> rfl

theorem focusSwitchMon_mons (s : WM) (cid : Nat) :
    (focusSwitchMon s cid).mons = s.mons := by
  unfold focusSwitchMon
  split <;> rfl

theorem focusClearUrgent_selmon (s : WM) (cid : Nat) :
    (focusClearUrgent s cid).selmon = s.selmon := by
  unfold focusClearUrgent
  split <;> rfl

theorem focusClearUrgent_mons (s : WM) (cid : Nat) :
    (focusClearUrgent s cid).mons = s.mons := by
  unfold focusClearUrgent
  split <;> rfl

theorem focusClearUrgent_findC_mon (s : WM) (cid cid2 : Nat) :
    (findC (focusClearUrgent s cid) cid2).mon = (findC s cid2).mon := by
  have h2 := congrArg Client.mon
    (findC_cNorm_eq (viewEq_focusClearUrgent s cid).store_norm cid2)
  exact h2

theorem detachstack_selmon (s : WM) (cid : Nat) :
    (detachstack s cid).selmon = s.selmon := by
  unfold detachstack
  dsimp only
  split <;> rfl

theorem detachstack_store (s : WM) (cid : Nat) :
    (detachstack s cid).store = s.store := by
  unfold detachstack
  dsimp only
  split <;> rfl

theorem detachstack_mons_length (s : WM) (cid : Nat) :
    (detachstack s cid).mons.length = s.mons.length := by
  unfold detachstack
  dsimp only
  split <;> simp [mons_updMon_length]

theorem attachstack_selmon (s : WM) (cid : Nat) :
    (attachstack s cid).selmon = s.selmon := rfl

theorem attachstack_store (s : WM) (cid : Nat) :
    (attachstack s cid).store = s.store := rfl

theorem attachstack_mons_length (s : WM) (cid : Nat) :
    (attachstack s cid).mons.length = s.mons.length :=
  mons_updMon_length s _ _

theorem attachstack_monAt_self (s : WM) (cid : Nat)
    (h : (findC s cid).mon < s.mons.length) :
    monAt (attachstack s cid) ((findC s cid).mon) =
      { monAt s ((findC s cid).mon) with
        stack := cid :: (monAt s ((findC s cid).mon)).stack } := by
  unfold attachstack
  rw [monAt_updMon_self _ _ _ h]

theorem focusSetSel_selmon (s : WM) (cand : Option Nat) :
    (focusSetSel s cand).selmon = s.selmon := rfl

theorem focusSetSel_mons_length (s : WM) (cand : Option Nat) :
    (focusSetSel s cand).mons.length = s.mons.length :=
  mons_updMon_length s _ _

theorem focusSetSel_monAt_self (s : WM) (cand : Option Nat)
    (h : s.selmon < s.mons.length) :
    monAt (focusSetSel s cand) s.selmon =
      { monAt s s.selmon with sel := cand } := by
  unfold focusSetSel
  rw [monAt_updMon_self _ _ _ h]

theorem focusGesture_selmon (s : WM) : (focusGesture s).selmon = s.selmon :=
  rfl

theorem focusGesture_sel (s : WM) (mj : Nat) :
    (monAt (focusGesture s) mj).sel = (monAt s mj).sel := by
  unfold focusGesture
  exact monProj_updMon Monitor.sel _ _ _ _ (fun m => rfl)

theorem focusGesture_stack (s : WM) (mj : Nat) :
    (monAt (focusGesture s) mj).stack = (monAt s mj).stack := by
  unfold focusGesture
  exact monProj_updMon Monitor.stack _ _ _ _ (fun m => rfl)

theorem focusCand_some_spec (s : WM) (copt : Option Nat) (cid : Nat)
    (h : focusCand s copt = some cid) :
    visible s (findC s cid) = true ∧ (findC s cid).hidden = false := by
  unfold focusCand at h
  cases copt with
  | none => exact (stackFindVis_spec s _ cid h).2
  | some c0 =>
      dsimp only at h
      by_cases hv : (!(visible s (findC s c0)) || (findC s c0).hidden) = true
      · rw [if_pos hv] at h
        exact (stackFindVis_spec s _ cid h).2
      · rw [if_neg hv] at h
        injection h with h2
        subst h2
        simp only [Bool.or_eq_true, Bool.not_eq_true', not_or] at hv
        constructor
        · cases hvv : visible s (findC s c0) with
          | true => rfl
          | false => exact absurd hvv hv.1
        · cases hvv : (findC s c0).hidden with
          | false => rfl
          | true => exact absurd hvv hv.2

theorem focus_spec (s : WM) (copt : Option Nat)
    (hsel : s.selmon < s.mons.length)
    (hcand : ∀ cid, focusCand s copt = some cid →
      (findC s cid).mon < s.mons.length) :
    ((focus s copt).selmon = (match focusCand s copt with
       | some cid => (findC s cid).mon
       | none => s.selmon)) ∧
    (monAt (focus s copt) (focus s copt).selmon).sel = focusCand s copt ∧
    (∀ cid, focusCand s copt = some cid →
       cid ∈ (monAt (focus s copt) (focus s copt).selmon).stack) := by
  unfold focus
  dsimp only
  cases hc : focusCand s copt with
  | none =>
      dsimp only
      refine ⟨rfl, ?_, ?_⟩
      · have h1 : (monAt (focusSetSel s none) s.selmon).sel = none := by
          rw [focusSetSel_monAt_self s none hsel]
        have h2 : (monAt (focusGesture (focusSetSel s none))
            (focusGesture (focusSetSel s none)).selmon).sel = none := by
          rw [focusGesture_selmon, focusSetSel_selmon, focusGesture_sel]
          exact h1
        exact h2
      · intro cid hx
        cases hx
  | some cid =>
      dsimp only
      have hmon := hcand cid hc
      have hCstore : (detachstack (focusClearUrgent (focusSwitchMon s cid)
          cid) cid).store = (focusClearUrgent (focusSwitchMon s cid)
          cid).store := detachstack_store _ _
      have hCmon : (findC (detachstack (focusClearUrgent
          (focusSwitchMon s cid) cid) cid) cid).mon = (findC s cid).mon := by
        rw [findC_congr_store hCstore cid, focusClearUrgent_findC_mon]
        rw [findC_congr_store (focusSwitchMon_store s cid) cid]
      have hYselmon : (attachstack (detachstack (focusClearUrgent
          (focusSwitchMon s cid) cid) cid) cid).selmon = (findC s cid).mon := by
        rw [attachstack_selmon, detachstack_selmon, focusClearUrgent_selmon,
          focusSwitchMon_selmon]
      have hClen : (detachstack (focusClearUrgent (focusSwitchMon s cid) cid)
          cid).mons.length = s.mons.length := by
        rw [detachstack_mons_length]
        have h3 : (focusClearUrgent (focusSwitchMon s cid) cid).mons =
            (focusSwitchMon s cid).mons := focusClearUrgent_mons _ _
        rw [h3, focusSwitchMon_mons]
      have hYmonAt : monAt (attachstack (detachstack (focusClearUrgent
          (focusSwitchMon s cid) cid) cid) cid) ((findC s cid).mon) =
          { monAt (detachstack (focusClearUrgent (focusSwitchMon s cid) cid)
              cid) ((findC s cid).mon) with
            stack := cid :: (monAt (detachstack (focusClearUrgent
              (focusSwitchMon s cid) cid) cid) ((findC s cid).mon)).stack } := by
        have h4 := attachstack_monAt_self (detachstack (focusClearUrgent
          (focusSwitchMon s cid) cid) cid) cid (by rw [hCmon, hClen]; exact hmon)
        rw [hCmon] at h4
        exact h4
      have hYlen : (attachstack (detachstack (focusClearUrgent
          (focusSwitchMon s cid) cid) cid) cid).mons.length =
          s.mons.length := by
        rw [attachstack_mons_length, hClen]
      refine ⟨?_, ?_, ?_⟩
      · show (focusGesture _).selmon = _
        rw [focusGesture_selmon, focusSetSel_selmon, hYselmon]
      · show (monAt (focusGesture _) (focusGesture _).selmon).sel = _
        rw [focusGesture_selmon, focusGesture_sel, focusSetSel_selmon,
          hYselmon]
        have h5 := focusSetSel_monAt_self (attachstack (detachstack
          (focusClearUrgent (focusSwitchMon s cid) cid) cid) cid) (some cid)
          (by rw [hYselmon, hYlen]; exact hmon)
        rw [hYselmon] at h5
        rw [h5]
      · intro cid2 hx
        injection hx with hx2
        subst hx2
        show cid ∈ (monAt (focusGesture _) (focusGesture _).selmon).stack
        rw [focusGesture_selmon, focusGesture_stack, focusSetSel_selmon,
          hYselmon]
        have h5 := focusSetSel_monAt_self (attachstack (detachstack
          (focusClearUrgent (focusSwitchMon s cid) cid) cid) cid)
          (some cid) (by rw [hYselmon, hYlen]; exact hmon)
        rw [hYselmon] at h5
        rw [h5]
        dsimp only
        rw [hYmonAt]
        exact List.mem_cons_self _ _

theorem firstVisibleIn_eq_find (s : WM) (l : List Nat) :
    firstVisibleIn s l = l.find? (fun t => visible s (findC s t)) := by
  induction l with
  | nil => rfl
  | cons a rest ih =>
      unfold firstVisibleIn
      by_cases hv : visible s (findC s a) = true
      · rw [if_pos hv, List.find?_cons_of_pos _ (by simpa using hv)]
      · rw [if_neg hv, List.find?_cons_of_neg _ (by simpa using hv), ih]

theorem firstVisibleIn_congr {s1 s2 : WM} (h : ViewEq s1 s2)
    (l : List Nat) : firstVisibleIn s2 l = firstVisibleIn s1 l := by
  induction l with
  | nil => rfl
  | cons a rest ih =>
      unfold firstVisibleIn
      rw [visible_eq_of_view h a, ih]

/-- Claim C8: after any call to `focus` returns, the selected output's
focused-client pointer is either null or points to a client that is a
member of that output's stack-order list, is visible (on the active tag
set or sticky), and is not hidden. -/
theorem focus_focused_client_invariant (s : WM) (copt : Option Nat)
    (hsel : s.selmon < s.mons.length)
    (hmon : ∀ c ∈ s.store, c.mon < s.mons.length) :
    (monAt (focus s copt) (focus s copt).selmon).sel = none ∨
    ∃ cid, (monAt (focus s copt) (focus s copt).selmon).sel = some cid ∧
      cid ∈ (monAt (focus s copt) (focus s copt).selmon).stack ∧
      visible (focus s copt) (findC (focus s copt) cid) = true ∧
      (findC (focus s copt) cid).hidden = false := by
  have hcand : ∀ cid, focusCand s copt = some cid →
      (findC s cid).mon < s.mons.length := by
    intro cid hc
    have hv := (focusCand_some_spec s copt cid hc).1
    exact hmon _ (findC_mem s cid (hasC_of_visible s cid hv))
  obtain ⟨h1, h2, h3⟩ := focus_spec s copt hsel hcand
  cases hc : focusCand s copt with
  | none =>
      left
      rw [h2]
      exact hc
  | some cid =>
      right
      refine ⟨cid, ?_, h3 cid hc, ?_, ?_⟩
      · rw [h2]
        exact hc
      · rw [visible_eq_of_view (viewEq_focus s copt) cid]
        exact (focusCand_some_spec s copt cid hc).1
      · rw [hidden_eq_of_view (viewEq_focus s copt) cid]
        exact (focusCand_some_spec s copt cid hc).2

/-- Witness for the focus invariant: focusing the hidden client 2 falls
back to client 1, which ends up focused, stacked and visible. -/
theorem focus_focused_client_invariant_witness :
    (monAt (focus exFocusWM (some 2))
        (focus exFocusWM (some 2)).selmon).sel = none ∨
    ∃ cid, (monAt (focus exFocusWM (some 2))
        (focus exFocusWM (some 2)).selmon).sel = some cid ∧
      cid ∈ (monAt (focus exFocusWM (some 2))
        (focus exFocusWM (some 2)).selmon).stack ∧
      visible (focus exFocusWM (some 2))
        (findC (focus exFocusWM (some 2)) cid) = true ∧
      (findC (focus exFocusWM (some 2)) cid).hidden = false :=
  focus_focused_client_invariant exFocusWM (some 2) (by decide)
    (by intro c hc; fin_cases hc <;> decide)

/-- Claim C10: focusing a visible, non-hidden client whose owning output
differs from the selected output switches the process-wide selected
output to the client's owner, and focuses the client there. -/
theorem focus_switches_selected_monitor (s : WM) (cid : Nat)
    (hsel : s.selmon < s.mons.length)
    (hvis : visible s (findC s cid) = true)
    (hhid : (findC s cid).hidden = false)
    (hmonlt : (findC s cid).mon < s.mons.length)
    (_hne : (findC s cid).mon ≠ s.selmon) :
    (focus s (some cid)).selmon = (findC s cid).mon ∧
    (monAt (focus s (some cid)) (focus s (some cid)).selmon).sel =
      some cid := by
  have hcand : focusCand s (some cid) = some cid := by
    unfold focusCand
    dsimp only
    rw [hvis, hhid]
    simp
  have hc2 : ∀ c2, focusCand s (some cid) = some c2 →
      (findC s c2).mon < s.mons.length := by
    intro c2 hc
    rw [hcand] at hc
    injection hc with h2
    subst h2
    exact hmonlt
  obtain ⟨h1, h2, h3⟩ := focus_spec s (some cid) hsel hc2
  rw [hcand] at h1 h2
  exact ⟨h1, h2⟩

/-- Witness for the selected-monitor switch: client 1 lives on monitor 1
while monitor 0 is selected; focusing it moves the selection. -/
theorem focus_switches_selected_monitor_witness :
    (focus exTwoMonWM (some 1)).selmon = (findC exTwoMonWM 1).mon ∧
    (monAt (focus exTwoMonWM (some 1))
        (focus exTwoMonWM (some 1)).selmon).sel = some 1 :=
  focus_switches_selected_monitor exTwoMonWM 1 (by decide) (by decide)
    (by decide) (by decide) (by decide)

/-- Counterexample to claim C3 as stated: removing focused client 1
leaves client 2 next in stack order; client 2 is visible but hidden, so
the first visible-and-non-hidden client is null, yet the code patches the
focused-client pointer to client 2. -/
theorem detachstack_sel_counterexample :
    (monAt (detachstack exDetachWM 1) 0).sel = some 2 ∧
    (findC exDetachWM 2).hidden = true ∧
    ((monAt exDetachWM 0).stack.erase 1).find?
      (fun t => visible exDetachWM (findC exDetachWM t) &&
        !(findC exDetachWM t).hidden) = none := by
  decide

/-- Claim C3 (amended): `detachstack` on the output's focused client
patches the focused-client pointer to the first client of the remaining
stack order that is visible — the hidden state is not consulted — or to
null if no visible client remains. -/
theorem detachstack_sel_patch (s : WM) (cid : Nat)
    (hmi : (findC s cid).mon < s.mons.length)
    (hsel : (monAt s ((findC s cid).mon)).sel = some cid) :
    (monAt (detachstack s cid) ((findC s cid).mon)).sel =
      ((monAt s ((findC s cid).mon)).stack.erase cid).find?
        (fun t => visible s (findC s t)) := by
  unfold detachstack
  dsimp only
  have hcond : (monAt (updMon s ((findC s cid).mon)
      (fun m => { m with stack := m.stack.erase cid }))
      ((findC s cid).mon)).sel = some cid := by
    rw [monAt_updMon_self _ _ _ hmi]
    exact hsel
  rw [if_pos hcond]
  have hlen2 : (findC s cid).mon < (updMon s ((findC s cid).mon)
      (fun m => { m with stack := m.stack.erase cid })).mons.length := by
    rw [mons_updMon_length]
    exact hmi
  rw [monAt_updMon_self _ _ _ hlen2]
  dsimp only
  rw [monAt_updMon_self _ _ _ hmi]
  dsimp only
  rw [firstVisibleIn_congr (viewEq_updMon s _ _ (by intro m; rfl)) _]
  exact firstVisibleIn_eq_find s _

/-- Witness for the amended detachstack claim at the counterexample
state: the pointer is patched to the hidden-but-visible client 2. -/
theorem detachstack_sel_patch_witness :
    (monAt (detachstack exDetachWM 1) ((findC exDetachWM 1).mon)).sel =
      ((monAt exDetachWM ((findC exDetachWM 1).mon)).stack.erase 1).find?
        (fun t => visible exDetachWM (findC exDetachWM t)) :=
  detachstack_sel_patch exDetachWM 1 (by decide) (by decide)

/-- Claim C5: with width increment 10, base width 0, minimum width 20 and
no maximum, `applysizehints` resolves a proposed width of 47 to 40 — the
largest value not exceeding 47 that is congruent to the minimum width
modulo the increment and at least the minimum width. -/
theorem applysizehints_increment_example :
    (applysizehints exHintWM exHintClient 0 0 47 50 true).w = 40 ∧
    (40 : Int) % 10 = 20 % 10 ∧ (20 : Int) ≤ 40 ∧ (40 : Int) ≤ 47 ∧
    (∀ v : Int, v % 10 = 20 % 10 → 20 ≤ v → v ≤ 47 → v ≤ 40) := by
  refine ⟨by decide, by decide, by decide, by decide, ?_⟩
  intro v h1 h2 h3
  omega

/-- Witness for the maximality clause of the size-hints example. -/
theorem applysizehints_increment_example_witness : (30 : Int) ≤ 40 :=
  applysizehints_increment_example.2.2.2.2 30 (by decide) (by decide)
    (by decide)

/-- Counterexample to claim C7 as stated: a floating client carrying a
maximum width of 5 has a proposed 47-wide rectangle resolved to width 5,
beneath the bar height of 20 — hint resolution undercuts the bar floor. -/
theorem applysizehints_bar_floor_counterexample :
    (applysizehints exHintWM exMaxClient 0 0 47 50 true).w = 5 ∧
    exHintWM.bh = 20 ∧
    ¬ exHintWM.bh ≤ (applysizehints exHintWM exMaxClient 0 0 47 50 true).w := by
  decide

/-- Claim C7 (amended): `applysizehints` floors both dimensions at the
bar height before hint resolution, so whenever the ICCCM hint-resolution
branch is not taken (resize hints disabled, non-floating client, and a
layout with an arrange function) the resolved width and height are each
at least the bar height; hint resolution itself may shrink below it. -/
theorem applysizehints_bar_floor (s : WM) (c : Client) (x y w h : Int)
    (interact : Bool)
    (hr : s.resizehints = false) (hf : c.isfloating = false)
    (ha : (monAt s c.mon).curLt.hasArrange = true) :
    s.bh ≤ (applysizehints s c x y w h interact).w ∧
    s.bh ≤ (applysizehints s c x y w h interact).h := by
  unfold applysizehints
  dsimp only
  rw [hr, hf, ha]
  rw [if_neg (by decide)]
  constructor
  · dsimp only
    split <;> omega
  · dsimp only
    split <;> omega

/-- Witness for the amended bar-floor claim: a tiled client's 5x7
proposal is floored to the 20-pixel bar height in both dimensions. -/
theorem applysizehints_bar_floor_witness :
    exHintWM.bh ≤ (applysizehints exHintWM exClient1 0 0 5 7 false).w ∧
    exHintWM.bh ≤ (applysizehints exHintWM exClient1 0 0 5 7 false).h :=
  applysizehints_bar_floor exHintWM exClient1 0 0 5 7 false (by decide)
    (by decide) (by decide)

theorem setLtAt_pertag (m : Monitor) (i : Nat) (v : Layout) :
    (m.setLtAt i v).pertag = m.pertag := by
  unfold Monitor.setLtAt
  split <;> rfl

theorem setTagsetAt_pertag (m : Monitor) (i : Nat) (v : Nat) :
    (m.setTagsetAt i v).pertag = m.pertag := by
  unfold Monitor.setTagsetAt
  split <;> rfl

theorem curtag_of_conf_eq {s1 s2 : WM} {mj : Nat}
    (h : conf s2 mj = conf s1 mj) :
    (monAt s2 mj).pertag.curtag = (monAt s1 mj).pertag.curtag :=
  congrArg (fun t : (Nat × Nat × Nat) ×
    (Nat × Rat × Nat × Layout × Layout × Bool) ×
    (List Nat × List Rat × List Nat × List (Layout × Layout) × List Bool) =>
      t.1.2.2) h

theorem togglebar_curtag (s : WM) (mj : Nat) :
    (monAt (togglebar s) mj).pertag.curtag =
      (monAt s mj).pertag.curtag := by
  unfold togglebar updatebarpos
  dsimp only
  rw [curtag_of_conf_eq (conf_eq_of_geom (geom_arrange _ _) mj)]
  refine (monProj_updMon (fun m => m.pertag.curtag) _ _ _ _
      (fun m => ?_)).trans
    (monProj_updMon (fun m => m.pertag.curtag) _ _ _ _ (fun m => rfl))
  dsimp only
  split <;> rfl

/-- Counterexample to claim C1 as stated: viewing the two-bit mask 3 from
tag index 3 sets the derived tag index to 1 (lowest set bit plus one),
not to its previous value. -/
theorem view_multibit_counterexample :
    3 &&& TAGMASK exViewWM ≠ 0 ∧ (3 : Nat) ≠ UINTMAX ∧
    Nat.testBit 3 0 = true ∧ Nat.testBit 3 1 = true ∧
    (monAt exViewWM 0).pertag.curtag = 3 ∧
    (monAt (view exViewWM 3) 0).pertag.curtag = 1 ∧
    ¬ (monAt (view exViewWM 3) 0).pertag.curtag =
      (monAt exViewWM 0).pertag.curtag := by
  decide

/-- Claim C1 (amended): for every call to `view` with a tag mask that has
more than one bit set and is not the all-ones sentinel, the derived
current tag index after the call equals the position of the mask's
lowest set bit plus one (the previous value is kept only in `prevtag`). -/
theorem view_multibit_curtag (s : WM) (u : Nat)
    (hsel : s.selmon < s.mons.length)
    (hmask : u &&& TAGMASK s ≠ 0) (hmax : u ≠ UINTMAX)
    (_hbits : ∃ i j, i ≠ j ∧ u.testBit i = true ∧ u.testBit j = true) :
    (monAt (view s u) s.selmon).pertag.curtag = lowestBit u + 1 := by
  clear _hbits
  unfold view
  dsimp only
  rw [if_pos hmask]
  rw [curtag_of_conf_eq (conf_eq_of_geom (geom_arrange _ _) s.selmon)]
  rw [curtag_of_conf_eq (conf_focus _ none s.selmon)]
  have hbs : ∀ s2 : WM, (monAt (barSync s2) s.selmon).pertag.curtag =
      (monAt s2 s.selmon).pertag.curtag := by
    intro s2
    unfold barSync
    split
    · exact togglebar_curtag s2 s.selmon
    · rfl
  rw [hbs]
  rw [monProj_updMon (fun m => m.pertag.curtag) _ _ _ _
    (fun m => by
      unfold pertagReload
      dsimp only
      rw [setLtAt_pertag, setLtAt_pertag])]
  have hlen1 : s.selmon <
      (updMon s s.selmon seltagsFlip).mons.length := by
    rw [mons_updMon_length]
    exact hsel
  have hlen2 : s.selmon < (updMon (updMon s s.selmon seltagsFlip) s.selmon
      (tagsetWrite (u &&& TAGMASK s))).mons.length := by
    rw [mons_updMon_length]
    exact hlen1
  rw [monAt_updMon_self _ _ _ hlen2]
  unfold pertagAdvance
  dsimp only
  rw [if_neg hmax]

/-- Witness for the amended view claim at the counterexample state. -/
theorem view_multibit_curtag_witness :
    (monAt (view exViewWM 3) exViewWM.selmon).pertag.curtag =
      lowestBit 3 + 1 :=
  view_multibit_curtag exViewWM 3 (by decide) (by decide) (by decide)
    ⟨0, 1, by decide, by decide, by decide⟩

theorem applysizehints_id (s : WM) (c : Client) (x y w h : Int)
    (hx : x ≤ s.sw) (hy : y ≤ s.sh)
    (hxw : 0 ≤ x + w + 2 * c.bw) (hyh : 0 ≤ y + h + 2 * c.bw)
    (hw1 : 1 ≤ w) (hh1 : 1 ≤ h)
    (hwb : s.bh ≤ w) (hhb : s.bh ≤ h)
    (hr : s.resizehints = false) (hf : c.isfloating = false)
    (ha : (monAt s c.mon).curLt.hasArrange = true) :
    applysizehints s c x y w h true =
      { x := x, y := y, w := w, h := h,
        changed := x ≠ c.x || y ≠ c.y || w ≠ c.w || h ≠ c.h } := by
  unfold applysizehints
  dsimp only
  simp only [reduceIte]
  rw [max_eq_right hw1, max_eq_right hh1]
  rw [if_neg (not_lt.mpr hx), if_neg (not_lt.mpr hy)]
  rw [if_neg (not_lt.mpr hxw), if_neg (not_lt.mpr hyh)]
  rw [if_neg (not_lt.mpr hhb), if_neg (not_lt.mpr hwb)]
  rw [hr, hf, ha]
  rw [if_neg (by decide)]

theorem mons_resizeclient (s : WM) (cid : Nat) (x y w h : Int) :
    (resizeclient s cid x y w h).mons = s.mons := by
  unfold resizeclient
  dsimp only
  split <;> rfl

theorem mons_resize (s : WM) (cid : Nat) (x y w h : Int) (interact : Bool) :
    (resize s cid x y w h interact).mons = s.mons := by
  unfold resize
  dsimp only
  split
  · exact mons_resizeclient _ _ _ _ _ _
  · rfl

theorem mons_animateclient (s : WM) (cid : Nat) (x y w h : Int) (b : Bool) :
    (animateclient s cid x y w h b).mons = s.mons := by
  unfold animateclient
  dsimp only
  split <;> exact mons_resize _ _ _ _ _ _ _

theorem findC_resizeclient_ne (s : WM) (cid cid2 : Nat) (x y w h : Int)
    (hne : cid2 ≠ cid) :
    findC (resizeclient s cid x y w h) cid2 = findC s cid2 := by
  unfold resizeclient
  dsimp only
  split <;>
    rw [findC_updC_ne _ _ _ _ (by intro c; rfl) hne,
      findC_updC_ne _ _ _ _ (by intro c; rfl) hne]

theorem findC_resize_ne (s : WM) (cid cid2 : Nat) (x y w h : Int)
    (interact : Bool) (hne : cid2 ≠ cid) :
    findC (resize s cid x y w h interact) cid2 = findC s cid2 := by
  unfold resize
  dsimp only
  split
  · exact findC_resizeclient_ne _ _ _ _ _ _ _ hne
  · rfl

theorem findC_animateclient_ne (s : WM) (cid cid2 : Nat) (x y w h : Int)
    (b : Bool) (hne : cid2 ≠ cid) :
    findC (animateclient s cid x y w h b) cid2 = findC s cid2 := by
  unfold animateclient
  dsimp only
  split <;> exact findC_resize_ne _ _ _ _ _ _ _ _ hne

theorem hasC_resizeclient (s : WM) (cid cid2 : Nat) (x y w h : Int) :
    hasC (resizeclient s cid x y w h) cid2 = hasC s cid2 := by
  unfold resizeclient
  dsimp only
  split <;>
    rw [hasC_updC _ _ _ _ (by intro c; rfl), hasC_updC _ _ _ _ (by intro c; rfl)]

theorem hasC_resize (s : WM) (cid cid2 : Nat) (x y w h : Int)
    (interact : Bool) : hasC (resize s cid x y w h interact) cid2 =
      hasC s cid2 := by
  unfold resize
  dsimp only
  split
  · exact hasC_resizeclient _ _ _ _ _ _ _
  · rfl

theorem hasC_animateclient (s : WM) (cid cid2 : Nat) (x y w h : Int)
    (b : Bool) : hasC (animateclient s cid x y w h b) cid2 = hasC s cid2 := by
  unfold animateclient
  dsimp only
  split <;> exact hasC_resize _ _ _ _ _ _ _ _

theorem visible_congr_mons {s1 s2 : WM} (h : s2.mons = s1.mons) (c : Client) :
    visible s2 c = visible s1 c := by
  unfold visible monAt
  rw [h]

theorem isTiled_congr {s1 s2 : WM} (hm : s2.mons = s1.mons) (cid : Nat)
    (hc : findC s2 cid = findC s1 cid) :
    isTiled s2 cid = isTiled s1 cid := by
  unfold isTiled
  dsimp only
  rw [hc, visible_congr_mons hm]

theorem cfield_eq_of_geom {A : Type} (p : Client → A)
    (hp : ∀ c, p (cNorm c) = p c) {s1 s2 : WM} (h : GeomOnly s1 s2)
    (cid : Nat) : p (findC s2 cid) = p (findC s1 cid) := by
  have h2 := congrArg p (findC_cNorm_eq h.store_norm cid)
  rwa [hp, hp] at h2

theorem isTiled_eq_of_geom {s1 s2 : WM} (h : GeomOnly s1 s2) (cid : Nat) :
    isTiled s2 cid = isTiled s1 cid := by
  unfold isTiled
  dsimp only
  rw [visible_eq_of_geom h cid,
    cfield_eq_of_geom (fun c => c.isfloating) (fun c => Eq.refl _) h cid,
    cfield_eq_of_geom (fun c => c.hidden) (fun c => Eq.refl _) h cid]

/-- The lasting effect of `animateclient(c, x, y, w, h, 0)` on the target
client when the size-hint resolver leaves the proposal untouched: the
client ends at exactly `(x, y)` and its on-screen frame spans
`w + 2 bw` by `h + 2 bw` — whichever side of `resizeclient`'s
border-transfer branch is taken. -/
theorem animate_frame (s : WM) (cid : Nat) (x y w h : Int)
    (hlive : hasC s cid = true)
    (hx : x ≤ s.sw) (hy : y ≤ s.sh)
    (hxw : 0 ≤ x + w + 2 * (findC s cid).bw)
    (hyh : 0 ≤ y + h + 2 * (findC s cid).bw)
    (hw1 : 1 ≤ w) (hh1 : 1 ≤ h)
    (hwb : s.bh ≤ w) (hhb : s.bh ≤ h)
    (hr : s.resizehints = false)
    (hf : (findC s cid).isfloating = false)
    (ha : (monAt s (findC s cid).mon).curLt.hasArrange = true)
    (hxbw : (findC s cid).xbw = (findC s cid).bw) :
    (findC (animateclient s cid x y w h false) cid).x = x ∧
    (findC (animateclient s cid x y w h false) cid).y = y ∧
    (findC (animateclient s cid x y w h false) cid).w +
      2 * (findC (animateclient s cid x y w h false) cid).xbw =
      w + 2 * (findC s cid).bw ∧
    (findC (animateclient s cid x y w h false) cid).h +
      2 * (findC (animateclient s cid x y w h false) cid).xbw =
      h + 2 * (findC s cid).bw := by
  have hw0 : w ≠ 0 := by omega
  have hh0 : h ≠ 0 := by omega
  unfold animateclient
  dsimp only
  rw [if_neg (by simp), if_pos hw0, if_pos hh0]
  unfold resize
  rw [applysizehints_id s (findC s cid) x y w h hx hy hxw hyh hw1 hh1
    hwb hhb hr hf ha]
  dsimp only
  split
  case isTrue hch =>
    unfold resizeclient
    have hfself := findC_updC_self s cid
      (fun c => { c with oldx := c.x, x := x, oldy := c.y, y := y,
                         oldw := c.w, w := w, oldh := c.h, h := h })
      (by intro c; rfl) hlive
    have hlive2 : hasC (updC s cid
        (fun c => { c with oldx := c.x, x := x, oldy := c.y, y := y,
                           oldw := c.w, w := w, oldh := c.h, h := h }))
        cid = true := by
      rw [hasC_updC _ _ _ _ (by intro c; rfl)]
      exact hlive
    dsimp only
    split
    · rw [findC_updC_self _ _ _ (by intro c; rfl) hlive2, hfself]
      dsimp only
      omega
    · rw [findC_updC_self _ _ _ (by intro c; rfl) hlive2, hfself]
      dsimp only
      omega
  case isFalse hch =>
    simp only [Bool.or_eq_true, decide_eq_true_eq, not_or, not_not] at hch
    refine ⟨?_, ?_, ?_, ?_⟩ <;> omega

theorem monAt_congr_mons {s1 s2 : WM} (h : s2.mons = s1.mons) (mj : Nat) :
    monAt s2 mj = monAt s1 mj := by
  unfold monAt
  rw [h]

theorem mons_monocleLoop (mi : Nat) (ids : List Nat) :
    ∀ s : WM, (monocleLoop s mi ids).mons = s.mons := by
  induction ids with
  | nil => intro s; rfl
  | cons cid rest ih =>
      intro s
      unfold monocleLoop
      dsimp only
      split
      · rw [ih, mons_animateclient]
      · exact ih s

theorem findC_monocleLoop_notin (mi : Nat) (ids : List Nat) (cid2 : Nat) :
    ∀ s : WM, cid2 ∉ ids →
      findC (monocleLoop s mi ids) cid2 = findC s cid2 := by
  induction ids with
  | nil => intro s _; rfl
  | cons cid rest ih =>
      intro s hnot
      have hne : cid2 ≠ cid := by
        intro h
        exact hnot (by rw [h]; exact List.mem_cons_self _ _)
      have hnr : cid2 ∉ rest := fun h => hnot (List.mem_cons_of_mem _ h)
      unfold monocleLoop
      dsimp only
      split
      · rw [ih _ hnr, findC_animateclient_ne _ _ _ _ _ _ _ _ hne]
      · exact ih s hnr

/-- Invariant of the `monocle` resize loop: every tiled client of the list
ends with its frame spanning exactly the work area of monitor `mi`. -/
theorem monocleLoop_frames (mi : Nat) (ids : List Nat) :
    ∀ s : WM, ids.Nodup →
    (∀ cid ∈ ids, hasC s cid = true ∧
       (findC s cid).mon = mi ∧
       (findC s cid).xbw = (findC s cid).bw ∧
       1 ≤ (monAt s mi).ww - 2 * (findC s cid).bw ∧
       1 ≤ (monAt s mi).wh - 2 * (findC s cid).bw ∧
       s.bh ≤ (monAt s mi).ww - 2 * (findC s cid).bw ∧
       s.bh ≤ (monAt s mi).wh - 2 * (findC s cid).bw) →
    (monAt s mi).wx ≤ s.sw → (monAt s mi).wy ≤ s.sh →
    0 ≤ (monAt s mi).wx + (monAt s mi).ww →
    0 ≤ (monAt s mi).wy + (monAt s mi).wh →
    s.resizehints = false →
    (monAt s mi).curLt.hasArrange = true →
    ∀ cid ∈ ids, isTiled s cid = true →
      (findC (monocleLoop s mi ids) cid).x = (monAt s mi).wx ∧
      (findC (monocleLoop s mi ids) cid).y = (monAt s mi).wy ∧
      (findC (monocleLoop s mi ids) cid).w +
        2 * (findC (monocleLoop s mi ids) cid).xbw = (monAt s mi).ww ∧
      (findC (monocleLoop s mi ids) cid).h +
        2 * (findC (monocleLoop s mi ids) cid).xbw = (monAt s mi).wh := by
  induction ids with
  | nil =>
      intro s _ _ _ _ _ _ _ _ cid hmem
      exact absurd hmem (List.not_mem_nil cid)
  | cons cid0 rest ih =>
      intro s hnodup Hb hgx hgy hgxw hgyh hr hasA cid hmem htl
      obtain ⟨hn0, hnr⟩ := List.nodup_cons.mp hnodup
      by_cases hc0 : isTiled s cid0 = true
      · obtain ⟨hlive0, hmon0, hxbw0, h1w, h1h, hbw, hbh⟩ :=
          Hb cid0 (List.mem_cons_self _ _)
        have hf0 : (findC s cid0).isfloating = false := by
          unfold isTiled at hc0
          dsimp only at hc0
          simp only [Bool.and_eq_true, Bool.not_eq_true'] at hc0
          exact hc0.1.1
        have ha0 : (monAt s (findC s cid0).mon).curLt.hasArrange = true := by
          rw [hmon0]; exact hasA
        have key := animate_frame s cid0 (monAt s mi).wx (monAt s mi).wy
          ((monAt s mi).ww - 2 * (findC s cid0).bw)
          ((monAt s mi).wh - 2 * (findC s cid0).bw)
          hlive0 hgx hgy (by omega) (by omega) h1w h1h hbw hbh hr hf0 ha0 hxbw0
        have hgeom := geom_animateclient s cid0 (monAt s mi).wx (monAt s mi).wy
          ((monAt s mi).ww - 2 * (findC s cid0).bw)
          ((monAt s mi).wh - 2 * (findC s cid0).bw) false
        have hm1 := mons_animateclient s cid0 (monAt s mi).wx (monAt s mi).wy
          ((monAt s mi).ww - 2 * (findC s cid0).bw)
          ((monAt s mi).wh - 2 * (findC s cid0).bw) false
        have hmonAt1 : ∀ mj : Nat,
            monAt (animateclient s cid0 (monAt s mi).wx (monAt s mi).wy
              ((monAt s mi).ww - 2 * (findC s cid0).bw)
              ((monAt s mi).wh - 2 * (findC s cid0).bw) false) mj =
            monAt s mj := fun mj => monAt_congr_mons hm1 mj
        unfold monocleLoop
        dsimp only
        rw [if_pos hc0]
        rcases List.mem_cons.mp hmem with heq | hmemr
        · subst heq
          rw [findC_monocleLoop_notin mi rest cid _ hn0]
          obtain ⟨k1, k2, k3, k4⟩ := key
          exact ⟨k1, k2, by omega, by omega⟩
        · have hne : cid ≠ cid0 := fun h => hn0 (h ▸ hmemr)
          have hfind := findC_animateclient_ne s cid0 cid (monAt s mi).wx
            (monAt s mi).wy ((monAt s mi).ww - 2 * (findC s cid0).bw)
            ((monAt s mi).wh - 2 * (findC s cid0).bw) false hne
          have Hb' : ∀ cid' ∈ rest,
              hasC (animateclient s cid0 (monAt s mi).wx (monAt s mi).wy
                ((monAt s mi).ww - 2 * (findC s cid0).bw)
                ((monAt s mi).wh - 2 * (findC s cid0).bw) false) cid' = true ∧
              (findC (animateclient s cid0 (monAt s mi).wx (monAt s mi).wy
                ((monAt s mi).ww - 2 * (findC s cid0).bw)
                ((monAt s mi).wh - 2 * (findC s cid0).bw) false) cid').mon
                  = mi ∧
              (findC (animateclient s cid0 (monAt s mi).wx (monAt s mi).wy
                ((monAt s mi).ww - 2 * (findC s cid0).bw)
                ((monAt s mi).wh - 2 * (findC s cid0).bw) false) cid').xbw =
              (findC (animateclient s cid0 (monAt s mi).wx (monAt s mi).wy
                ((monAt s mi).ww - 2 * (findC s cid0).bw)
                ((monAt s mi).wh - 2 * (findC s cid0).bw) false) cid').bw ∧
              1 ≤ (monAt (animateclient s cid0 (monAt s mi).wx (monAt s mi).wy
                ((monAt s mi).ww - 2 * (findC s cid0).bw)
                ((monAt s mi).wh - 2 * (findC s cid0).bw) false) mi).ww -
                2 * (findC (animateclient s cid0 (monAt s mi).wx
                  (monAt s mi).wy ((monAt s mi).ww - 2 * (findC s cid0).bw)
                  ((monAt s mi).wh - 2 * (findC s cid0).bw) false) cid').bw ∧
              1 ≤ (monAt (animateclient s cid0 (monAt s mi).wx (monAt s mi).wy
                ((monAt s mi).ww - 2 * (findC s cid0).bw)
                ((monAt s mi).wh - 2 * (findC s cid0).bw) false) mi).wh -
                2 * (findC (animateclient s cid0 (monAt s mi).wx
                  (monAt s mi).wy ((monAt s mi).ww - 2 * (findC s cid0).bw)
                  ((monAt s mi).wh - 2 * (findC s cid0).bw) false) cid').bw ∧
              (animateclient s cid0 (monAt s mi).wx (monAt s mi).wy
                ((monAt s mi).ww - 2 * (findC s cid0).bw)
                ((monAt s mi).wh - 2 * (findC s cid0).bw) false).bh ≤
              (monAt (animateclient s cid0 (monAt s mi).wx (monAt s mi).wy
                ((monAt s mi).ww - 2 * (findC s cid0).bw)
                ((monAt s mi).wh - 2 * (findC s cid0).bw) false) mi).ww -
                2 * (findC (animateclient s cid0 (monAt s mi).wx
                  (monAt s mi).wy ((monAt s mi).ww - 2 * (findC s cid0).bw)
                  ((monAt s mi).wh - 2 * (findC s cid0).bw) false) cid').bw ∧
              (animateclient s cid0 (monAt s mi).wx (monAt s mi).wy
                ((monAt s mi).ww - 2 * (findC s cid0).bw)
                ((monAt s mi).wh - 2 * (findC s cid0).bw) false).bh ≤
              (monAt (animateclient s cid0 (monAt s mi).wx (monAt s mi).wy
                ((monAt s mi).ww - 2 * (findC s cid0).bw)
                ((monAt s mi).wh - 2 * (findC s cid0).bw) false) mi).wh -
                2 * (findC (animateclient s cid0 (monAt s mi).wx
                  (monAt s mi).wy ((monAt s mi).ww - 2 * (findC s cid0).bw)
                  ((monAt s mi).wh - 2 * (findC s cid0).bw) false) cid').bw := by
            intro cid' hm'
            have hne' : cid' ≠ cid0 := fun h => hn0 (h ▸ hm')
            have hfind' := findC_animateclient_ne s cid0 cid' (monAt s mi).wx
              (monAt s mi).wy ((monAt s mi).ww - 2 * (findC s cid0).bw)
              ((monAt s mi).wh - 2 * (findC s cid0).bw) false hne'
            obtain ⟨b1, b2, b3, b4, b5, b6, b7⟩ :=
              Hb cid' (List.mem_cons_of_mem _ hm')
            rw [hasC_animateclient, hfind', hmonAt1, hgeom.bh]
            exact ⟨b1, b2, b3, b4, b5, b6, b7⟩
          have hres := ih _ hnr Hb'
            (by rw [hmonAt1, hgeom.sw]; exact hgx)
            (by rw [hmonAt1, hgeom.sh]; exact hgy)
            (by rw [hmonAt1]; exact hgxw)
            (by rw [hmonAt1]; exact hgyh)
            (by rw [hgeom.resizehints]; exact hr)
            (by rw [hmonAt1]; exact hasA)
            cid hmemr
            (by rw [isTiled_congr hm1 cid hfind]; exact htl)
          rw [hmonAt1] at hres
          exact hres
      · unfold monocleLoop
        dsimp only
        rw [if_neg hc0]
        rcases List.mem_cons.mp hmem with heq | hmemr
        · subst heq
          exact absurd htl hc0
        · exact ih s hnr (fun cid' h' => Hb cid' (List.mem_cons_of_mem _ h'))
            hgx hgy hgxw hgyh hr hasA cid hmemr htl

/-- C4 (counterexample): under the monocle layout a visible client is NOT
necessarily resized to the work area — `monocle` only resizes the clients
`nexttiled` yields, so a visible floating client keeps its own geometry.
In `exMonoWM`, client 3 is visible, the monitor runs monocle with work
area at x = 0, width 1920, yet after `monocle` runs client 3 still sits
at x = 5 with width 300. -/
theorem monocle_visible_counterexample :
    visible exMonoWM (findC exMonoWM 3) = true ∧
    (monAt exMonoWM 0).curLt.kind = LayoutKind.monocleL ∧
    (monAt exMonoWM 0).wx = 0 ∧ (monAt exMonoWM 0).ww = 1920 ∧
    (findC (monocle exMonoWM 0) 3).x = 5 ∧
    (findC (monocle exMonoWM 0) 3).w = 300 := by
  decide

/-- C4 (amended): under the monocle layout (and sane geometry), every
*tiled* client of the monitor — visible, not floating and not hidden, the
clients the `nexttiled` iterator of `monocle` yields — ends with its
on-screen frame exactly covering the work area, and the layout symbol is
overridden with the visible-client count `[n]`.  Visible floating (or
hidden) clients are skipped, which corrects the claim's "every visible
client". -/
theorem monocle_work_area (s : WM) (mi : Nat)
    (hlen : mi < s.mons.length)
    (hk : (monAt s mi).curLt.kind = LayoutKind.monocleL)
    (hn : 0 < countVisible s (monAt s mi).clients)
    (hnodup : (monAt s mi).clients.Nodup)
    (Hb : ∀ cid ∈ (monAt s mi).clients, hasC s cid = true ∧
       (findC s cid).mon = mi ∧
       (findC s cid).xbw = (findC s cid).bw ∧
       1 ≤ (monAt s mi).ww - 2 * (findC s cid).bw ∧
       1 ≤ (monAt s mi).wh - 2 * (findC s cid).bw ∧
       s.bh ≤ (monAt s mi).ww - 2 * (findC s cid).bw ∧
       s.bh ≤ (monAt s mi).wh - 2 * (findC s cid).bw)
    (hgx : (monAt s mi).wx ≤ s.sw) (hgy : (monAt s mi).wy ≤ s.sh)
    (hgxw : 0 ≤ (monAt s mi).wx + (monAt s mi).ww)
    (hgyh : 0 ≤ (monAt s mi).wy + (monAt s mi).wh)
    (hr : s.resizehints = false) :
    (monAt (monocle s mi) mi).ltsymbol =
      "[" ++ toString (countVisible s (monAt s mi).clients) ++ "]" ∧
    ∀ cid ∈ (monAt s mi).clients, isTiled s cid = true →
      (findC (monocle s mi) cid).x = (monAt s mi).wx ∧
      (findC (monocle s mi) cid).y = (monAt s mi).wy ∧
      frameW (findC (monocle s mi) cid) = (monAt s mi).ww ∧
      frameH (findC (monocle s mi) cid) = (monAt s mi).wh := by
  have hasA : (monAt s mi).curLt.hasArrange = true := by
    unfold Layout.hasArrange
    rw [hk]
    rfl
  unfold monocle
  dsimp only
  rw [if_pos hn]
  have hg : GeomOnly s (updMon s mi (fun m =>
      { m with ltsymbol :=
          "[" ++ toString (countVisible s (monAt s mi).clients) ++ "]" })) :=
    geom_updMon s mi _ (by intro m; rfl)
  have hmon' := monAt_updMon_self s mi (fun m =>
      { m with ltsymbol :=
          "[" ++ toString (countVisible s (monAt s mi).clients) ++ "]" }) hlen
  constructor
  · have hms := mons_monocleLoop mi (monAt s mi).clients
      (updMon s mi (fun m =>
        { m with ltsymbol :=
            "[" ++ toString (countVisible s (monAt s mi).clients) ++ "]" }))
    rw [monAt_congr_mons hms, hmon']
  · intro cid hmem htl
    have hres := monocleLoop_frames mi (monAt s mi).clients
      (updMon s mi (fun m =>
        { m with ltsymbol :=
            "[" ++ toString (countVisible s (monAt s mi).clients) ++ "]" }))
      hnodup
      (by
        intro cid' hm'
        obtain ⟨b1, b2, b3, b4, b5, b6, b7⟩ := Hb cid' hm'
        rw [hmon']
        exact ⟨b1, b2, b3, b4, b5, b6, b7⟩)
      (by rw [hmon']; exact hgx)
      (by rw [hmon']; exact hgy)
      (by rw [hmon']; exact hgxw)
      (by rw [hmon']; exact hgyh)
      hr
      (by rw [hmon']; exact hasA)
      cid hmem
      (by rw [isTiled_eq_of_geom hg cid]; exact htl)
    rw [hmon'] at hres
    unfold frameW frameH
    exact hres

/-- Witness for the amended monocle claim on the concrete state: the
layout symbol becomes the visible count and the tiled client 4 ends
covering the work area. -/
theorem monocle_work_area_witness :
    (monAt (monocle exMonoWM 0) 0).ltsymbol =
      "[" ++ toString (countVisible exMonoWM (monAt exMonoWM 0).clients)
        ++ "]" ∧
    (findC (monocle exMonoWM 0) 4).x = (monAt exMonoWM 0).wx ∧
    frameW (findC (monocle exMonoWM 0) 4) = (monAt exMonoWM 0).ww := by
  have h := monocle_work_area exMonoWM 0 (by decide) (by decide) (by decide)
    (by decide) (by decide) (by decide) (by decide) (by decide) (by decide)
    (by decide)
  exact ⟨h.1, (h.2 4 (by decide) (by decide)).1,
    (h.2 4 (by decide) (by decide)).2.2.1⟩

/-- Truncation toward zero agrees with the floor on nonnegative
rationals. -/
theorem truncQ_eq_floor (q : Rat) (hq : 0 ≤ q) : truncQ q = ⌊q⌋ := by
  unfold truncQ
  rw [if_pos hq, Rat.floor_def', Rat.floor_def]

/-- C6: under the tiled-master layout (`tile`) with work-area width `W`
and split factor `f`, when the monitor's arrangement list holds exactly
one master and one stack client, both tiled, with `nmaster = 1` (and sane
geometry so the size-hint resolver passes the proposal through), the
master's on-screen width is `⌊W * f⌋`, the stack client's is
`W - ⌊W * f⌋`, and the two widths sum to `W`. -/
theorem tile_two_widths (s : WM) (mi : Nat) (ida idb : Nat)
    (hcl : (monAt s mi).clients = [ida, idb])
    (hta : isTiled s ida = true) (htb : isTiled s idb = true)
    (hnm : (monAt s mi).nmaster = 1)
    (hliveA : hasC s ida = true) (hliveB : hasC s idb = true)
    (hmonA : (findC s ida).mon = mi) (hmonB : (findC s idb).mon = mi)
    (hxbwA : (findC s ida).xbw = (findC s ida).bw)
    (hxbwB : (findC s idb).xbw = (findC s idb).bw)
    (hasA : (monAt s mi).curLt.hasArrange = true)
    (hr : s.resizehints = false)
    (hgx : (monAt s mi).wx ≤ s.sw) (hgy : (monAt s mi).wy ≤ s.sh)
    (hgxw : 0 ≤ (monAt s mi).wx + (monAt s mi).ww)
    (hgyh : 0 ≤ (monAt s mi).wy + (monAt s mi).wh)
    (hmw0 : 0 ≤ (monAt s mi).wx + truncQ (((monAt s mi).ww : Rat) * (monAt s mi).mfact))
    (hmwsw : (monAt s mi).wx + truncQ (((monAt s mi).ww : Rat) * (monAt s mi).mfact) ≤ s.sw)
    (h1A : 1 ≤ truncQ (((monAt s mi).ww : Rat) * (monAt s mi).mfact) - 2 * (findC s ida).bw)
    (hbA : s.bh ≤ truncQ (((monAt s mi).ww : Rat) * (monAt s mi).mfact) - 2 * (findC s ida).bw)
    (h1B : 1 ≤ (monAt s mi).ww - truncQ (((monAt s mi).ww : Rat) * (monAt s mi).mfact) - 2 * (findC s idb).bw)
    (hbB : s.bh ≤ (monAt s mi).ww - truncQ (((monAt s mi).ww : Rat) * (monAt s mi).mfact) - 2 * (findC s idb).bw)
    (h1hA : 1 ≤ (monAt s mi).wh - 2 * (findC s ida).bw)
    (hbhA : s.bh ≤ (monAt s mi).wh - 2 * (findC s ida).bw)
    (h1hB : 1 ≤ (monAt s mi).wh - 2 * (findC s idb).bw)
    (hbhB : s.bh ≤ (monAt s mi).wh - 2 * (findC s idb).bw)
    (hww0 : 0 ≤ (monAt s mi).ww) (hf0 : 0 ≤ (monAt s mi).mfact)
    (hne : idb ≠ ida) :
    frameW (findC (tile s mi) ida) =
      ⌊((monAt s mi).ww : Rat) * (monAt s mi).mfact⌋ ∧
    frameW (findC (tile s mi) idb) =
      (monAt s mi).ww - ⌊((monAt s mi).ww : Rat) * (monAt s mi).mfact⌋ ∧
    frameW (findC (tile s mi) ida) + frameW (findC (tile s mi) idb) =
      (monAt s mi).ww := by
  have hn2 : countTiled s (monAt s mi).clients = 2 := by
    rw [hcl]
    unfold countTiled
    simp [hta, htb]
  unfold tile
  dsimp only
  rw [hn2, hcl, hnm]
  rw [if_neg (by decide), if_pos (by decide), if_pos (by decide)]
  unfold tileLoop
  dsimp only
  rw [if_pos hta, hnm]
  rw [if_pos (by decide)]
  simp only [Int.sub_zero, Int.add_zero, Int.zero_add,
    show ((2 ⊓ 1 - 0 : Nat) : Int) = 1 by decide, Int.ediv_one]
  set s1 : WM := animateclient s ida (monAt s mi).wx (monAt s mi).wy
    (truncQ (((monAt s mi).ww : Rat) * (monAt s mi).mfact) -
      2 * (findC s ida).bw)
    ((monAt s mi).wh - 2 * (findC s ida).bw) false with hs1
  have hm1 : s1.mons = s.mons := by
    rw [hs1]; apply mons_animateclient
  have hg1 : GeomOnly s s1 := by
    rw [hs1]; apply geom_animateclient
  have hfB : findC s1 idb = findC s idb := by
    rw [hs1]; exact findC_animateclient_ne _ _ _ _ _ _ _ _ hne
  have htb1 : isTiled s1 idb = true := by
    rw [isTiled_congr hm1 idb hfB]; exact htb
  unfold tileLoop
  dsimp only
  rw [if_pos htb1]
  rw [monAt_congr_mons hm1 mi, hnm]
  rw [if_neg (by decide)]
  simp only [Int.sub_zero, Int.add_zero, Int.zero_add,
    show ((2 - (0 + 1) : Nat) : Int) = 1 by decide, Int.ediv_one]
  rw [hfB]
  unfold tileLoop
  set s2 : WM := animateclient s1 idb
    ((monAt s mi).wx + truncQ (((monAt s mi).ww : Rat) * (monAt s mi).mfact))
    (monAt s mi).wy
    ((monAt s mi).ww - truncQ (((monAt s mi).ww : Rat) * (monAt s mi).mfact) -
      2 * (findC s idb).bw)
    ((monAt s mi).wh - 2 * (findC s idb).bw) false with hs2
  have hfA' : (findC s ida).isfloating = false := by
    unfold isTiled at hta
    dsimp only at hta
    simp only [Bool.and_eq_true, Bool.not_eq_true'] at hta
    exact hta.1.1
  have hfBfl : (findC s idb).isfloating = false := by
    unfold isTiled at htb
    dsimp only at htb
    simp only [Bool.and_eq_true, Bool.not_eq_true'] at htb
    exact htb.1.1
  have haA : (monAt s (findC s ida).mon).curLt.hasArrange = true := by
    rw [hmonA]; exact hasA
  have keyA := animate_frame s ida (monAt s mi).wx (monAt s mi).wy
    (truncQ (((monAt s mi).ww : Rat) * (monAt s mi).mfact) -
      2 * (findC s ida).bw)
    ((monAt s mi).wh - 2 * (findC s ida).bw)
    hliveA hgx hgy (by omega) (by omega) (by omega) (by omega) (by omega)
    (by omega) hr hfA' haA hxbwA
  rw [← hs1] at keyA
  have hliveB1 : hasC s1 idb = true := by
    rw [hs1, hasC_animateclient]; exact hliveB
  have hfBfl1 : (findC s1 idb).isfloating = false := by
    rw [hfB]; exact hfBfl
  have haB1 : (monAt s1 (findC s1 idb).mon).curLt.hasArrange = true := by
    rw [hfB, hmonB, monAt_congr_mons hm1 mi]; exact hasA
  have hxbwB1 : (findC s1 idb).xbw = (findC s1 idb).bw := by
    rw [hfB]; exact hxbwB
  have keyB := animate_frame s1 idb
    ((monAt s mi).wx + truncQ (((monAt s mi).ww : Rat) * (monAt s mi).mfact))
    (monAt s mi).wy
    ((monAt s mi).ww - truncQ (((monAt s mi).ww : Rat) * (monAt s mi).mfact) -
      2 * (findC s idb).bw)
    ((monAt s mi).wh - 2 * (findC s idb).bw)
    hliveB1 (by rw [hg1.sw]; omega) (by rw [hg1.sh]; exact hgy)
    (by rw [hfB]; omega) (by rw [hfB]; omega)
    (by omega) (by omega)
    (by rw [hg1.bh]; omega) (by rw [hg1.bh]; omega)
    (by rw [hg1.resizehints]; exact hr) hfBfl1 haB1 hxbwB1
  rw [← hs2] at keyB
  have hfA2 : findC s2 ida = findC s1 ida := by
    rw [hs2]
    exact findC_animateclient_ne _ _ _ _ _ _ _ _ (fun h => hne h.symm)
  have hTF : truncQ (((monAt s mi).ww : Rat) * (monAt s mi).mfact) =
      ⌊((monAt s mi).ww : Rat) * (monAt s mi).mfact⌋ :=
    truncQ_eq_floor _ (mul_nonneg (by exact_mod_cast hww0) hf0)
  obtain ⟨a1, a2, a3, a4⟩ := keyA
  obtain ⟨b1, b2, b3, b4⟩ := keyB
  rw [hfB] at b3
  unfold frameW
  rw [hfA2]
  refine ⟨?_, ?_, ?_⟩ <;> omega

/-- Witness for the tiled-master width claim on the concrete state:
W = 1920, f = 11/20, master width 1056. -/
theorem tile_two_widths_witness :
    frameW (findC (tile exTileWM 0) 10) =
      ⌊((monAt exTileWM 0).ww : Rat) * (monAt exTileWM 0).mfact⌋ ∧
    frameW (findC (tile exTileWM 0) 10) +
      frameW (findC (tile exTileWM 0) 11) = (monAt exTileWM 0).ww := by
  have hmw : truncQ (((monAt exTileWM 0).ww : Rat) * (monAt exTileWM 0).mfact)
      = 1056 := by
    show truncQ (((1920 : Int) : Rat) * (11 / 20)) = 1056
    unfold truncQ
    rw [show ((1920 : Int) : Rat) * (11 / 20) = 1056 by norm_num]
    rw [if_pos (by norm_num)]
    decide
  have h := tile_two_widths exTileWM 0 10 11 (by decide) (by decide)
    (by decide) (by decide) (by decide) (by decide) (by decide) (by decide)
    (by decide) (by decide) (by decide) (by decide) (by decide) (by decide)
    (by decide) (by decide) (by rw [hmw]; decide) (by rw [hmw]; decide)
    (by rw [hmw]; decide) (by rw [hmw]; decide) (by rw [hmw]; decide)
    (by rw [hmw]; decide) (by decide) (by decide) (by decide) (by decide)
    (by decide) (by show (0 : Rat) ≤ 11 / 20; norm_num) (by decide)
  exact ⟨h.1, h.2.2⟩

theorem hasC_congr_store {s1 s2 : WM} (h : s1.store = s2.store) (cid : Nat) :
    hasC s1 cid = hasC s2 cid := by
  unfold hasC
  rw [h]

theorem detachstack_monAt_ne (s : WM) (cid : Nat) (mj : Nat)
    (h : mj ≠ (findC s cid).mon) :
    monAt (detachstack s cid) mj = monAt s mj := by
  unfold detachstack
  dsimp only
  split
  · rw [monAt_updMon_ne _ _ _ _ h, monAt_updMon_ne _ _ _ _ h]
  · rw [monAt_updMon_ne _ _ _ _ h]

theorem detachstack_clients (s : WM) (cid : Nat) (mj : Nat) :
    (monAt (detachstack s cid) mj).clients = (monAt s mj).clients := by
  unfold detachstack
  dsimp only
  split
  · rw [monProj_updMon Monitor.clients _ _ _ _ (by intro m; rfl),
      monProj_updMon Monitor.clients _ _ _ _ (by intro m; rfl)]
  · rw [monProj_updMon Monitor.clients _ _ _ _ (by intro m; rfl)]

theorem attach_clients_at (s : WM) (cid mj : Nat)
    (hm : (findC s cid).mon = mj) (hj : mj < s.mons.length) :
    (monAt (attach s cid) mj).clients = cid :: (monAt s mj).clients := by
  unfold attach
  rw [hm, monAt_updMon_self _ _ _ hj]

theorem attach_monAt_ne (s : WM) (cid mj : Nat)
    (h : mj ≠ (findC s cid).mon) :
    monAt (attach s cid) mj = monAt s mj := by
  unfold attach
  rw [monAt_updMon_ne _ _ _ _ h]

theorem attach_stack (s : WM) (cid mj : Nat) :
    (monAt (attach s cid) mj).stack = (monAt s mj).stack := by
  unfold attach
  rw [monProj_updMon Monitor.stack _ _ _ _ (by intro m; rfl)]

theorem attach_mons_length (s : WM) (cid : Nat) :
    (attach s cid).mons.length = s.mons.length := by
  unfold attach
  exact mons_updMon_length _ _ _

theorem attachstack_stack_at (s : WM) (cid mj : Nat)
    (hm : (findC s cid).mon = mj) (hj : mj < s.mons.length) :
    (monAt (attachstack s cid) mj).stack = cid :: (monAt s mj).stack := by
  unfold attachstack
  rw [hm, monAt_updMon_self _ _ _ hj]

theorem attachstack_monAt_ne (s : WM) (cid mj : Nat)
    (h : mj ≠ (findC s cid).mon) :
    monAt (attachstack s cid) mj = monAt s mj := by
  unfold attachstack
  rw [monAt_updMon_ne _ _ _ _ h]

theorem attachstack_clients (s : WM) (cid mj : Nat) :
    (monAt (attachstack s cid) mj).clients = (monAt s mj).clients := by
  unfold attachstack
  rw [monProj_updMon Monitor.clients _ _ _ _ (by intro m; rfl)]

theorem migrateLoop_spec (li : Nat) : ∀ (L : List Nat) (s : WM),
    (monAt s li).clients = L → L.Nodup →
    li < s.mons.length → li ≠ 0 →
    (∀ cid ∈ L, hasC s cid = true) →
    (∀ cid ∈ L, (findC s cid).mon = li) →
    (monAt (migrateLoop s li L.length) 0).clients =
      L.reverse ++ (monAt s 0).clients ∧
    (monAt (migrateLoop s li L.length) 0).stack =
      L.reverse ++ (monAt s 0).stack ∧
    (∀ cid ∈ L, (findC (migrateLoop s li L.length) cid).mon = 0) ∧
    (∀ cid2, cid2 ∉ L → findC (migrateLoop s li L.length) cid2 = findC s cid2) ∧
    (∀ cid2, hasC (migrateLoop s li L.length) cid2 = hasC s cid2) ∧
    (migrateLoop s li L.length).mons.length = s.mons.length ∧
    (migrateLoop s li L.length).selmon = s.selmon := by
  intro L
  induction L with
  | nil =>
      intro s hcl _ _ _ _ _
      exact ⟨rfl, rfl, fun cid h => absurd h (List.not_mem_nil cid),
        fun cid2 _ => rfl, fun cid2 => rfl, rfl, rfl⟩
  | cons cid0 rest ih =>
      intro s hcl hnodup hlt hne hlive hmon
      simp only [List.length_cons]
      unfold migrateLoop
      rw [hcl]
      dsimp only
      obtain ⟨hn0, hnr⟩ := List.nodup_cons.mp hnodup
      set s1 : WM := updMon s li
        (fun m => { m with clients := m.clients.tail }) with hs1
      set s2 : WM := detachstack s1 cid0 with hs2
      set s3 : WM := updC s2 cid0 (fun c => { c with mon := 0 }) with hs3
      set s4 : WM := attach s3 cid0 with hs4
      set s5 : WM := attachstack s4 cid0 with hs5
      have hmem0 : cid0 ∈ cid0 :: rest := List.mem_cons_self _ _
      have hfind1 : ∀ c2, findC s1 c2 = findC s c2 := fun c2 => rfl
      have hhas1 : ∀ c2, hasC s1 c2 = hasC s c2 := fun c2 => rfl
      have hm1cl : (monAt s1 li).clients = rest := by
        rw [hs1, monAt_updMon_self _ _ _ hlt]
        dsimp only
        rw [hcl]
        rfl
      have hm10 : monAt s1 0 = monAt s 0 := by
        rw [hs1]
        exact monAt_updMon_ne _ _ _ _ (Ne.symm hne)
      have hmon0s1 : (findC s1 cid0).mon = li := by
        rw [hfind1]
        exact hmon cid0 hmem0
      have hfind2 : ∀ c2, findC s2 c2 = findC s1 c2 := by
        rw [hs2]
        exact fun c2 => findC_congr_store (detachstack_store s1 cid0) c2
      have hhas2 : ∀ c2, hasC s2 c2 = hasC s1 c2 := by
        rw [hs2]
        exact fun c2 => hasC_congr_store (detachstack_store s1 cid0) c2
      have hm20 : monAt s2 0 = monAt s 0 := by
        rw [hs2, detachstack_monAt_ne s1 cid0 0
          (by rw [hmon0s1]; exact Ne.symm hne)]
        exact hm10
      have hm2cl : (monAt s2 li).clients = rest := by
        rw [hs2, detachstack_clients]
        exact hm1cl
      have hlive2 : hasC s2 cid0 = true := by
        rw [hhas2, hhas1]
        exact hlive cid0 hmem0
      have hfind3self : findC s3 cid0 = { findC s2 cid0 with mon := 0 } := by
        rw [hs3]
        exact findC_updC_self _ _ _ (by intro c; rfl) hlive2
      have hmon3 : (findC s3 cid0).mon = 0 := by
        rw [hfind3self]
      have hfind3ne : ∀ c2, c2 ≠ cid0 → findC s3 c2 = findC s2 c2 := by
        rw [hs3]
        exact fun c2 h => findC_updC_ne _ _ _ _ (by intro c; rfl) h
      have hhas3 : ∀ c2, hasC s3 c2 = hasC s2 c2 := by
        rw [hs3]
        exact fun c2 => hasC_updC _ _ _ _ (by intro c; rfl)
      have hmon3mons : monAt s3 = monAt s2 := by
        rw [hs3]
        exact funext (fun mj => monAt_congr_mons (updC_mons _ _ _) mj)
      have hfind54 : ∀ c2, findC s5 c2 = findC s3 c2 := fun c2 => rfl
      have hhas54 : ∀ c2, hasC s5 c2 = hasC s3 c2 := fun c2 => rfl
      have hlen3 : s3.mons.length = s.mons.length := by
        rw [hs3, updC_mons, hs2, detachstack_mons_length, hs1,
          mons_updMon_length]
      have hlen5 : s5.mons.length = s.mons.length := by
        rw [hs5, attachstack_mons_length, hs4, attach_mons_length, hlen3]
      have h0lt : (0 : Nat) < s.mons.length := by omega
      have hm40cl : (monAt s4 0).clients = cid0 :: (monAt s 0).clients := by
        rw [hs4, attach_clients_at s3 cid0 0 hmon3 (by rw [hlen3]; exact h0lt),
          hmon3mons, hm20]
      have hm50cl : (monAt s5 0).clients = cid0 :: (monAt s 0).clients := by
        rw [hs5, attachstack_clients]
        exact hm40cl
      have hfind4self : findC s4 cid0 = findC s3 cid0 := rfl
      have hmon4 : (findC s4 cid0).mon = 0 := hmon3
      have hm40st : (monAt s4 0).stack = (monAt s 0).stack := by
        rw [hs4, attach_stack, hmon3mons]
        have h2 := congrArg Monitor.stack hm20
        exact h2
      have hm50st : (monAt s5 0).stack = cid0 :: (monAt s 0).stack := by
        rw [hs5, attachstack_stack_at s4 cid0 0 hmon4
          (by rw [hs4, attach_mons_length, hlen3]; exact h0lt)]
        rw [hm40st]
      have hm5licl : (monAt s5 li).clients = rest := by
        rw [hs5, attachstack_clients, hs4,
          attach_monAt_ne s3 cid0 li (by rw [hmon3]; exact hne), hmon3mons]
        exact hm2cl
      have hfind5ne : ∀ c2, c2 ≠ cid0 → findC s5 c2 = findC s c2 := by
        intro c2 h
        rw [hfind54, hfind3ne c2 h, hfind2, hfind1]
      have hhas5 : ∀ c2, hasC s5 c2 = hasC s c2 := by
        intro c2
        rw [hhas54, hhas3, hhas2, hhas1]
      have hsel5 : s5.selmon = s.selmon := by
        rw [hs5, hs4, hs3, hs2]
        show (detachstack s1 cid0).selmon = s.selmon
        rw [detachstack_selmon, hs1]
        rfl
      have hres := ih s5 hm5licl hnr (by rw [hlen5]; exact hlt) hne
        (fun cid hm => by
          rw [hhas5]
          exact hlive cid (List.mem_cons_of_mem _ hm))
        (fun cid hm => by
          rw [hfind5ne cid (fun h => hn0 (h ▸ hm))]
          exact hmon cid (List.mem_cons_of_mem _ hm))
      obtain ⟨r1, r2, r3, r4, r5, r6, r7⟩ := hres
      refine ⟨?_, ?_, ?_, ?_, ?_, ?_, ?_⟩
      · rw [r1, hm50cl]
        simp [List.reverse_cons, List.append_assoc]
      · rw [r2, hm50st]
        simp [List.reverse_cons, List.append_assoc]
      · intro cid hm
        rcases List.mem_cons.mp hm with heq | hmr
        · subst heq
          rw [r4 cid hn0, hfind54]
          exact hmon3
        · exact r3 cid hmr
      · intro c2 hc2
        have hne2 : c2 ≠ cid0 := fun h => hc2 (by rw [h]; exact hmem0)
        have hnr2 : c2 ∉ rest := fun h => hc2 (List.mem_cons_of_mem _ h)
        rw [r4 c2 hnr2, hfind5ne c2 hne2]
      · intro c2
        rw [r5 c2, hhas5]
      · rw [r6, hlen5]
      · rw [r7, hsel5]

theorem getD_dropLast {α : Type} (l : List α) (i : Nat) (d : α)
    (h : i + 1 < l.length) : l.dropLast.getD i d = l.getD i d := by
  rw [List.getD_eq_getElem?_getD, List.getD_eq_getElem?_getD,
    List.getElem?_dropLast]
  rw [if_pos (by omega)]

theorem monAt_dropLast (t : WM) (h : 1 < t.mons.length) :
    monAt { t with mons := t.mons.dropLast } 0 = monAt t 0 := by
  unfold monAt
  dsimp only
  exact getD_dropLast t.mons 0 {} (by omega)

/-- C2 (amended): when output reconciliation removes the last monitor,
every client of that monitor is migrated to the first monitor — its owner
field is set to 0 and it is re-attached to the first monitor's arrangement
and stack lists — and no client record is created or destroyed; but
because each client is popped from the head of the dying list and pushed
onto the head of the surviving lists, the migrated clients appear at the
head of the surviving monitor's lists in REVERSED relative order. -/
theorem updategeom_shrink_migrates (s : WM)
    (hlen2 : 2 ≤ s.mons.length)
    (hnodup : (monAt s (s.mons.length - 1)).clients.Nodup)
    (hlive : ∀ cid ∈ (monAt s (s.mons.length - 1)).clients,
      hasC s cid = true)
    (hmon : ∀ cid ∈ (monAt s (s.mons.length - 1)).clients,
      (findC s cid).mon = s.mons.length - 1) :
    (monAt (updategeomShrink s (s.mons.length - 1)) 0).clients =
      (monAt s (s.mons.length - 1)).clients.reverse ++
        (monAt s 0).clients ∧
    (monAt (updategeomShrink s (s.mons.length - 1)) 0).stack =
      (monAt s (s.mons.length - 1)).clients.reverse ++ (monAt s 0).stack ∧
    (∀ cid ∈ (monAt s (s.mons.length - 1)).clients,
      (findC (updategeomShrink s (s.mons.length - 1)) cid).mon = 0) ∧
    (∀ cid2, hasC (updategeomShrink s (s.mons.length - 1)) cid2 =
      hasC s cid2) ∧
    (updategeomShrink s (s.mons.length - 1)).mons.length =
      s.mons.length - 1 := by
  have hone : s.mons.length - (s.mons.length - 1) = 1 := by omega
  unfold updategeomShrink
  rw [hone]
  unfold shrinkIter
  unfold shrinkIter
  unfold shrinkStep
  dsimp only
  have hres := migrateLoop_spec (s.mons.length - 1)
    (monAt s (s.mons.length - 1)).clients s rfl hnodup (by omega) (by omega)
    hlive hmon
  obtain ⟨r1, r2, r3, r4, r5, r6, r7⟩ := hres
  split
  · refine ⟨?_, ?_, ?_, ?_, ?_⟩
    · rw [monAt_dropLast _ (by dsimp only; omega)]
      exact r1
    · rw [monAt_dropLast _ (by dsimp only; omega)]
      exact r2
    · exact r3
    · exact r5
    · dsimp only
      rw [List.length_dropLast]
      omega
  · refine ⟨?_, ?_, ?_, ?_, ?_⟩
    · rw [monAt_dropLast _ (by omega)]
      exact r1
    · rw [monAt_dropLast _ (by omega)]
      exact r2
    · exact r3
    · exact r5
    · rw [List.length_dropLast]
      omega

/-- C2 (counterexample): the dying monitor owns clients [1, 2]; after the
shrink both reappear on the surviving monitor's arrangement list, but as
[2, 1] — the relative order is reversed, contradicting the claim that the
relative order is preserved. -/
theorem updategeom_shrink_counterexample :
    (monAt exShrinkWM 1).clients = [1, 2] ∧
    (monAt exShrinkWM 0).clients = [] ∧
    (monAt (updategeomShrink exShrinkWM 1) 0).clients = [2, 1] ∧
    ¬((monAt (updategeomShrink exShrinkWM 1) 0).clients = [1, 2]) := by
  decide

/-- Witness for the amended shrink claim on the concrete two-monitor
state. -/
theorem updategeom_shrink_migrates_witness :
    (monAt (updategeomShrink exShrinkWM (exShrinkWM.mons.length - 1))
      0).clients =
      (monAt exShrinkWM (exShrinkWM.mons.length - 1)).clients.reverse ++
        (monAt exShrinkWM 0).clients ∧
    (∀ cid ∈ (monAt exShrinkWM (exShrinkWM.mons.length - 1)).clients,
      (findC (updategeomShrink exShrinkWM (exShrinkWM.mons.length - 1))
        cid).mon = 0) ∧
    (updategeomShrink exShrinkWM (exShrinkWM.mons.length - 1)).mons.length =
      exShrinkWM.mons.length - 1 := by
  have h := updategeom_shrink_migrates exShrinkWM (by decide) (by decide)
    (by decide) (by decide)
  exact ⟨h.1, h.2.2.1, h.2.2.2.2⟩

theorem monAt_mView_eq {s1 s2 : WM} (h : ViewEq s1 s2) (mi : Nat) :
    mView (monAt s2 mi) = mView (monAt s1 mi) :=
  monAt_norm_eq mView (Eq.refl _) h.mons_view mi

theorem mfield_eq_of_view {A : Type} (p : Monitor → A)
    (hp : ∀ m, p (mView m) = p m) {s1 s2 : WM} (h : ViewEq s1 s2)
    (mi : Nat) : p (monAt s2 mi) = p (monAt s1 mi) := by
  have h2 := congrArg p (monAt_mView_eq h mi)
  rwa [hp, hp] at h2

theorem getD_congr_default {A : Type} (l : List A) (i : Nat) (d1 d2 : A)
    (h : i < l.length) : l.getD i d1 = l.getD i d2 := by
  rw [List.getD_eq_getElem?_getD, List.getD_eq_getElem?_getD,
    List.getElem?_eq_getElem h]
  rfl

theorem stackCoh_updMon (s : WM) (mi : Nat) (f : Monitor → Monitor)
    (hf : ∀ m, (f m).stack = m.stack) (hc : StackCoh s) :
    StackCoh (updMon s mi f) := by
  intro mj cid hmem
  rw [monProj_updMon Monitor.stack _ _ _ _ hf] at hmem
  show (findC (updMon s mi f) cid).mon = mj
  rw [findC_congr_store (updMon_store s mi f) cid]
  exact hc mj cid hmem

theorem findC_mon_updC (s : WM) (cid cid2 : Nat) (f : Client → Client)
    (hf : ∀ c, (f c).cid = c.cid) (hm : ∀ c, (f c).mon = c.mon) :
    (findC (updC s cid f) cid2).mon = (findC s cid2).mon := by
  simp only [findC, updC_pred_comm s cid f hf cid2]
  cases hc : s.store.find? (fun c => c.cid = cid2) with
  | none => rfl
  | some c =>
      simp only [Option.map_some', Option.getD_some]
      by_cases h : c.cid = cid
      · rw [if_pos h]
        exact hm c
      · rw [if_neg h]

theorem stackCoh_updC (s : WM) (cid : Nat) (f : Client → Client)
    (hf : ∀ c, (f c).cid = c.cid) (hm : ∀ c, (f c).mon = c.mon)
    (hc : StackCoh s) : StackCoh (updC s cid f) := by
  intro mj cid2 hmem
  rw [monAt_congr_mons (updC_mons s cid f) mj] at hmem
  rw [findC_mon_updC s cid cid2 f hf hm]
  exact hc mj cid2 hmem

theorem detachstack_stack_subset (s : WM) (cid : Nat) (mj : Nat) :
    ∀ x ∈ (monAt (detachstack s cid) mj).stack, x ∈ (monAt s mj).stack := by
  intro x hx
  unfold detachstack at hx
  dsimp only at hx
  by_cases hsplit : (monAt (updMon s (findC s cid).mon
      (fun m => { m with stack := m.stack.erase cid }))
      (findC s cid).mon).sel = some cid
  · rw [if_pos hsplit] at hx
    rw [monProj_updMon Monitor.stack _ _ _ _ (by intro m; rfl)] at hx
    by_cases hj : mj = (findC s cid).mon
    · subst hj
      by_cases hlt : (findC s cid).mon < s.mons.length
      · rw [monAt_updMon_self _ _ _ hlt] at hx
        dsimp only at hx
        exact List.mem_of_mem_erase hx
      · rw [monAt_updMon_ge _ _ _ (Nat.le_of_not_lt hlt)] at hx
        exact hx
    · rw [monAt_updMon_ne _ _ _ _ hj] at hx
      exact hx
  · rw [if_neg hsplit] at hx
    by_cases hj : mj = (findC s cid).mon
    · subst hj
      by_cases hlt : (findC s cid).mon < s.mons.length
      · rw [monAt_updMon_self _ _ _ hlt] at hx
        dsimp only at hx
        exact List.mem_of_mem_erase hx
      · rw [monAt_updMon_ge _ _ _ (Nat.le_of_not_lt hlt)] at hx
        exact hx
    · rw [monAt_updMon_ne _ _ _ _ hj] at hx
      exact hx

theorem stackCoh_detachstack (s : WM) (cid : Nat) (hc : StackCoh s) :
    StackCoh (detachstack s cid) := by
  intro mj cid2 hmem
  have hmem2 := detachstack_stack_subset s cid mj cid2 hmem
  rw [findC_congr_store (detachstack_store s cid) cid2]
  exact hc mj cid2 hmem2

theorem stackCoh_attachstack (s : WM) (cid : Nat) (hc : StackCoh s) :
    StackCoh (attachstack s cid) := by
  intro mj cid2 hmem
  rw [findC_congr_store (attachstack_store s cid) cid2]
  unfold attachstack at hmem
  by_cases hj : mj = (findC s cid).mon
  · subst hj
    by_cases hlt : (findC s cid).mon < s.mons.length
    · rw [monAt_updMon_self _ _ _ hlt] at hmem
      dsimp only at hmem
      rcases List.mem_cons.mp hmem with heq | hmm
      · subst heq
        rfl
      · exact hc _ cid2 hmm
    · rw [monAt_updMon_ge _ _ _ (Nat.le_of_not_lt hlt)] at hmem
      exact hc _ cid2 hmem
  · rw [monAt_updMon_ne _ _ _ _ hj] at hmem
    exact hc mj cid2 hmem

theorem stackCoh_withIsdesktop (s : WM) (b : Bool) (hc : StackCoh s) :
    StackCoh { s with isdesktop := b } :=
  fun mj cid hm => hc mj cid hm

theorem stackCoh_withSelmon (s : WM) (v : Nat) (hc : StackCoh s) :
    StackCoh { s with selmon := v } :=
  fun mj cid hm => hc mj cid hm

theorem stackCoh_focusSetSel (s : WM) (cand : Option Nat) (hc : StackCoh s) :
    StackCoh (focusSetSel s cand) := by
  unfold focusSetSel
  exact stackCoh_updMon _ _ _ (by intro m; rfl) hc

theorem stackCoh_focusGesture (s : WM) (hc : StackCoh s) :
    StackCoh (focusGesture s) := by
  unfold focusGesture
  exact stackCoh_updMon _ _ _ (by intro m; rfl) hc

theorem stackCoh_focusSwitchMon (s : WM) (cid : Nat) (hc : StackCoh s) :
    StackCoh (focusSwitchMon s cid) := by
  unfold focusSwitchMon
  split
  · exact stackCoh_withSelmon _ _ hc
  · exact hc

theorem stackCoh_focusClearUrgent (s : WM) (cid : Nat) (hc : StackCoh s) :
    StackCoh (focusClearUrgent s cid) := by
  unfold focusClearUrgent
  split
  · exact stackCoh_updC _ _ _ (by intro c; rfl) (by intro c; rfl) hc
  · exact hc

theorem stackCoh_focus (s : WM) (copt : Option Nat) (hc : StackCoh s) :
    StackCoh (focus s copt) := by
  unfold focus
  dsimp only
  cases hcand : focusCand s copt with
  | none =>
      dsimp only
      exact stackCoh_withIsdesktop _ _
        (stackCoh_focusGesture _ (stackCoh_focusSetSel _ _ hc))
  | some cid =>
      dsimp only
      exact stackCoh_withIsdesktop _ _
        (stackCoh_focusGesture _ (stackCoh_focusSetSel _ _
          (stackCoh_attachstack _ _ (stackCoh_detachstack _ _
            (stackCoh_focusClearUrgent _ _ (stackCoh_focusSwitchMon _ _
              hc))))))

theorem focus_none_selmon (s : WM) (hc : StackCoh s) :
    (focus s none).selmon = s.selmon := by
  unfold focus
  dsimp only
  cases hcand : focusCand s none with
  | none => rfl
  | some cid =>
      dsimp only
      have hmon : (findC s cid).mon = s.selmon := by
        unfold focusCand at hcand
        have hspec := stackFindVis_spec s (monAt s s.selmon).stack cid hcand
        exact hc s.selmon cid hspec.1
      show (detachstack (focusClearUrgent (focusSwitchMon s cid) cid)
        cid).selmon = s.selmon
      rw [detachstack_selmon, focusClearUrgent_selmon, focusSwitchMon_selmon]
      exact hmon

theorem selmon_togglebar (s : WM) : (togglebar s).selmon = s.selmon := by
  unfold togglebar
  dsimp only
  rw [(geom_arrange _ _).selmon]
  rfl

theorem stackCoh_togglebar (s : WM) (hc : StackCoh s) :
    StackCoh (togglebar s) := by
  unfold togglebar
  dsimp only
  refine stackCoh_of_geom (geom_arrange _ _) ?_
  unfold updatebarpos
  refine stackCoh_updMon _ _ _ (by intro m; dsimp only; split <;> rfl) ?_
  exact stackCoh_updMon _ _ _ (by intro m; rfl) hc

theorem togglebar_monProj {A : Type} (p : Monitor → A) (s : WM) (mj : Nat)
    (hview : ∀ m, p (mView m) = p m)
    (htb : ∀ m, p ({ m with
        showbar := !m.showbar,
        pertag := { m.pertag with
          showbars := modList m.pertag.showbars
            m.pertag.curtag (fun _ => !m.showbar) } }) = p m)
    (hbar : ∀ (b : Int) (m : Monitor),
      p ((fun m =>
        let m := { m with wy := m.my, wh := m.mh }
        if m.showbar then
          let m := { m with wh := m.wh - b }
          { m with by_ := if m.topbar then m.wy else m.wy + m.wh,
                   wy := if m.topbar then m.wy + b else m.wy }
        else { m with by_ := -b }) m) = p m) :
    p (monAt (togglebar s) mj) = p (monAt s mj) := by
  unfold togglebar
  dsimp only
  rw [mfield_eq_of_view p hview (viewEq_of_geom (geom_arrange _ _)) mj]
  unfold updatebarpos
  rw [monProj_updMon p _ _ _ _ (hbar _)]
  rw [monProj_updMon p _ _ _ _ htb]

theorem togglebar_showbar (s : WM) (hlen : s.selmon < s.mons.length) :
    (monAt (togglebar s) s.selmon).showbar =
      !(monAt s s.selmon).showbar := by
  unfold togglebar
  dsimp only
  rw [mfield_eq_of_view (fun m => m.showbar) (fun m => Eq.refl _)
    (viewEq_of_geom (geom_arrange _ _)) s.selmon]
  unfold updatebarpos
  rw [monProj_updMon (fun m => m.showbar) _ _ _ _
    (fun m => by dsimp only; split <;> rfl)]
  rw [monAt_updMon_self _ _ _ hlen]

theorem togglebar_showbars (s : WM) (hlen : s.selmon < s.mons.length) :
    (monAt (togglebar s) s.selmon).pertag.showbars =
      modList (monAt s s.selmon).pertag.showbars
        (monAt s s.selmon).pertag.curtag
        (fun _ => !(monAt s s.selmon).showbar) := by
  unfold togglebar
  dsimp only
  rw [mfield_eq_of_view (fun m => m.pertag.showbars) (fun m => Eq.refl _)
    (viewEq_of_geom (geom_arrange _ _)) s.selmon]
  unfold updatebarpos
  rw [monProj_updMon (fun m => m.pertag.showbars) _ _ _ _
    (fun m => by dsimp only; split <;> rfl)]
  rw [monAt_updMon_self _ _ _ hlen]

theorem setLtAt_stack (m : Monitor) (i : Nat) (v : Layout) :
    (m.setLtAt i v).stack = m.stack := by
  unfold Monitor.setLtAt
  split <;> rfl


theorem setLtAt_sellt (m : Monitor) (i : Nat) (v : Layout) :
    (m.setLtAt i v).sellt = m.sellt := by
  unfold Monitor.setLtAt
  split <;> rfl

theorem setLtAt_nmaster (m : Monitor) (i : Nat) (v : Layout) :
    (m.setLtAt i v).nmaster = m.nmaster := by
  unfold Monitor.setLtAt
  split <;> rfl

theorem setLtAt_mfact (m : Monitor) (i : Nat) (v : Layout) :
    (m.setLtAt i v).mfact = m.mfact := by
  unfold Monitor.setLtAt
  split <;> rfl

theorem setLtAt_seltags (m : Monitor) (i : Nat) (v : Layout) :
    (m.setLtAt i v).seltags = m.seltags := by
  unfold Monitor.setLtAt
  split <;> rfl

theorem setLtAt_tagsetAt (m : Monitor) (i : Nat) (v : Layout) (k : Nat) :
    (m.setLtAt i v).tagsetAt k = m.tagsetAt k := by
  unfold Monitor.setLtAt Monitor.tagsetAt
  split <;> split <;> rfl

theorem setLtAt_showbar (m : Monitor) (i : Nat) (v : Layout) :
    (m.setLtAt i v).showbar = m.showbar := by
  unfold Monitor.setLtAt
  split <;> rfl

theorem setTagsetAt_seltags (m : Monitor) (i : Nat) (v : Nat) :
    (m.setTagsetAt i v).seltags = m.seltags := by
  unfold Monitor.setTagsetAt
  split <;> rfl

theorem tagsetAt_setTagsetAt_other (m : Monitor) (k : Nat) (v : Nat)
    (hk : k ≤ 1) : (m.setTagsetAt (k ^^^ 1) v).tagsetAt k = m.tagsetAt k := by
  rcases Nat.le_one_iff_eq_zero_or_eq_one.mp hk with h | h <;> subst h <;>
    simp [Monitor.setTagsetAt, Monitor.tagsetAt]

theorem pertagReload_pertag (m : Monitor) :
    (pertagReload m).pertag = m.pertag := by
  unfold pertagReload
  dsimp only
  rw [setLtAt_pertag, setLtAt_pertag]

theorem pertagReload_nmaster (m : Monitor) :
    (pertagReload m).nmaster =
      m.pertag.nmasters.getD m.pertag.curtag m.nmaster := by
  unfold pertagReload
  dsimp only
  rw [setLtAt_nmaster, setLtAt_nmaster]

theorem pertagReload_mfact (m : Monitor) :
    (pertagReload m).mfact =
      m.pertag.mfacts.getD m.pertag.curtag m.mfact := by
  unfold pertagReload
  dsimp only
  rw [setLtAt_mfact, setLtAt_mfact]

theorem pertagReload_sellt (m : Monitor) :
    (pertagReload m).sellt =
      m.pertag.sellts.getD m.pertag.curtag m.sellt := by
  unfold pertagReload
  dsimp only
  rw [setLtAt_sellt, setLtAt_sellt]

theorem pertagReload_seltags (m : Monitor) :
    (pertagReload m).seltags = m.seltags := by
  unfold pertagReload
  dsimp only
  rw [setLtAt_seltags, setLtAt_seltags]

theorem pertagReload_tagsetAt (m : Monitor) (k : Nat) :
    (pertagReload m).tagsetAt k = m.tagsetAt k := by
  unfold pertagReload
  dsimp only
  rw [setLtAt_tagsetAt, setLtAt_tagsetAt]
  unfold Monitor.tagsetAt
  split <;> rfl

theorem pertagReload_showbar (m : Monitor) :
    (pertagReload m).showbar = m.showbar := by
  unfold pertagReload
  dsimp only
  rw [setLtAt_showbar, setLtAt_showbar]

theorem pertagReload_lt0 (m : Monitor)
    (hs : m.pertag.sellts.getD m.pertag.curtag m.sellt ≤ 1) :
    (pertagReload m).lt0 =
      pairAt (m.pertag.ltidxs.getD m.pertag.curtag (m.lt0, m.lt1)) 0 := by
  unfold pertagReload
  dsimp only
  rcases Nat.le_one_iff_eq_zero_or_eq_one.mp hs with h | h <;> rw [h] <;>
    simp [Monitor.setLtAt]

theorem pertagReload_lt1 (m : Monitor)
    (hs : m.pertag.sellts.getD m.pertag.curtag m.sellt ≤ 1) :
    (pertagReload m).lt1 =
      pairAt (m.pertag.ltidxs.getD m.pertag.curtag (m.lt0, m.lt1)) 1 := by
  unfold pertagReload
  dsimp only
  rcases Nat.le_one_iff_eq_zero_or_eq_one.mp hs with h | h <;> rw [h] <;>
    simp [Monitor.setLtAt]

theorem mons_length_of_geom {s1 s2 : WM} (h : GeomOnly s1 s2) :
    s2.mons.length = s1.mons.length := by
  have h2 := congrArg List.length h.mons_norm
  simpa using h2

theorem mons_length_of_view {s1 s2 : WM} (h : ViewEq s1 s2) :
    s2.mons.length = s1.mons.length := by
  have h2 := congrArg List.length h.mons_view
  simpa using h2

theorem togglebar_mons_length (s : WM) :
    (togglebar s).mons.length = s.mons.length := by
  unfold togglebar
  dsimp only
  rw [mons_length_of_geom (geom_arrange _ _)]
  unfold updatebarpos
  rw [mons_updMon_length, mons_updMon_length]

theorem barSync_mons_length (s : WM) :
    (barSync s).mons.length = s.mons.length := by
  unfold barSync
  split
  · exact togglebar_mons_length s
  · rfl

theorem selmon_barSync (s : WM) : (barSync s).selmon = s.selmon := by
  unfold barSync
  split
  · exact selmon_togglebar s
  · rfl

theorem stackCoh_barSync (s : WM) (hc : StackCoh s) :
    StackCoh (barSync s) := by
  unfold barSync
  split
  · exact stackCoh_togglebar s hc
  · exact hc

theorem seltagsFlip_stack (m : Monitor) :
    (seltagsFlip m).stack = m.stack := rfl

theorem tagsetWrite_stack (v : Nat) (m : Monitor) :
    (tagsetWrite v m).stack = m.stack := by
  unfold tagsetWrite Monitor.setTagsetAt
  split <;> rfl

theorem pertagReload_stack (m : Monitor) :
    (pertagReload m).stack = m.stack := by
  unfold pertagReload
  dsimp only
  rw [setLtAt_stack, setLtAt_stack]

theorem view_mons_length (st : WM) (ui : Nat) :
    (view st ui).mons.length = st.mons.length := by
  unfold view
  dsimp only
  rw [mons_length_of_geom (geom_arrange _ _),
    mons_length_of_view (viewEq_focus _ none), barSync_mons_length,
    mons_updMon_length]
  split
  · rw [mons_updMon_length, mons_updMon_length, mons_updMon_length]
  · rw [mons_updMon_length, mons_updMon_length]

theorem view_selmon_stackCoh (st : WM) (ui : Nat) (hsc : StackCoh st) :
    (view st ui).selmon = st.selmon ∧ StackCoh (view st ui) := by
  unfold view
  dsimp only
  split
  · have h4 : StackCoh (barSync (updMon (updMon (updMon (updMon st
        st.selmon seltagsFlip) st.selmon
        (tagsetWrite (ui &&& TAGMASK st))) st.selmon (pertagAdvance ui))
        st.selmon pertagReload)) :=
      stackCoh_barSync _ (stackCoh_updMon _ _ _ pertagReload_stack
        (stackCoh_updMon _ _ _ (fun m => Eq.refl _)
          (stackCoh_updMon _ _ _ (tagsetWrite_stack _)
            (stackCoh_updMon _ _ _ (fun m => Eq.refl _) hsc))))
    constructor
    · rw [(geom_arrange _ _).selmon, focus_none_selmon _ h4, selmon_barSync]
      rfl
    · exact stackCoh_of_geom (geom_arrange _ _) (stackCoh_focus _ _ h4)
  · have h4 : StackCoh (barSync (updMon (updMon (updMon st
        st.selmon seltagsFlip) st.selmon pertagSwap) st.selmon
        pertagReload)) :=
      stackCoh_barSync _ (stackCoh_updMon _ _ _ pertagReload_stack
        (stackCoh_updMon _ _ _ (fun m => Eq.refl _)
          (stackCoh_updMon _ _ _ (fun m => Eq.refl _) hsc)))
    constructor
    · rw [(geom_arrange _ _).selmon, focus_none_selmon _ h4, selmon_barSync]
      rfl
    · exact stackCoh_of_geom (geom_arrange _ _) (stackCoh_focus _ _ h4)

theorem view_zero_monProj {A : Type} (p : Monitor → A) (st : WM)
    (hlen : st.selmon < st.mons.length)
    (hview : ∀ m, p (mView m) = p m)
    (htb : ∀ m, p ({ m with
        showbar := !m.showbar,
        pertag := { m.pertag with
          showbars := modList m.pertag.showbars
            m.pertag.curtag (fun _ => !m.showbar) } }) = p m)
    (hbar : ∀ (b : Int) (m : Monitor),
      p ((fun m =>
        let m := { m with wy := m.my, wh := m.mh }
        if m.showbar then
          let m := { m with wh := m.wh - b }
          { m with by_ := if m.topbar then m.wy else m.wy + m.wh,
                   wy := if m.topbar then m.wy + b else m.wy }
        else { m with by_ := -b }) m) = p m) :
    p (monAt (view st 0) st.selmon) =
      p (pertagReload (pertagSwap (seltagsFlip (monAt st st.selmon)))) := by
  unfold view
  dsimp only
  rw [if_neg (by simp)]
  rw [mfield_eq_of_view p hview (viewEq_of_geom (geom_arrange _ _))
    st.selmon]
  rw [mfield_eq_of_view p hview (viewEq_focus _ none) st.selmon]
  have hbs : ∀ s2 : WM, p (monAt (barSync s2) st.selmon) =
      p (monAt s2 st.selmon) := by
    intro s2
    unfold barSync
    split
    · exact togglebar_monProj p s2 st.selmon hview htb hbar
    · rfl
  rw [hbs]
  have hlen1 : st.selmon < (updMon st st.selmon seltagsFlip).mons.length := by
    rw [mons_updMon_length]
    exact hlen
  have hlen2 : st.selmon < (updMon (updMon st st.selmon seltagsFlip)
      st.selmon pertagSwap).mons.length := by
    rw [mons_updMon_length]
    exact hlen1
  rw [monAt_updMon_self _ _ _ hlen2, monAt_updMon_self _ _ _ hlen1,
    monAt_updMon_self _ _ _ hlen]

theorem view_mask_monProj {A : Type} (p : Monitor → A) (st : WM) (u : Nat)
    (hlen : st.selmon < st.mons.length)
    (hmask : u &&& TAGMASK st ≠ 0)
    (hview : ∀ m, p (mView m) = p m)
    (htb : ∀ m, p ({ m with
        showbar := !m.showbar,
        pertag := { m.pertag with
          showbars := modList m.pertag.showbars
            m.pertag.curtag (fun _ => !m.showbar) } }) = p m)
    (hbar : ∀ (b : Int) (m : Monitor),
      p ((fun m =>
        let m := { m with wy := m.my, wh := m.mh }
        if m.showbar then
          let m := { m with wh := m.wh - b }
          { m with by_ := if m.topbar then m.wy else m.wy + m.wh,
                   wy := if m.topbar then m.wy + b else m.wy }
        else { m with by_ := -b }) m) = p m) :
    p (monAt (view st u) st.selmon) =
      p (pertagReload (pertagAdvance u (tagsetWrite (u &&& TAGMASK st)
        (seltagsFlip (monAt st st.selmon))))) := by
  unfold view
  dsimp only
  rw [if_pos hmask]
  rw [mfield_eq_of_view p hview (viewEq_of_geom (geom_arrange _ _))
    st.selmon]
  rw [mfield_eq_of_view p hview (viewEq_focus _ none) st.selmon]
  have hbs : ∀ s2 : WM, p (monAt (barSync s2) st.selmon) =
      p (monAt s2 st.selmon) := by
    intro s2
    unfold barSync
    split
    · exact togglebar_monProj p s2 st.selmon hview htb hbar
    · rfl
  rw [hbs]
  have hlen1 : st.selmon < (updMon st st.selmon seltagsFlip).mons.length := by
    rw [mons_updMon_length]
    exact hlen
  have hlen2 : st.selmon < (updMon (updMon st st.selmon seltagsFlip)
      st.selmon (tagsetWrite (u &&& TAGMASK st))).mons.length := by
    rw [mons_updMon_length]
    exact hlen1
  have hlen3 : st.selmon < (updMon (updMon (updMon st st.selmon seltagsFlip)
      st.selmon (tagsetWrite (u &&& TAGMASK st))) st.selmon
      (pertagAdvance u)).mons.length := by
    rw [mons_updMon_length]
    exact hlen2
  rw [monAt_updMon_self _ _ _ hlen3, monAt_updMon_self _ _ _ hlen2,
    monAt_updMon_self _ _ _ hlen1, monAt_updMon_self _ _ _ hlen]

theorem barSync_showbars (s2 : WM) (mj : Nat) (hsel2 : s2.selmon = mj)
    (hlen2 : mj < s2.mons.length) :
    (monAt (barSync s2) mj).pertag.showbars =
      (monAt s2 mj).pertag.showbars := by
  subst hsel2
  unfold barSync
  split
  case isTrue hcond =>
    rw [togglebar_showbars s2 hlen2]
    refine modList_write_same _ _ ((monAt s2 s2.selmon).showbar) _ ?_
    generalize hA : (monAt s2 s2.selmon).showbar = a at hcond ⊢
    generalize hB : (monAt s2 s2.selmon).pertag.showbars.getD
      (monAt s2 s2.selmon).pertag.curtag a = b at hcond ⊢
    cases a <;> cases b
    · exact absurd rfl hcond
    · rfl
    · rfl
    · exact absurd rfl hcond
  case isFalse hcond => rfl

theorem barSync_showbar (s2 : WM) (mj : Nat) (hsel2 : s2.selmon = mj)
    (hlen2 : mj < s2.mons.length) :
    (monAt (barSync s2) mj).showbar =
      (monAt s2 mj).pertag.showbars.getD (monAt s2 mj).pertag.curtag
        (monAt s2 mj).showbar := by
  subst hsel2
  unfold barSync
  split
  case isTrue hcond =>
    rw [togglebar_showbar s2 hlen2]
    generalize hA : (monAt s2 s2.selmon).showbar = a at hcond ⊢
    generalize hB : (monAt s2 s2.selmon).pertag.showbars.getD
      (monAt s2 s2.selmon).pertag.curtag a = b at hcond ⊢
    cases a <;> cases b
    · exact absurd rfl hcond
    · rfl
    · rfl
    · exact absurd rfl hcond
  case isFalse hcond =>
    exact not_ne_iff.mp hcond

theorem view_zero_showbar (st : WM) (hlen : st.selmon < st.mons.length) :
    (monAt (view st 0) st.selmon).showbar =
      (pertagReload (pertagSwap (seltagsFlip
        (monAt st st.selmon)))).pertag.showbars.getD
      (pertagReload (pertagSwap (seltagsFlip
        (monAt st st.selmon)))).pertag.curtag
      (pertagReload (pertagSwap (seltagsFlip
        (monAt st st.selmon)))).showbar := by
  unfold view
  dsimp only
  rw [if_neg (by simp)]
  rw [mfield_eq_of_view (fun m => m.showbar) (fun m => Eq.refl _)
    (viewEq_of_geom (geom_arrange _ _)) st.selmon]
  rw [mfield_eq_of_view (fun m => m.showbar) (fun m => Eq.refl _)
    (viewEq_focus _ none) st.selmon]
  have hlen1 : st.selmon < (updMon st st.selmon seltagsFlip).mons.length := by
    rw [mons_updMon_length]
    exact hlen
  have hlen2 : st.selmon < (updMon (updMon st st.selmon seltagsFlip)
      st.selmon pertagSwap).mons.length := by
    rw [mons_updMon_length]
    exact hlen1
  have hlen3 : st.selmon < (updMon (updMon (updMon st st.selmon seltagsFlip)
      st.selmon pertagSwap) st.selmon pertagReload).mons.length := by
    rw [mons_updMon_length]
    exact hlen2
  rw [barSync_showbar (updMon (updMon (updMon st st.selmon seltagsFlip)
    st.selmon pertagSwap) st.selmon pertagReload) st.selmon (Eq.refl _)
    hlen3]
  rw [monAt_updMon_self _ _ _ hlen2, monAt_updMon_self _ _ _ hlen1,
    monAt_updMon_self _ _ _ hlen]

theorem view_mask_showbars (st : WM) (u : Nat)
    (hlen : st.selmon < st.mons.length) (hmask : u &&& TAGMASK st ≠ 0) :
    (monAt (view st u) st.selmon).pertag.showbars =
      (monAt st st.selmon).pertag.showbars := by
  unfold view
  dsimp only
  rw [if_pos hmask]
  rw [mfield_eq_of_view (fun m => m.pertag.showbars) (fun m => Eq.refl _)
    (viewEq_of_geom (geom_arrange _ _)) st.selmon]
  rw [mfield_eq_of_view (fun m => m.pertag.showbars) (fun m => Eq.refl _)
    (viewEq_focus _ none) st.selmon]
  have hlen1 : st.selmon < (updMon st st.selmon seltagsFlip).mons.length := by
    rw [mons_updMon_length]
    exact hlen
  have hlen2 : st.selmon < (updMon (updMon st st.selmon seltagsFlip)
      st.selmon (tagsetWrite (u &&& TAGMASK st))).mons.length := by
    rw [mons_updMon_length]
    exact hlen1
  have hlen3 : st.selmon < (updMon (updMon (updMon st st.selmon seltagsFlip)
      st.selmon (tagsetWrite (u &&& TAGMASK st))) st.selmon
      (pertagAdvance u)).mons.length := by
    rw [mons_updMon_length]
    exact hlen2
  have hlen4 : st.selmon < (updMon (updMon (updMon (updMon st st.selmon
      seltagsFlip) st.selmon (tagsetWrite (u &&& TAGMASK st))) st.selmon
      (pertagAdvance u)) st.selmon pertagReload).mons.length := by
    rw [mons_updMon_length]
    exact hlen3
  rw [barSync_showbars (updMon (updMon (updMon (updMon st st.selmon
    seltagsFlip) st.selmon (tagsetWrite (u &&& TAGMASK st))) st.selmon
    (pertagAdvance u)) st.selmon pertagReload) st.selmon (Eq.refl _) hlen4]
  rw [monAt_updMon_self _ _ _ hlen3, monAt_updMon_self _ _ _ hlen2,
    monAt_updMon_self _ _ _ hlen1, monAt_updMon_self _ _ _ hlen]
  have h1 := congrArg Pertag.showbars (pertagReload_pertag
    (pertagAdvance u (tagsetWrite (u &&& TAGMASK st)
      (seltagsFlip (monAt st st.selmon)))))
  rw [h1]
  have h2 := congrArg Pertag.showbars (setTagsetAt_pertag
    (seltagsFlip (monAt st st.selmon)) (seltagsFlip
      (monAt st st.selmon)).seltags (u &&& TAGMASK st))
  exact h2

theorem tagsetWrite_pertag (v : Nat) (m : Monitor) :
    (tagsetWrite v m).pertag = m.pertag := by
  unfold tagsetWrite
  exact setTagsetAt_pertag _ _ _

theorem tagsetWrite_seltags (v : Nat) (m : Monitor) :
    (tagsetWrite v m).seltags = m.seltags := by
  unfold tagsetWrite
  exact setTagsetAt_seltags _ _ _

theorem pertagReload_activeTagset (m : Monitor) :
    (pertagReload m).activeTagset = m.activeTagset := by
  unfold Monitor.activeTagset
  rw [pertagReload_seltags, pertagReload_tagsetAt]

theorem xor_one_one (n : Nat) : n ^^^ 1 ^^^ 1 = n := by
  rw [Nat.xor_assoc, Nat.xor_self, Nat.xor_zero]

theorem ps_curtag (m : Monitor) :
    (pertagSwap (seltagsFlip m)).pertag.curtag = m.pertag.prevtag := rfl

theorem ps_active (m : Monitor) :
    (pertagSwap (seltagsFlip m)).activeTagset =
      m.tagsetAt (m.seltags ^^^ 1) := rfl

theorem ps_reloadN (m : Monitor) :
    (pertagSwap (seltagsFlip m)).pertag.nmasters.getD
      (pertagSwap (seltagsFlip m)).pertag.curtag
      (pertagSwap (seltagsFlip m)).nmaster =
    m.pertag.nmasters.getD m.pertag.prevtag m.nmaster := rfl

theorem ps_reloadF (m : Monitor) :
    (pertagSwap (seltagsFlip m)).pertag.mfacts.getD
      (pertagSwap (seltagsFlip m)).pertag.curtag
      (pertagSwap (seltagsFlip m)).mfact =
    m.pertag.mfacts.getD m.pertag.prevtag m.mfact := rfl

theorem ps_reloadS (m : Monitor) :
    (pertagSwap (seltagsFlip m)).pertag.sellts.getD
      (pertagSwap (seltagsFlip m)).pertag.curtag
      (pertagSwap (seltagsFlip m)).sellt =
    m.pertag.sellts.getD m.pertag.prevtag m.sellt := rfl

theorem ps_lt0pair (m : Monitor) :
    pairAt ((pertagSwap (seltagsFlip m)).pertag.ltidxs.getD
      (pertagSwap (seltagsFlip m)).pertag.curtag
      ((pertagSwap (seltagsFlip m)).lt0,
        (pertagSwap (seltagsFlip m)).lt1)) 0 =
    pairAt (m.pertag.ltidxs.getD m.pertag.prevtag (m.lt0, m.lt1)) 0 := rfl

theorem ps_lt1pair (m : Monitor) :
    pairAt ((pertagSwap (seltagsFlip m)).pertag.ltidxs.getD
      (pertagSwap (seltagsFlip m)).pertag.curtag
      ((pertagSwap (seltagsFlip m)).lt0,
        (pertagSwap (seltagsFlip m)).lt1)) 1 =
    pairAt (m.pertag.ltidxs.getD m.pertag.prevtag (m.lt0, m.lt1)) 1 := rfl

theorem ps_showbarsD (m : Monitor) :
    (pertagSwap (seltagsFlip m)).pertag.showbars.getD
      (pertagSwap (seltagsFlip m)).pertag.curtag
      (pertagSwap (seltagsFlip m)).showbar =
    m.pertag.showbars.getD m.pertag.prevtag m.showbar := rfl

set_option maxHeartbeats 3200000 in
/-- C9: for every state satisfying the standing invariants (stack-list
coherence, live fields matching the per-tag block at the current index,
binary `seltags`/`sellt`, per-tag arrays covering the current index) and
every tag mask that intersects `TAGMASK`, calling `view mask` and then
`view 0` (the back-toggle) restores the active tag set, the derived
current tag index, and the per-tag live configuration (master count,
split factor, selected layout slot, both layout-table entries, bar
visibility) to their values before the first call. -/
theorem view_roundtrip (s : WM) (u : Nat)
    (hlen : s.selmon < s.mons.length)
    (hsc : StackCoh s)
    (hst : (monAt s s.selmon).seltags ≤ 1)
    (hslt : (monAt s s.selmon).sellt ≤ 1)
    (hlmp : LiveMatchesPertag s s.selmon)
    (hb1 : (monAt s s.selmon).pertag.curtag <
      (monAt s s.selmon).pertag.nmasters.length)
    (hb2 : (monAt s s.selmon).pertag.curtag <
      (monAt s s.selmon).pertag.mfacts.length)
    (hb3 : (monAt s s.selmon).pertag.curtag <
      (monAt s s.selmon).pertag.sellts.length)
    (hb4 : (monAt s s.selmon).pertag.curtag <
      (monAt s s.selmon).pertag.ltidxs.length)
    (hb5 : (monAt s s.selmon).pertag.curtag <
      (monAt s s.selmon).pertag.showbars.length)
    (hmask : u &&& TAGMASK s ≠ 0) :
    (monAt (view (view s u) 0) s.selmon).activeTagset =
      (monAt s s.selmon).activeTagset ∧
    (monAt (view (view s u) 0) s.selmon).pertag.curtag =
      (monAt s s.selmon).pertag.curtag ∧
    (monAt (view (view s u) 0) s.selmon).nmaster =
      (monAt s s.selmon).nmaster ∧
    (monAt (view (view s u) 0) s.selmon).mfact =
      (monAt s s.selmon).mfact ∧
    (monAt (view (view s u) 0) s.selmon).sellt =
      (monAt s s.selmon).sellt ∧
    (monAt (view (view s u) 0) s.selmon).lt0 = (monAt s s.selmon).lt0 ∧
    (monAt (view (view s u) 0) s.selmon).lt1 = (monAt s s.selmon).lt1 ∧
    (monAt (view (view s u) 0) s.selmon).showbar =
      (monAt s s.selmon).showbar := by
  obtain ⟨hv1, hv2⟩ := view_selmon_stackCoh s u hsc
  have hL1 : (view s u).selmon < (view s u).mons.length := by
    rw [hv1, view_mons_length]
    exact hlen
  -- mask-side facts about view s u at s.selmon
  have hprev1 : (monAt (view s u) s.selmon).pertag.prevtag =
      (monAt s s.selmon).pertag.curtag := by
    have h := view_mask_monProj (fun m => m.pertag.prevtag) s u hlen hmask
      (fun m => Eq.refl _) (fun m => Eq.refl _)
      (fun b m => by dsimp only; split <;> rfl)
    refine h.trans ?_
    have h2 := congrArg (fun p => p.prevtag) (pertagReload_pertag
      (pertagAdvance u (tagsetWrite (u &&& TAGMASK s)
        (seltagsFlip (monAt s s.selmon)))))
    refine h2.trans ?_
    have h3 := congrArg (fun p => p.curtag) (tagsetWrite_pertag
      (u &&& TAGMASK s) (seltagsFlip (monAt s s.selmon)))
    exact h3
  have hseltags1 : (monAt (view s u) s.selmon).seltags =
      (monAt s s.selmon).seltags ^^^ 1 := by
    have h := view_mask_monProj (fun m => m.seltags) s u hlen hmask
      (fun m => Eq.refl _) (fun m => Eq.refl _)
      (fun b m => by dsimp only; split <;> rfl)
    refine h.trans ?_
    refine (pertagReload_seltags _).trans ?_
    exact tagsetWrite_seltags _ _
  have htagorig : (monAt (view s u) s.selmon).tagsetAt
      (monAt s s.selmon).seltags =
      (monAt s s.selmon).tagsetAt (monAt s s.selmon).seltags := by
    have h := view_mask_monProj
      (fun m => m.tagsetAt (monAt s s.selmon).seltags) s u hlen hmask
      (fun m => Eq.refl _) (fun m => Eq.refl _)
      (fun b m => by dsimp only; split <;> rfl)
    refine h.trans ?_
    refine (pertagReload_tagsetAt _ _).trans ?_
    exact tagsetAt_setTagsetAt_other (seltagsFlip (monAt s s.selmon))
      (monAt s s.selmon).seltags (u &&& TAGMASK s) hst
  have harrN : (monAt (view s u) s.selmon).pertag.nmasters =
      (monAt s s.selmon).pertag.nmasters := by
    have h := view_mask_monProj (fun m => m.pertag.nmasters) s u hlen hmask
      (fun m => Eq.refl _) (fun m => Eq.refl _)
      (fun b m => by dsimp only; split <;> rfl)
    refine h.trans ?_
    have h2 := congrArg (fun p => p.nmasters) (pertagReload_pertag
      (pertagAdvance u (tagsetWrite (u &&& TAGMASK s)
        (seltagsFlip (monAt s s.selmon)))))
    refine h2.trans ?_
    have h3 := congrArg (fun p => p.nmasters) (tagsetWrite_pertag
      (u &&& TAGMASK s) (seltagsFlip (monAt s s.selmon)))
    exact h3
  have harrF : (monAt (view s u) s.selmon).pertag.mfacts =
      (monAt s s.selmon).pertag.mfacts := by
    have h := view_mask_monProj (fun m => m.pertag.mfacts) s u hlen hmask
      (fun m => Eq.refl _) (fun m => Eq.refl _)
      (fun b m => by dsimp only; split <;> rfl)
    refine h.trans ?_
    have h2 := congrArg (fun p => p.mfacts) (pertagReload_pertag
      (pertagAdvance u (tagsetWrite (u &&& TAGMASK s)
        (seltagsFlip (monAt s s.selmon)))))
    refine h2.trans ?_
    have h3 := congrArg (fun p => p.mfacts) (tagsetWrite_pertag
      (u &&& TAGMASK s) (seltagsFlip (monAt s s.selmon)))
    exact h3
  have harrS : (monAt (view s u) s.selmon).pertag.sellts =
      (monAt s s.selmon).pertag.sellts := by
    have h := view_mask_monProj (fun m => m.pertag.sellts) s u hlen hmask
      (fun m => Eq.refl _) (fun m => Eq.refl _)
      (fun b m => by dsimp only; split <;> rfl)
    refine h.trans ?_
    have h2 := congrArg (fun p => p.sellts) (pertagReload_pertag
      (pertagAdvance u (tagsetWrite (u &&& TAGMASK s)
        (seltagsFlip (monAt s s.selmon)))))
    refine h2.trans ?_
    have h3 := congrArg (fun p => p.sellts) (tagsetWrite_pertag
      (u &&& TAGMASK s) (seltagsFlip (monAt s s.selmon)))
    exact h3
  have harrL : (monAt (view s u) s.selmon).pertag.ltidxs =
      (monAt s s.selmon).pertag.ltidxs := by
    have h := view_mask_monProj (fun m => m.pertag.ltidxs) s u hlen hmask
      (fun m => Eq.refl _) (fun m => Eq.refl _)
      (fun b m => by dsimp only; split <;> rfl)
    refine h.trans ?_
    have h2 := congrArg (fun p => p.ltidxs) (pertagReload_pertag
      (pertagAdvance u (tagsetWrite (u &&& TAGMASK s)
        (seltagsFlip (monAt s s.selmon)))))
    refine h2.trans ?_
    have h3 := congrArg (fun p => p.ltidxs) (tagsetWrite_pertag
      (u &&& TAGMASK s) (seltagsFlip (monAt s s.selmon)))
    exact h3
  have harrB : (monAt (view s u) s.selmon).pertag.showbars =
      (monAt s s.selmon).pertag.showbars := view_mask_showbars s u hlen hmask
  obtain ⟨l1, l2, l3, l4, l5, l6⟩ := hlmp
  have hvN : ∀ d : Nat, (monAt s s.selmon).pertag.nmasters.getD
      (monAt s s.selmon).pertag.curtag d = (monAt s s.selmon).nmaster := by
    intro d
    rw [getD_congr_default _ _ d (monAt s s.selmon).nmaster hb1]
    exact l1.symm
  have hvF : ∀ d : Rat, (monAt s s.selmon).pertag.mfacts.getD
      (monAt s s.selmon).pertag.curtag d = (monAt s s.selmon).mfact := by
    intro d
    rw [getD_congr_default _ _ d (monAt s s.selmon).mfact hb2]
    exact l2.symm
  have hvS : ∀ d : Nat, (monAt s s.selmon).pertag.sellts.getD
      (monAt s s.selmon).pertag.curtag d = (monAt s s.selmon).sellt := by
    intro d
    rw [getD_congr_default _ _ d (monAt s s.selmon).sellt hb3]
    exact l3.symm
  have hvL : ∀ d : Layout × Layout, (monAt s s.selmon).pertag.ltidxs.getD
      (monAt s s.selmon).pertag.curtag d =
      (monAt s s.selmon).pertag.ltidxs.getD (monAt s s.selmon).pertag.curtag
        ((monAt s s.selmon).lt0, (monAt s s.selmon).lt1) := by
    intro d
    exact getD_congr_default _ _ d _ hb4
  have hvB : ∀ d : Bool, (monAt s s.selmon).pertag.showbars.getD
      (monAt s s.selmon).pertag.curtag d = (monAt s s.selmon).showbar := by
    intro d
    rw [getD_congr_default _ _ d (monAt s s.selmon).showbar hb5]
    exact l6.symm
  refine ⟨?_, ?_, ?_, ?_, ?_, ?_, ?_, ?_⟩
  · have hz := view_zero_monProj Monitor.activeTagset (view s u) hL1
      (fun m => Eq.refl _) (fun m => Eq.refl _)
      (fun b m => by dsimp only; split <;> rfl)
    rw [hv1] at hz
    refine hz.trans ?_
    refine (pertagReload_activeTagset _).trans ?_
    refine (ps_active _).trans ?_
    rw [hseltags1, xor_one_one]
    refine htagorig.trans ?_
    rfl
  · have hz := view_zero_monProj (fun m => m.pertag.curtag) (view s u) hL1
      (fun m => Eq.refl _) (fun m => Eq.refl _)
      (fun b m => by dsimp only; split <;> rfl)
    rw [hv1] at hz
    refine hz.trans ?_
    have h2 := congrArg (fun p => p.curtag) (pertagReload_pertag
      (pertagSwap (seltagsFlip (monAt (view s u) s.selmon))))
    refine h2.trans ?_
    exact (ps_curtag _).trans hprev1
  · have hz := view_zero_monProj (fun m => m.nmaster) (view s u) hL1
      (fun m => Eq.refl _) (fun m => Eq.refl _)
      (fun b m => by dsimp only; split <;> rfl)
    rw [hv1] at hz
    refine hz.trans ?_
    refine (pertagReload_nmaster _).trans ?_
    refine (ps_reloadN _).trans ?_
    rw [harrN, hprev1]
    exact hvN _
  · have hz := view_zero_monProj (fun m => m.mfact) (view s u) hL1
      (fun m => Eq.refl _) (fun m => Eq.refl _)
      (fun b m => by dsimp only; split <;> rfl)
    rw [hv1] at hz
    refine hz.trans ?_
    refine (pertagReload_mfact _).trans ?_
    refine (ps_reloadF _).trans ?_
    rw [harrF, hprev1]
    exact hvF _
  · have hz := view_zero_monProj (fun m => m.sellt) (view s u) hL1
      (fun m => Eq.refl _) (fun m => Eq.refl _)
      (fun b m => by dsimp only; split <;> rfl)
    rw [hv1] at hz
    refine hz.trans ?_
    refine (pertagReload_sellt _).trans ?_
    refine (ps_reloadS _).trans ?_
    rw [harrS, hprev1]
    exact hvS _
  · have hsltb : (pertagSwap (seltagsFlip
        (monAt (view s u) s.selmon))).pertag.sellts.getD
        (pertagSwap (seltagsFlip
          (monAt (view s u) s.selmon))).pertag.curtag
        (pertagSwap (seltagsFlip (monAt (view s u) s.selmon))).sellt
        ≤ 1 := by
      rw [ps_reloadS, harrS, hprev1, hvS _]
      exact hslt
    have hz := view_zero_monProj (fun m => m.lt0) (view s u) hL1
      (fun m => Eq.refl _) (fun m => Eq.refl _)
      (fun b m => by dsimp only; split <;> rfl)
    rw [hv1] at hz
    refine hz.trans ?_
    refine (pertagReload_lt0 _ hsltb).trans ?_
    refine (ps_lt0pair _).trans ?_
    rw [harrL, hprev1, hvL _]
    exact l4.symm
  · have hsltb : (pertagSwap (seltagsFlip
        (monAt (view s u) s.selmon))).pertag.sellts.getD
        (pertagSwap (seltagsFlip
          (monAt (view s u) s.selmon))).pertag.curtag
        (pertagSwap (seltagsFlip (monAt (view s u) s.selmon))).sellt
        ≤ 1 := by
      rw [ps_reloadS, harrS, hprev1, hvS _]
      exact hslt
    have hz := view_zero_monProj (fun m => m.lt1) (view s u) hL1
      (fun m => Eq.refl _) (fun m => Eq.refl _)
      (fun b m => by dsimp only; split <;> rfl)
    rw [hv1] at hz
    refine hz.trans ?_
    refine (pertagReload_lt1 _ hsltb).trans ?_
    refine (ps_lt1pair _).trans ?_
    rw [harrL, hprev1, hvL _]
    exact l5.symm
  · have hz := view_zero_showbar (view s u) hL1
    rw [hv1] at hz
    refine hz.trans ?_
    rw [pertagReload_pertag, pertagReload_showbar]
    rw [ps_showbarsD, harrB, hprev1]
    exact hvB _

/-- Witness: in the concrete one-monitor state `exViewWM` (tag index 3,
previous index 2), `view 4` followed by `view 0` restores all eight
tracked components. -/
theorem view_roundtrip_witness :
    (monAt (view (view exViewWM 4) 0) exViewWM.selmon).activeTagset =
      (monAt exViewWM exViewWM.selmon).activeTagset ∧
    (monAt (view (view exViewWM 4) 0) exViewWM.selmon).pertag.curtag =
      (monAt exViewWM exViewWM.selmon).pertag.curtag ∧
    (monAt (view (view exViewWM 4) 0) exViewWM.selmon).nmaster =
      (monAt exViewWM exViewWM.selmon).nmaster ∧
    (monAt (view (view exViewWM 4) 0) exViewWM.selmon).mfact =
      (monAt exViewWM exViewWM.selmon).mfact ∧
    (monAt (view (view exViewWM 4) 0) exViewWM.selmon).sellt =
      (monAt exViewWM exViewWM.selmon).sellt ∧
    (monAt (view (view exViewWM 4) 0) exViewWM.selmon).lt0 =
      (monAt exViewWM exViewWM.selmon).lt0 ∧
    (monAt (view (view exViewWM 4) 0) exViewWM.selmon).lt1 =
      (monAt exViewWM exViewWM.selmon).lt1 ∧
    (monAt (view (view exViewWM 4) 0) exViewWM.selmon).showbar =
      (monAt exViewWM exViewWM.selmon).showbar :=
  view_roundtrip exViewWM 4 (by decide)
    (by intro mi cid hm; cases mi <;> exact absurd hm (List.not_mem_nil cid))
    (by decide) (by decide)
    ⟨rfl, rfl, rfl, rfl, rfl, rfl⟩
    (by decide) (by decide) (by decide) (by decide) (by decide)
    (by decide)

end InstantWM
